import Mathlib

/-!
# Verification of the gravlax lexical scanner

A shallow embedding of the scanner in `src/unnamed/part_001` (TypeScript).
Source text is modelled as `List Char`; the scanner state mirrors the
`scanTokens` closure variables `start`, `current`, `line` together with the
growing token list and the diagnostics reported through `error`.  The inner
`while` loops are modelled with an explicit fuel argument that is always
instantiated with `source.length - current`; since every loop advances
`current` by exactly one per iteration and every loop exits once
`current >= source.length`, fuel exhaustion coincides with the loop's own
end-of-input exit, so the fuelled functions agree with the source loops.
Number literals (JavaScript `Number.parseFloat` applied to a lexeme of shape
`digits ('.' digits)?`) are modelled exactly as rationals.
-/

namespace Gravlax

/-- TokenType enumeration, from the source `enum TokenType`. -/
inductive TokenType
  | LEFT_PAREN | RIGHT_PAREN | LEFT_BRACE | RIGHT_BRACE | COMMA | DOT
  | MINUS | PLUS | SEMICOLON | SLASH | STAR
  | BANG | BANG_EQUAL | EQUAL | EQUAL_EQUAL
  | GREATER | GREATER_EQUAL | LESS | LESS_EQUAL
  | IDENTIFIER | STRING | NUMBER
  | AND | CLASS | ELSE | FALSE | FUN | FOR | IF | NIL | OR | PRINT
  | RETURN | SUPER | THIS | TRUE | VAR | WHILE
  | EOF
  deriving DecidableEq

/-- The `literal` field of a token: `{}` for tokens without a literal, the
string between the quotes for STRING, the parsed numeric value for NUMBER. -/
inductive Literal
  | none
  | str (s : List Char)
  | num (q : ℚ)
  deriving DecidableEq

/-- Token record, from the source `interface Token`. -/
structure Token where
  type : TokenType
  lexeme : List Char
  literal : Literal
  line : Nat
  deriving DecidableEq

/-- Scanner state: the source plus the closure variables of `scanTokens`
(`start`, `current`, `line`), the token array, and the diagnostics emitted
through `error(line, message)`. -/
structure ScanState where
  source : List Char
  start : Nat
  current : Nat
  line : Nat
  tokens : List Token
  errors : List (Nat × String)
  deriving DecidableEq

/-- `s.source.charAt(i)`; every use in the source is in range, so the
default is never observed. -/
def charAt (s : List Char) (i : Nat) : Char := s.getD i '\x00'

/-- `s.source.substring(a, b)`. -/
def substr (s : List Char) (a b : Nat) : List Char := (s.take b).drop a

/-- `isAtEnd()`. -/
def isAtEnd (st : ScanState) : Bool := st.source.length ≤ st.current

/-- `peek()`. -/
def peek (st : ScanState) : Char :=
  if isAtEnd st then '\x00' else charAt st.source st.current

/-- `peekNext()`. -/
def peekNext (st : ScanState) : Char :=
  if st.source.length ≤ st.current + 1 then '\x00'
  else charAt st.source (st.current + 1)

/-- `isDigit(c)`. -/
def isDigit (c : Char) : Bool := '0' ≤ c && c ≤ '9'

/-- `isAlpha(c)`. -/
def isAlpha (c : Char) : Bool :=
  ('a' ≤ c && c ≤ 'z') || ('A' ≤ c && c ≤ 'Z') || c == '_'

/-- `isAlphaNumeric(c)`. -/
def isAlphaNumeric (c : Char) : Bool := isAlpha c || isDigit c

/-- `addToken(t, l)`: push a token whose lexeme is
`source.substring(start, current)` at the current line. -/
def addToken (st : ScanState) (t : TokenType) (l : Literal) : ScanState :=
  { st with tokens :=
      st.tokens ++ [⟨t, substr st.source st.start st.current, l, st.line⟩] }

/-- `match(expected)`: conditional advance, returning whether it consumed. -/
def matchChar (st : ScanState) (expected : Char) : Bool × ScanState :=
  if isAtEnd st then (false, st)
  else if charAt st.source st.current ≠ expected then (false, st)
  else (true, { st with current := st.current + 1 })

/-- The loop of `string()`:
`while (peek() != '"' && !isAtEnd()) { if (peek() == "\n") line += 1; advance(); }`. -/
def stringLoopF : Nat → ScanState → ScanState
  | 0, st => st
  | fuel + 1, st =>
    if peek st != '"' && !isAtEnd st then
      stringLoopF fuel
        { st with
          line := if peek st == '\n' then st.line + 1 else st.line,
          current := st.current + 1 }
    else st

/-- The `string()` body loop with its canonical fuel. -/
def stringRun (st : ScanState) : ScanState :=
  stringLoopF (st.source.length - st.current) st

/-- `string()`. -/
def stringFn (st : ScanState) : ScanState :=
  let st1 := stringRun st
  if isAtEnd st1 then
    { st1 with errors := st1.errors ++ [(st1.line, "Unterminated string.")] }
  else
    let st2 := { st1 with current := st1.current + 1 }
    addToken st2 TokenType.STRING
      (Literal.str (substr st2.source (st2.start + 1) (st2.current - 1)))

/-- The digit loop of `number()`: `while (isDigit(peek())) advance();`. -/
def digitsLoopF : Nat → ScanState → ScanState
  | 0, st => st
  | fuel + 1, st =>
    if isDigit (peek st) then
      digitsLoopF fuel { st with current := st.current + 1 }
    else st

/-- The digit loop with its canonical fuel. -/
def digitsRun (st : ScanState) : ScanState :=
  digitsLoopF (st.source.length - st.current) st

/-- Numeric value of a digit character. -/
def digitVal (c : Char) : Nat := c.toNat - '0'.toNat

/-- Value of a run of decimal digits. -/
def natOfDigits (ds : List Char) : Nat :=
  ds.foldl (fun acc c => acc * 10 + digitVal c) 0

/-- `Number.parseFloat` on a lexeme of shape `digits ('.' digits)?` — the
only shapes `number()` ever produces — modelled exactly as a rational. -/
def parseDecimal (cs : List Char) : ℚ :=
  let ip := cs.takeWhile (fun c => isDigit c)
  let rest := cs.dropWhile (fun c => isDigit c)
  match rest with
  | '.' :: fp => (natOfDigits ip : ℚ) + (natOfDigits fp : ℚ) / (10 : ℚ) ^ fp.length
  | _ => (natOfDigits ip : ℚ)

/-- `number()`. -/
def numberFn (st : ScanState) : ScanState :=
  let st1 := digitsRun st
  let st2 :=
    if peek st1 == '.' && isDigit (peekNext st1) then
      digitsRun { st1 with current := st1.current + 1 }
    else st1
  addToken st2 TokenType.NUMBER
    (Literal.num (parseDecimal (substr st2.source st2.start st2.current)))

/-- The loop of `identifier()`: `while (isAlphaNumeric(peek())) advance();`. -/
def identLoopF : Nat → ScanState → ScanState
  | 0, st => st
  | fuel + 1, st =>
    if isAlphaNumeric (peek st) then
      identLoopF fuel { st with current := st.current + 1 }
    else st

/-- The identifier loop with its canonical fuel. -/
def identRun (st : ScanState) : ScanState :=
  identLoopF (st.source.length - st.current) st

/-- The `keywords` table: reserved-word spelling to TokenType; a miss is
`none` (`undefined` in the source). -/
def keywords (text : List Char) : Option TokenType :=
  if text = "and".toList then some TokenType.AND
  else if text = "class".toList then some TokenType.CLASS
  else if text = "else".toList then some TokenType.ELSE
  else if text = "false".toList then some TokenType.FALSE
  else if text = "for".toList then some TokenType.FOR
  else if text = "fun".toList then some TokenType.FUN
  else if text = "if".toList then some TokenType.IF
  else if text = "nil".toList then some TokenType.NIL
  else if text = "or".toList then some TokenType.OR
  else if text = "print".toList then some TokenType.PRINT
  else if text = "return".toList then some TokenType.RETURN
  else if text = "super".toList then some TokenType.SUPER
  else if text = "this".toList then some TokenType.THIS
  else if text = "true".toList then some TokenType.TRUE
  else if text = "var".toList then some TokenType.VAR
  else if text = "while".toList then some TokenType.WHILE
  else none

/-- `identifier()`: maximal alphanumeric run, then keyword lookup defaulting
to IDENTIFIER. -/
def identifierFn (st : ScanState) : ScanState :=
  let st1 := identRun st
  let text := substr st1.source st1.start st1.current
  addToken st1 ((keywords text).getD TokenType.IDENTIFIER) Literal.none

/-- The comment loop of the `/` case:
`while (peek() != "\n" && !isAtEnd()) advance();`. -/
def commentLoopF : Nat → ScanState → ScanState
  | 0, st => st
  | fuel + 1, st =>
    if peek st != '\n' && !isAtEnd st then
      commentLoopF fuel { st with current := st.current + 1 }
    else st

/-- The comment loop with its canonical fuel. -/
def commentRun (st : ScanState) : ScanState :=
  commentLoopF (st.source.length - st.current) st

/-- `scanToken()`: `let c = advance()` then the `switch (c)` dispatch,
modelled as a chain of equality tests in the switch's case order. -/
def scanToken (st0 : ScanState) : ScanState :=
  let c := charAt st0.source st0.current
  let st := { st0 with current := st0.current + 1 }
  if c = '(' then addToken st TokenType.LEFT_PAREN Literal.none
  else if c = ')' then addToken st TokenType.RIGHT_PAREN Literal.none
  else if c = '\x7b' then addToken st TokenType.LEFT_BRACE Literal.none
  else if c = '\x7d' then addToken st TokenType.RIGHT_BRACE Literal.none
  else if c = ',' then addToken st TokenType.COMMA Literal.none
  else if c = '.' then addToken st TokenType.DOT Literal.none
  else if c = '-' then addToken st TokenType.MINUS Literal.none
  else if c = '+' then addToken st TokenType.PLUS Literal.none
  else if c = ';' then addToken st TokenType.SEMICOLON Literal.none
  else if c = '*' then addToken st TokenType.STAR Literal.none
  else if c = '!' then
    let p := matchChar st '='
    addToken p.2 (if p.1 then TokenType.BANG_EQUAL else TokenType.BANG) Literal.none
  else if c = '=' then
    let p := matchChar st '='
    addToken p.2 (if p.1 then TokenType.EQUAL_EQUAL else TokenType.EQUAL) Literal.none
  else if c = '<' then
    let p := matchChar st '='
    addToken p.2 (if p.1 then TokenType.LESS_EQUAL else TokenType.LESS) Literal.none
  else if c = '>' then
    let p := matchChar st '='
    addToken p.2 (if p.1 then TokenType.GREATER_EQUAL else TokenType.GREATER) Literal.none
  else if c = '/' then
    let p := matchChar st '/'
    if p.1 then commentRun p.2 else addToken p.2 TokenType.SLASH Literal.none
  else if c = ' ' then st
  else if c = '\r' then st
  else if c = '\t' then st
  else if c = '\n' then { st with line := st.line + 1 }
  else if c = '"' then stringFn st
  else if isDigit c then numberFn st
  else if isAlpha c then identifierFn st
  else { st with errors := st.errors ++ [(st.line, "Unexpected character.")] }

/-- The loop of `scan()`: `while (!isAtEnd()) { start = current; scanToken(); }`. -/
def scanLoopF : Nat → ScanState → ScanState
  | 0, st => st
  | fuel + 1, st =>
    if !isAtEnd st then
      scanLoopF fuel (scanToken { st with start := st.current })
    else st

/-- The main loop with its canonical fuel (`scanToken` advances `current` by
at least one, so `source.length - current` iterations always suffice). -/
def scanLoop (st : ScanState) : ScanState :=
  scanLoopF (st.source.length - st.current) st

/-- `scanTokens` / `scan()`: run the main loop from the initial state and
push the final EOF token. -/
def scan (source : List Char) : ScanState :=
  let st := scanLoop ⟨source, 0, 0, 1, [], []⟩
  { st with tokens := st.tokens ++ [⟨TokenType.EOF, [], Literal.none, st.line⟩] }


/-! ## Basic facts about the scanner primitives -/

theorem isAtEnd_false_iff {st : ScanState} :
    isAtEnd st = false ↔ st.current < st.source.length := by
  simp [isAtEnd]

theorem isAtEnd_true_iff {st : ScanState} :
    isAtEnd st = true ↔ st.source.length ≤ st.current := by
  simp [isAtEnd]

theorem peek_eq_charAt {st : ScanState} (h : st.current < st.source.length) :
    peek st = charAt st.source st.current := by
  rw [peek, if_neg]
  simp [isAtEnd]
  omega

theorem peek_isDigit_lt {st : ScanState} (h : isDigit (peek st) = true) :
    st.current < st.source.length := by
  by_contra hc
  push_neg at hc
  rw [peek, if_pos (isAtEnd_true_iff.mpr hc)] at h
  exact absurd h (by decide)

theorem peek_isAlphaNumeric_lt {st : ScanState} (h : isAlphaNumeric (peek st) = true) :
    st.current < st.source.length := by
  by_contra hc
  push_neg at hc
  rw [peek, if_pos (isAtEnd_true_iff.mpr hc)] at h
  exact absurd h (by decide)

/-! ## The digit loop -/

theorem digitsLoopF_fields (fuel : Nat) : ∀ st : ScanState,
    (digitsLoopF fuel st).source = st.source ∧
    (digitsLoopF fuel st).start = st.start ∧
    (digitsLoopF fuel st).line = st.line ∧
    (digitsLoopF fuel st).tokens = st.tokens ∧
    (digitsLoopF fuel st).errors = st.errors := by
  induction fuel with
  | zero => intro st; exact ⟨rfl, rfl, rfl, rfl, rfl⟩
  | succ n ih =>
    intro st
    unfold digitsLoopF
    split
    · exact ih _
    · exact ⟨rfl, rfl, rfl, rfl, rfl⟩

theorem digitsLoopF_current_le (fuel : Nat) : ∀ st : ScanState,
    st.current ≤ (digitsLoopF fuel st).current := by
  induction fuel with
  | zero => intro st; exact Nat.le_refl _
  | succ n ih =>
    intro st
    unfold digitsLoopF
    split
    · exact Nat.le_trans (Nat.le_succ _) (ih { st with current := st.current + 1 })
    · exact Nat.le_refl _

theorem digitsLoopF_le_length (fuel : Nat) : ∀ st : ScanState,
    st.current ≤ st.source.length →
    (digitsLoopF fuel st).current ≤ st.source.length := by
  induction fuel with
  | zero => intro st h; exact h
  | succ n ih =>
    intro st h
    unfold digitsLoopF
    split
    · next hd => exact ih _ (peek_isDigit_lt hd)
    · exact h

theorem digitsLoopF_stop (fuel : Nat) : ∀ st : ScanState,
    st.source.length - st.current ≤ fuel →
    isDigit (peek (digitsLoopF fuel st)) = false := by
  induction fuel with
  | zero =>
    intro st h
    show isDigit (peek st) = false
    cases hd : isDigit (peek st)
    · rfl
    · exact absurd (peek_isDigit_lt hd) (by omega)
  | succ n ih =>
    intro st h
    unfold digitsLoopF
    split
    · next hd =>
      have := peek_isDigit_lt hd
      exact ih { st with current := st.current + 1 }
        (show st.source.length - (st.current + 1) ≤ n by omega)
    · next hd => simpa using hd

theorem digitsLoopF_consumed (fuel : Nat) : ∀ st : ScanState, ∀ i : Nat,
    st.current ≤ i → i < (digitsLoopF fuel st).current →
    isDigit (charAt st.source i) = true := by
  induction fuel with
  | zero =>
    intro st i h1 h2
    rw [show digitsLoopF 0 st = st from rfl] at h2
    omega
  | succ n ih =>
    intro st i h1 h2
    rw [digitsLoopF] at h2
    split at h2
    · next hd =>
      rcases Nat.eq_or_lt_of_le h1 with rfl | hlt
      · rwa [peek_eq_charAt (peek_isDigit_lt hd)] at hd
      · exact ih { st with current := st.current + 1 } i hlt h2
    · omega

theorem digitsRun_fields (st : ScanState) :
    (digitsRun st).source = st.source ∧
    (digitsRun st).start = st.start ∧
    (digitsRun st).line = st.line ∧
    (digitsRun st).tokens = st.tokens ∧
    (digitsRun st).errors = st.errors := digitsLoopF_fields _ st

theorem digitsRun_current_le (st : ScanState) :
    st.current ≤ (digitsRun st).current := digitsLoopF_current_le _ st

theorem digitsRun_le_length (st : ScanState) (h : st.current ≤ st.source.length) :
    (digitsRun st).current ≤ st.source.length := digitsLoopF_le_length _ st h

theorem digitsRun_stop (st : ScanState) :
    isDigit (peek (digitsRun st)) = false :=
  digitsLoopF_stop _ st (Nat.le_refl _)

theorem digitsRun_consumed (st : ScanState) (i : Nat)
    (h1 : st.current ≤ i) (h2 : i < (digitsRun st).current) :
    isDigit (charAt st.source i) = true :=
  digitsLoopF_consumed _ st i h1 h2

/-! ## The identifier loop -/

theorem identLoopF_fields (fuel : Nat) : ∀ st : ScanState,
    (identLoopF fuel st).source = st.source ∧
    (identLoopF fuel st).start = st.start ∧
    (identLoopF fuel st).line = st.line ∧
    (identLoopF fuel st).tokens = st.tokens ∧
    (identLoopF fuel st).errors = st.errors := by
  induction fuel with
  | zero => intro st; exact ⟨rfl, rfl, rfl, rfl, rfl⟩
  | succ n ih =>
    intro st
    unfold identLoopF
    split
    · exact ih _
    · exact ⟨rfl, rfl, rfl, rfl, rfl⟩

theorem identLoopF_current_le (fuel : Nat) : ∀ st : ScanState,
    st.current ≤ (identLoopF fuel st).current := by
  induction fuel with
  | zero => intro st; exact Nat.le_refl _
  | succ n ih =>
    intro st
    unfold identLoopF
    split
    · exact Nat.le_trans (Nat.le_succ _) (ih { st with current := st.current + 1 })
    · exact Nat.le_refl _

theorem identLoopF_le_length (fuel : Nat) : ∀ st : ScanState,
    st.current ≤ st.source.length →
    (identLoopF fuel st).current ≤ st.source.length := by
  induction fuel with
  | zero => intro st h; exact h
  | succ n ih =>
    intro st h
    unfold identLoopF
    split
    · next hd => exact ih _ (peek_isAlphaNumeric_lt hd)
    · exact h

theorem identLoopF_stop (fuel : Nat) : ∀ st : ScanState,
    st.source.length - st.current ≤ fuel →
    isAlphaNumeric (peek (identLoopF fuel st)) = false := by
  induction fuel with
  | zero =>
    intro st h
    show isAlphaNumeric (peek st) = false
    cases hd : isAlphaNumeric (peek st)
    · rfl
    · exact absurd (peek_isAlphaNumeric_lt hd) (by omega)
  | succ n ih =>
    intro st h
    unfold identLoopF
    split
    · next hd =>
      have := peek_isAlphaNumeric_lt hd
      exact ih { st with current := st.current + 1 }
        (show st.source.length - (st.current + 1) ≤ n by omega)
    · next hd => simpa using hd

theorem identRun_fields (st : ScanState) :
    (identRun st).source = st.source ∧
    (identRun st).start = st.start ∧
    (identRun st).line = st.line ∧
    (identRun st).tokens = st.tokens ∧
    (identRun st).errors = st.errors := identLoopF_fields _ st

theorem identRun_current_le (st : ScanState) :
    st.current ≤ (identRun st).current := identLoopF_current_le _ st

theorem identRun_le_length (st : ScanState) (h : st.current ≤ st.source.length) :
    (identRun st).current ≤ st.source.length := identLoopF_le_length _ st h

theorem identRun_stop (st : ScanState) :
    isAlphaNumeric (peek (identRun st)) = false :=
  identLoopF_stop _ st (Nat.le_refl _)

/-! ## The comment loop -/

theorem commentLoopF_fields (fuel : Nat) : ∀ st : ScanState,
    (commentLoopF fuel st).source = st.source ∧
    (commentLoopF fuel st).start = st.start ∧
    (commentLoopF fuel st).line = st.line ∧
    (commentLoopF fuel st).tokens = st.tokens ∧
    (commentLoopF fuel st).errors = st.errors := by
  induction fuel with
  | zero => intro st; exact ⟨rfl, rfl, rfl, rfl, rfl⟩
  | succ n ih =>
    intro st
    unfold commentLoopF
    split
    · exact ih _
    · exact ⟨rfl, rfl, rfl, rfl, rfl⟩

theorem commentLoopF_current_le (fuel : Nat) : ∀ st : ScanState,
    st.current ≤ (commentLoopF fuel st).current := by
  induction fuel with
  | zero => intro st; exact Nat.le_refl _
  | succ n ih =>
    intro st
    unfold commentLoopF
    split
    · exact Nat.le_trans (Nat.le_succ _) (ih { st with current := st.current + 1 })
    · exact Nat.le_refl _

theorem commentLoopF_le_length (fuel : Nat) : ∀ st : ScanState,
    st.current ≤ st.source.length →
    (commentLoopF fuel st).current ≤ st.source.length := by
  induction fuel with
  | zero => intro st h; exact h
  | succ n ih =>
    intro st h
    unfold commentLoopF
    split
    · next hd =>
      rw [Bool.and_eq_true, Bool.not_eq_true'] at hd
      exact ih { st with current := st.current + 1 }
        (show st.current + 1 ≤ st.source.length from isAtEnd_false_iff.mp hd.2)
    · exact h

theorem commentLoopF_stop (fuel : Nat) : ∀ st : ScanState,
    st.source.length - st.current ≤ fuel →
    isAtEnd (commentLoopF fuel st) = true ∨
      charAt (commentLoopF fuel st).source (commentLoopF fuel st).current = '\n' := by
  induction fuel with
  | zero =>
    intro st h
    left
    show isAtEnd st = true
    exact isAtEnd_true_iff.mpr (by omega)
  | succ n ih =>
    intro st h
    unfold commentLoopF
    split
    · next hd =>
      rw [Bool.and_eq_true, Bool.not_eq_true'] at hd
      have hlt := isAtEnd_false_iff.mp hd.2
      exact ih { st with current := st.current + 1 }
        (show st.source.length - (st.current + 1) ≤ n by omega)
    · next hd =>
      have hd' : (peek st != '\n' && !isAtEnd st) = false := Bool.eq_false_iff.mpr hd
      by_cases hpk : (peek st != '\n') = true
      · left
        have : (!isAtEnd st) = false := by
          cases hie : (!isAtEnd st)
          · rfl
          · rw [hpk, hie] at hd'; exact absurd hd' (by decide)
        simpa using this
      · right
        have hpe : peek st = '\n' := by simpa using hpk
        have hlt : st.current < st.source.length := by
          by_contra hc
          push_neg at hc
          rw [peek, if_pos (isAtEnd_true_iff.mpr hc)] at hpe
          exact absurd hpe (by decide)
        rw [← peek_eq_charAt hlt]
        exact hpe

theorem commentRun_fields (st : ScanState) :
    (commentRun st).source = st.source ∧
    (commentRun st).start = st.start ∧
    (commentRun st).line = st.line ∧
    (commentRun st).tokens = st.tokens ∧
    (commentRun st).errors = st.errors := commentLoopF_fields _ st

theorem commentRun_current_le (st : ScanState) :
    st.current ≤ (commentRun st).current := commentLoopF_current_le _ st

theorem commentRun_le_length (st : ScanState) (h : st.current ≤ st.source.length) :
    (commentRun st).current ≤ st.source.length := commentLoopF_le_length _ st h

theorem commentRun_stop (st : ScanState) :
    isAtEnd (commentRun st) = true ∨
      charAt (commentRun st).source (commentRun st).current = '\n' :=
  commentLoopF_stop _ st (Nat.le_refl _)

/-! ## The string loop -/

theorem stringLoopF_fields (fuel : Nat) : ∀ st : ScanState,
    (stringLoopF fuel st).source = st.source ∧
    (stringLoopF fuel st).start = st.start ∧
    (stringLoopF fuel st).tokens = st.tokens ∧
    (stringLoopF fuel st).errors = st.errors := by
  induction fuel with
  | zero => intro st; exact ⟨rfl, rfl, rfl, rfl⟩
  | succ n ih =>
    intro st
    unfold stringLoopF
    split
    · exact ih _
    · exact ⟨rfl, rfl, rfl, rfl⟩

theorem stringLoopF_current_le (fuel : Nat) : ∀ st : ScanState,
    st.current ≤ (stringLoopF fuel st).current := by
  induction fuel with
  | zero => intro st; exact Nat.le_refl _
  | succ n ih =>
    intro st
    unfold stringLoopF
    split
    · exact Nat.le_trans (Nat.le_succ _)
        (ih { st with
              line := if peek st == '\n' then st.line + 1 else st.line,
              current := st.current + 1 })
    · exact Nat.le_refl _

theorem stringLoopF_line_le (fuel : Nat) : ∀ st : ScanState,
    st.line ≤ (stringLoopF fuel st).line := by
  induction fuel with
  | zero => intro st; exact Nat.le_refl _
  | succ n ih =>
    intro st
    unfold stringLoopF
    split
    · refine Nat.le_trans ?_
        (ih { st with
              line := if peek st == '\n' then st.line + 1 else st.line,
              current := st.current + 1 })
      show st.line ≤ if peek st == '\n' then st.line + 1 else st.line
      split <;> omega
    · exact Nat.le_refl _

theorem stringLoopF_le_length (fuel : Nat) : ∀ st : ScanState,
    st.current ≤ st.source.length →
    (stringLoopF fuel st).current ≤ st.source.length := by
  induction fuel with
  | zero => intro st h; exact h
  | succ n ih =>
    intro st h
    unfold stringLoopF
    split
    · next hd =>
      rw [Bool.and_eq_true, Bool.not_eq_true'] at hd
      exact ih _ (show st.current + 1 ≤ st.source.length from isAtEnd_false_iff.mp hd.2)
    · exact h

theorem stringLoopF_stop (fuel : Nat) : ∀ st : ScanState,
    st.source.length - st.current ≤ fuel →
    isAtEnd (stringLoopF fuel st) = false →
    charAt (stringLoopF fuel st).source (stringLoopF fuel st).current = '"' := by
  induction fuel with
  | zero =>
    intro st h hend
    have : isAtEnd st = true := isAtEnd_true_iff.mpr (by omega)
    rw [show stringLoopF 0 st = st from rfl] at hend
    rw [this] at hend
    exact absurd hend (by decide)
  | succ n ih =>
    intro st h hend
    rw [stringLoopF] at hend ⊢
    split at hend
    · next hd =>
      rw [Bool.and_eq_true, Bool.not_eq_true'] at hd
      have hlt := isAtEnd_false_iff.mp hd.2
      rw [if_pos (by rw [Bool.and_eq_true, Bool.not_eq_true']; exact hd)]
      exact ih _ (show st.source.length - (st.current + 1) ≤ n by omega) hend
    · next hd =>
      rw [if_neg hd]
      have hd' : (peek st != '"' && !isAtEnd st) = false := Bool.eq_false_iff.mpr hd
      by_cases hpk : (peek st != '"') = true
      · exfalso
        rw [hpk, hend] at hd'
        exact absurd hd' (by decide)
      · have hpe : peek st = '"' := by simpa using hpk
        have hlt : st.current < st.source.length := by
          by_contra hc
          push_neg at hc
          rw [peek, if_pos (isAtEnd_true_iff.mpr hc)] at hpe
          exact absurd hpe (by decide)
        rw [← peek_eq_charAt hlt]
        exact hpe

theorem stringRun_fields (st : ScanState) :
    (stringRun st).source = st.source ∧
    (stringRun st).start = st.start ∧
    (stringRun st).tokens = st.tokens ∧
    (stringRun st).errors = st.errors := stringLoopF_fields _ st

theorem stringRun_current_le (st : ScanState) :
    st.current ≤ (stringRun st).current := stringLoopF_current_le _ st

theorem stringRun_line_le (st : ScanState) :
    st.line ≤ (stringRun st).line := stringLoopF_line_le _ st

theorem stringRun_le_length (st : ScanState) (h : st.current ≤ st.source.length) :
    (stringRun st).current ≤ st.source.length := stringLoopF_le_length _ st h

theorem stringRun_stop (st : ScanState) (h : isAtEnd (stringRun st) = false) :
    charAt (stringRun st).source (stringRun st).current = '"' :=
  stringLoopF_stop _ st (Nat.le_refl _) h

/-! ## Line counting -/

/-- 1-based line number of offset `i` in `src`: one more than the number of
newline characters strictly before `i`. -/
def lineAt (src : List Char) (i : Nat) : Nat :=
  1 + (src.take i).countP (fun c => c == '\n')

theorem lineAt_zero (src : List Char) : lineAt src 0 = 1 := by
  simp [lineAt]

theorem lineAt_succ_ne {src : List Char} {i : Nat} (h : charAt src i ≠ '\n') :
    lineAt src (i + 1) = lineAt src i := by
  unfold lineAt
  rw [List.take_succ, List.countP_append]
  rcases hg : src[i]? with _ | c
  · simp
  · have hcc : charAt src i = c := by
      rw [charAt, List.getD_eq_getElem?_getD, hg]
      rfl
    have hc : c ≠ '\n' := hcc ▸ h
    simp [hc]

theorem lineAt_succ_nl {src : List Char} {i : Nat} (hi : i < src.length)
    (h : charAt src i = '\n') :
    lineAt src (i + 1) = lineAt src i + 1 := by
  unfold lineAt
  rw [List.take_succ, List.countP_append]
  have hg : src[i]? = some '\n' := by
    rw [List.getElem?_eq_getElem hi]
    have hh := h
    rw [charAt, List.getD_eq_getElem?_getD, List.getElem?_eq_getElem hi] at hh
    simpa using hh
  rw [hg]
  simp
  omega

theorem lineAt_mono {src : List Char} {i j : Nat} (h : i ≤ j) :
    lineAt src i ≤ lineAt src j := by
  unfold lineAt
  have hsub : (src.take i).Sublist (src.take j) := by
    rw [show src.take i = (src.take j).take i by
      rw [List.take_take, Nat.min_eq_left h]]
    exact List.take_sublist _ _
  have := hsub.countP_le (fun c => c == '\n')
  omega

/-! ## Characters that never carry a newline -/

theorem isDigit_ne_nl {c : Char} (h : isDigit c = true) : c ≠ '\n' := by
  intro hc
  rw [hc] at h
  exact absurd h (by decide)

theorem isAlphaNumeric_ne_nl {c : Char} (h : isAlphaNumeric c = true) : c ≠ '\n' := by
  intro hc
  rw [hc] at h
  exact absurd h (by decide)

/-! ## `lineAt` through the loops -/

theorem digitsLoopF_lineAt (fuel : Nat) : ∀ st : ScanState,
    lineAt st.source (digitsLoopF fuel st).current = lineAt st.source st.current := by
  induction fuel with
  | zero => intro st; rfl
  | succ n ih =>
    intro st
    unfold digitsLoopF
    split
    · next hd =>
      have hlt := peek_isDigit_lt hd
      have hch : charAt st.source st.current ≠ '\n' :=
        isDigit_ne_nl (by rwa [peek_eq_charAt hlt] at hd)
      rw [ih { st with current := st.current + 1 }]
      exact lineAt_succ_ne hch
    · rfl

theorem identLoopF_lineAt (fuel : Nat) : ∀ st : ScanState,
    lineAt st.source (identLoopF fuel st).current = lineAt st.source st.current := by
  induction fuel with
  | zero => intro st; rfl
  | succ n ih =>
    intro st
    unfold identLoopF
    split
    · next hd =>
      have hlt := peek_isAlphaNumeric_lt hd
      have hch : charAt st.source st.current ≠ '\n' :=
        isAlphaNumeric_ne_nl (by rwa [peek_eq_charAt hlt] at hd)
      rw [ih { st with current := st.current + 1 }]
      exact lineAt_succ_ne hch
    · rfl

theorem commentLoopF_lineAt (fuel : Nat) : ∀ st : ScanState,
    lineAt st.source (commentLoopF fuel st).current = lineAt st.source st.current := by
  induction fuel with
  | zero => intro st; rfl
  | succ n ih =>
    intro st
    unfold commentLoopF
    split
    · next hd =>
      rw [Bool.and_eq_true, Bool.not_eq_true'] at hd
      have hlt := isAtEnd_false_iff.mp hd.2
      have hch : charAt st.source st.current ≠ '\n' := by
        intro hc
        have hb : (peek st != '\n') = false := by
          rw [peek_eq_charAt hlt, hc]
          rfl
        rw [hb] at hd
        exact absurd hd.1 (by decide)
      rw [ih { st with current := st.current + 1 }]
      exact lineAt_succ_ne hch
    · rfl

theorem digitsRun_lineAt (st : ScanState) :
    lineAt st.source (digitsRun st).current = lineAt st.source st.current :=
  digitsLoopF_lineAt _ st

theorem identRun_lineAt (st : ScanState) :
    lineAt st.source (identRun st).current = lineAt st.source st.current :=
  identLoopF_lineAt _ st

theorem commentRun_lineAt (st : ScanState) :
    lineAt st.source (commentRun st).current = lineAt st.source st.current :=
  commentLoopF_lineAt _ st

theorem stringLoopF_lineAt (fuel : Nat) : ∀ st : ScanState,
    st.line = lineAt st.source st.current →
    (stringLoopF fuel st).line = lineAt st.source (stringLoopF fuel st).current := by
  induction fuel with
  | zero => intro st h; exact h
  | succ n ih =>
    intro st h
    unfold stringLoopF
    split
    · next hd =>
      rw [Bool.and_eq_true, Bool.not_eq_true'] at hd
      have hlt := isAtEnd_false_iff.mp hd.2
      refine ih _ ?_
      show (if peek st == '\n' then st.line + 1 else st.line) =
        lineAt st.source (st.current + 1)
      by_cases hnl : peek st == '\n'
      · rw [if_pos hnl]
        have hch : charAt st.source st.current = '\n' := by
          rw [← peek_eq_charAt hlt]
          exact eq_of_beq hnl
        rw [lineAt_succ_nl hlt hch, h]
      · rw [if_neg hnl]
        have hch : charAt st.source st.current ≠ '\n' := by
          rw [← peek_eq_charAt hlt]
          intro hc
          exact hnl (by rw [hc]; rfl)
        rw [lineAt_succ_ne hch, h]
    · exact h

/-! ## `matchChar` -/

theorem matchChar_fields (st : ScanState) (e : Char) :
    (matchChar st e).2.source = st.source ∧
    (matchChar st e).2.start = st.start ∧
    (matchChar st e).2.line = st.line ∧
    (matchChar st e).2.tokens = st.tokens ∧
    (matchChar st e).2.errors = st.errors := by
  unfold matchChar
  split
  · exact ⟨rfl, rfl, rfl, rfl, rfl⟩
  · split
    · exact ⟨rfl, rfl, rfl, rfl, rfl⟩
    · exact ⟨rfl, rfl, rfl, rfl, rfl⟩

theorem matchChar_current (st : ScanState) (e : Char) :
    st.current ≤ (matchChar st e).2.current ∧
    (matchChar st e).2.current ≤ st.current + 1 := by
  unfold matchChar
  split
  · exact ⟨Nat.le_refl _, Nat.le_succ _⟩
  · split
    · exact ⟨Nat.le_refl _, Nat.le_succ _⟩
    · exact ⟨Nat.le_succ _, Nat.le_refl _⟩

theorem matchChar_le_length (st : ScanState) (e : Char)
    (h : st.current ≤ st.source.length) :
    (matchChar st e).2.current ≤ st.source.length := by
  unfold matchChar
  split
  · exact h
  · next he =>
    split
    · exact h
    · exact isAtEnd_false_iff.mp (Bool.eq_false_iff.mpr he)

theorem matchChar_lineAt (st : ScanState) (e : Char) (he : e ≠ '\n') :
    lineAt st.source (matchChar st e).2.current = lineAt st.source st.current := by
  unfold matchChar
  split
  · rfl
  · next hend =>
    split
    · rfl
    · next hne =>
      push_neg at hne
      show lineAt st.source (st.current + 1) = lineAt st.source st.current
      exact lineAt_succ_ne (hne ▸ he)

/-! ## Tokens produced by the scanner -/

/-- A well-formed token of `src`: its lexeme is the slice `[s, e)` of the
source and its `line` field is the line of the slice's END offset `e` (the
scanner stamps tokens with the line counter at push time). -/
def TokOk (src : List Char) (t : Token) : Prop :=
  ∃ s e, s ≤ e ∧ e ≤ src.length ∧ t.lexeme = substr src s e ∧ t.line = lineAt src e

theorem addToken_fields (st : ScanState) (t : TokenType) (l : Literal) :
    (addToken st t l).source = st.source ∧
    (addToken st t l).start = st.start ∧
    (addToken st t l).current = st.current ∧
    (addToken st t l).line = st.line ∧
    (addToken st t l).errors = st.errors ∧
    (addToken st t l).tokens =
      st.tokens ++ [⟨t, substr st.source st.start st.current, l, st.line⟩] :=
  ⟨rfl, rfl, rfl, rfl, rfl, rfl⟩

theorem addToken_tokOk (st : ScanState) (t : TokenType) (l : Literal)
    (h1 : st.start ≤ st.current) (h2 : st.current ≤ st.source.length)
    (h3 : st.line = lineAt st.source st.current) (ht : t ≠ TokenType.EOF) :
    ∃ ts, (addToken st t l).tokens = st.tokens ++ ts ∧
      ∀ tk ∈ ts, TokOk st.source tk ∧ tk.type ≠ TokenType.EOF := by
  refine ⟨[⟨t, substr st.source st.start st.current, l, st.line⟩], rfl, ?_⟩
  intro tk htk
  rw [List.mem_singleton] at htk
  subst htk
  exact ⟨⟨st.start, st.current, h1, h2, rfl, h3⟩, ht⟩

theorem keywords_some_ne_eof (text : List Char) (k : TokenType)
    (h : keywords text = some k) : k ≠ TokenType.EOF := by
  unfold keywords at h
  by_cases h0 : text = "and".toList
  · rw [if_pos h0] at h
    injection h with h
    subst h
    decide
  rw [if_neg h0] at h
  by_cases h1 : text = "class".toList
  · rw [if_pos h1] at h
    injection h with h
    subst h
    decide
  rw [if_neg h1] at h
  by_cases h2 : text = "else".toList
  · rw [if_pos h2] at h
    injection h with h
    subst h
    decide
  rw [if_neg h2] at h
  by_cases h3 : text = "false".toList
  · rw [if_pos h3] at h
    injection h with h
    subst h
    decide
  rw [if_neg h3] at h
  by_cases h4 : text = "for".toList
  · rw [if_pos h4] at h
    injection h with h
    subst h
    decide
  rw [if_neg h4] at h
  by_cases h5 : text = "fun".toList
  · rw [if_pos h5] at h
    injection h with h
    subst h
    decide
  rw [if_neg h5] at h
  by_cases h6 : text = "if".toList
  · rw [if_pos h6] at h
    injection h with h
    subst h
    decide
  rw [if_neg h6] at h
  by_cases h7 : text = "nil".toList
  · rw [if_pos h7] at h
    injection h with h
    subst h
    decide
  rw [if_neg h7] at h
  by_cases h8 : text = "or".toList
  · rw [if_pos h8] at h
    injection h with h
    subst h
    decide
  rw [if_neg h8] at h
  by_cases h9 : text = "print".toList
  · rw [if_pos h9] at h
    injection h with h
    subst h
    decide
  rw [if_neg h9] at h
  by_cases h10 : text = "return".toList
  · rw [if_pos h10] at h
    injection h with h
    subst h
    decide
  rw [if_neg h10] at h
  by_cases h11 : text = "super".toList
  · rw [if_pos h11] at h
    injection h with h
    subst h
    decide
  rw [if_neg h11] at h
  by_cases h12 : text = "this".toList
  · rw [if_pos h12] at h
    injection h with h
    subst h
    decide
  rw [if_neg h12] at h
  by_cases h13 : text = "true".toList
  · rw [if_pos h13] at h
    injection h with h
    subst h
    decide
  rw [if_neg h13] at h
  by_cases h14 : text = "var".toList
  · rw [if_pos h14] at h
    injection h with h
    subst h
    decide
  rw [if_neg h14] at h
  by_cases h15 : text = "while".toList
  · rw [if_pos h15] at h
    injection h with h
    subst h
    decide
  rw [if_neg h15] at h
  exact Option.noConfusion h

theorem keywords_getD_ne_eof (text : List Char) :
    (keywords text).getD TokenType.IDENTIFIER ≠ TokenType.EOF := by
  rcases h : keywords text with _ | k
  · rw [Option.getD_none]
    decide
  · rw [Option.getD_some]
    exact keywords_some_ne_eof text k h

/-! ## Unconditional facts about the composite lexing routines -/

theorem stringFn_source (st : ScanState) : (stringFn st).source = st.source := by
  simp only [stringFn]
  split
  · exact (stringRun_fields st).1
  · exact (stringRun_fields st).1

theorem stringFn_current_le (st : ScanState) :
    st.current ≤ (stringFn st).current := by
  simp only [stringFn]
  split
  · exact stringRun_current_le st
  · show st.current ≤ (stringRun st).current + 1
    exact Nat.le_trans (stringRun_current_le st) (Nat.le_succ _)

theorem numberFn_source (st : ScanState) : (numberFn st).source = st.source := by
  simp only [numberFn]
  split
  · exact ((digitsRun_fields _).1).trans (digitsRun_fields st).1
  · exact (digitsRun_fields st).1

theorem numberFn_current_le (st : ScanState) :
    st.current ≤ (numberFn st).current := by
  simp only [numberFn]
  split
  · refine Nat.le_trans (digitsRun_current_le st) (Nat.le_trans (Nat.le_succ _) ?_)
    exact digitsRun_current_le { digitsRun st with current := (digitsRun st).current + 1 }
  · exact digitsRun_current_le st

theorem identifierFn_source (st : ScanState) :
    (identifierFn st).source = st.source := (identRun_fields st).1

theorem identifierFn_current_le (st : ScanState) :
    st.current ≤ (identifierFn st).current := identRun_current_le st

/-! ## Post-conditions of the composite lexing routines -/

theorem stringFn_post (st : ScanState)
    (h1 : st.start ≤ st.current) (h2 : st.current ≤ st.source.length)
    (h3 : st.line = lineAt st.source st.current) :
    (stringFn st).source = st.source ∧
    (stringFn st).start = st.start ∧
    st.current ≤ (stringFn st).current ∧
    (stringFn st).current ≤ st.source.length ∧
    (stringFn st).line = lineAt st.source (stringFn st).current ∧
    (∃ ts, (stringFn st).tokens = st.tokens ++ ts ∧
      ∀ tk ∈ ts, TokOk st.source tk ∧ tk.type ≠ TokenType.EOF) ∧
    (∃ es, (stringFn st).errors = st.errors ++ es) := by
  obtain ⟨hsrc, hst, htk, herr⟩ := stringRun_fields st
  have hcur := stringRun_current_le st
  have hlen := stringRun_le_length st h2
  have hline : (stringRun st).line = lineAt st.source (stringRun st).current :=
    stringLoopF_lineAt (st.source.length - st.current) st h3
  simp only [stringFn]
  split
  · next hend =>
    refine ⟨hsrc, hst, hcur, hlen, hline, ⟨[], by simp [htk], by simp⟩,
      ⟨[((stringRun st).line, "Unterminated string.")], by simp [herr]⟩⟩
  · next hend =>
    have hend' : isAtEnd (stringRun st) = false := Bool.eq_false_iff.mpr hend
    have hq : charAt st.source (stringRun st).current = '"' := by
      have := stringRun_stop st hend'
      rwa [hsrc] at this
    have hlt : (stringRun st).current < st.source.length := by
      have := isAtEnd_false_iff.mp hend'
      rwa [hsrc] at this
    have hline2 : (stringRun st).line = lineAt st.source ((stringRun st).current + 1) := by
      rw [lineAt_succ_ne (by rw [hq]; decide)]
      exact hline
    exact ⟨ hsrc, hst,
      Nat.le_trans hcur (Nat.le_succ _),
      hlt,
      hline2,
      ⟨[⟨TokenType.STRING,
          substr (stringRun st).source (stringRun st).start ((stringRun st).current + 1),
          Literal.str (substr (stringRun st).source ((stringRun st).start + 1)
            ((stringRun st).current + 1 - 1)),
          (stringRun st).line⟩],
        by rw [← htk]; rfl,
        by
          intro tk htkm
          rw [List.mem_singleton] at htkm
          subst htkm
          refine ⟨⟨st.start, (stringRun st).current + 1,
            Nat.le_trans h1 (Nat.le_trans hcur (Nat.le_succ _)), hlt, ?_, ?_⟩,
            show TokenType.STRING ≠ TokenType.EOF by decide⟩
          · show substr (stringRun st).source (stringRun st).start ((stringRun st).current + 1) =
              substr st.source st.start ((stringRun st).current + 1)
            rw [hsrc, hst]
          · exact hline2⟩,
      ⟨[], by simp [addToken, herr]⟩⟩

theorem peek_beq_charAt {st : ScanState} {c : Char} (hc : c ≠ '\x00')
    (h : (peek st == c) = true) :
    st.current < st.source.length ∧ charAt st.source st.current = c := by
  have hpe : peek st = c := eq_of_beq h
  have hlt : st.current < st.source.length := by
    by_contra hx
    push_neg at hx
    rw [peek, if_pos (isAtEnd_true_iff.mpr hx)] at hpe
    exact hc hpe.symm
  rw [peek_eq_charAt hlt] at hpe
  exact ⟨hlt, hpe⟩

theorem addToken_post (st u : ScanState) (t : TokenType) (l : Literal)
    (hsrc : u.source = st.source) (hst : u.start = st.start)
    (htk : u.tokens = st.tokens) (herr : u.errors = st.errors)
    (h1 : st.start ≤ u.current)
    (hc0 : st.current ≤ u.current) (hc1 : u.current ≤ st.source.length)
    (hl : u.line = lineAt st.source u.current)
    (ht : t ≠ TokenType.EOF) :
    (addToken u t l).source = st.source ∧
    (addToken u t l).start = st.start ∧
    st.current ≤ (addToken u t l).current ∧
    (addToken u t l).current ≤ st.source.length ∧
    (addToken u t l).line = lineAt st.source (addToken u t l).current ∧
    (∃ ts, (addToken u t l).tokens = st.tokens ++ ts ∧
      ∀ tk ∈ ts, TokOk st.source tk ∧ tk.type ≠ TokenType.EOF) ∧
    (∃ es, (addToken u t l).errors = st.errors ++ es) := by
  refine ⟨hsrc, hst, hc0, hc1, hl, ?_, ⟨[], by simp [addToken, herr]⟩⟩
  refine ⟨[⟨t, substr u.source u.start u.current, l, u.line⟩], by rw [← htk]; rfl, ?_⟩
  intro tk htkm
  rw [List.mem_singleton] at htkm
  subst htkm
  refine ⟨⟨st.start, u.current, h1, hc1, ?_, hl⟩, ht⟩
  show substr u.source u.start u.current = substr st.source st.start u.current
  rw [hsrc, hst]

theorem numberFn_post (st : ScanState)
    (h1 : st.start ≤ st.current) (h2 : st.current ≤ st.source.length)
    (h3 : st.line = lineAt st.source st.current) :
    (numberFn st).source = st.source ∧
    (numberFn st).start = st.start ∧
    st.current ≤ (numberFn st).current ∧
    (numberFn st).current ≤ st.source.length ∧
    (numberFn st).line = lineAt st.source (numberFn st).current ∧
    (∃ ts, (numberFn st).tokens = st.tokens ++ ts ∧
      ∀ tk ∈ ts, TokOk st.source tk ∧ tk.type ≠ TokenType.EOF) ∧
    (∃ es, (numberFn st).errors = st.errors ++ es) := by
  obtain ⟨hsrc, hst, hln, htk, herr⟩ := digitsRun_fields st
  have hcur := digitsRun_current_le st
  have hlen := digitsRun_le_length st h2
  have hlineq : lineAt st.source (digitsRun st).current = lineAt st.source st.current :=
    digitsLoopF_lineAt _ st
  have hline : (digitsRun st).line = lineAt st.source (digitsRun st).current := by
    rw [hln, hlineq, h3]
  simp only [numberFn]
  split
  · next hcond =>
    rw [Bool.and_eq_true] at hcond
    obtain ⟨hdlt, hdot⟩ := peek_beq_charAt (by decide) hcond.1
    rw [hsrc] at hdlt hdot
    set s2 := { digitsRun st with current := (digitsRun st).current + 1 } with hs2
    obtain ⟨hsrc2, hst2, hln2, htk2, herr2⟩ := digitsRun_fields s2
    have hcur2 := digitsRun_current_le s2
    have hlen2 : (digitsRun s2).current ≤ st.source.length := by
      have hh := digitsRun_le_length s2
        (show s2.current ≤ s2.source.length by
          show (digitsRun st).current + 1 ≤ (digitsRun st).source.length
          rw [hsrc]; omega)
      rwa [show s2.source = st.source from hsrc] at hh
    have hlineq2 : lineAt st.source (digitsRun s2).current = lineAt st.source s2.current := by
      have hh := digitsRun_lineAt s2
      rwa [show s2.source = st.source from hsrc] at hh
    refine addToken_post st (digitsRun s2) TokenType.NUMBER _
      (by rw [hsrc2]; exact hsrc) (by rw [hst2]; exact hst)
      (by rw [htk2]; exact htk) (by rw [herr2]; exact herr)
      ?_ ?_ hlen2 ?_ (by decide)
    · exact Nat.le_trans h1 (Nat.le_trans hcur (Nat.le_trans (Nat.le_succ _) hcur2))
    · exact Nat.le_trans hcur (Nat.le_trans (Nat.le_succ _) hcur2)
    · rw [hln2, hlineq2]
      show (digitsRun st).line = lineAt st.source ((digitsRun st).current + 1)
      rw [lineAt_succ_ne (by rw [hdot]; decide)]
      exact hline
  · next hcond =>
    exact addToken_post st (digitsRun st) TokenType.NUMBER _
      hsrc hst htk herr (Nat.le_trans h1 hcur) hcur hlen hline (by decide)

theorem identifierFn_post (st : ScanState)
    (h1 : st.start ≤ st.current) (h2 : st.current ≤ st.source.length)
    (h3 : st.line = lineAt st.source st.current) :
    (identifierFn st).source = st.source ∧
    (identifierFn st).start = st.start ∧
    st.current ≤ (identifierFn st).current ∧
    (identifierFn st).current ≤ st.source.length ∧
    (identifierFn st).line = lineAt st.source (identifierFn st).current ∧
    (∃ ts, (identifierFn st).tokens = st.tokens ++ ts ∧
      ∀ tk ∈ ts, TokOk st.source tk ∧ tk.type ≠ TokenType.EOF) ∧
    (∃ es, (identifierFn st).errors = st.errors ++ es) := by
  obtain ⟨hsrc, hst, hln, htk, herr⟩ := identRun_fields st
  have hcur := identRun_current_le st
  have hlen := identRun_le_length st h2
  have hline : (identRun st).line = lineAt st.source (identRun st).current := by
    rw [hln, identRun_lineAt st, h3]
  exact addToken_post st (identRun st) _ _
    hsrc hst htk herr (Nat.le_trans h1 hcur) hcur hlen hline (keywords_getD_ne_eof _)

/-! ## `scanToken`: basic unconditional facts -/

theorem scanToken_source (st : ScanState) : (scanToken st).source = st.source := by
  simp only [scanToken]
  by_cases h0 : charAt st.source st.current = '('
  · rw [if_pos h0]
    all_goals rfl
  rw [if_neg h0]
  by_cases h1 : charAt st.source st.current = ')'
  · rw [if_pos h1]
    all_goals rfl
  rw [if_neg h1]
  by_cases h2 : charAt st.source st.current = '\x7b'
  · rw [if_pos h2]
    all_goals rfl
  rw [if_neg h2]
  by_cases h3 : charAt st.source st.current = '\x7d'
  · rw [if_pos h3]
    all_goals rfl
  rw [if_neg h3]
  by_cases h4 : charAt st.source st.current = ','
  · rw [if_pos h4]
    all_goals rfl
  rw [if_neg h4]
  by_cases h5 : charAt st.source st.current = '.'
  · rw [if_pos h5]
    all_goals rfl
  rw [if_neg h5]
  by_cases h6 : charAt st.source st.current = '-'
  · rw [if_pos h6]
    all_goals rfl
  rw [if_neg h6]
  by_cases h7 : charAt st.source st.current = '+'
  · rw [if_pos h7]
    all_goals rfl
  rw [if_neg h7]
  by_cases h8 : charAt st.source st.current = ';'
  · rw [if_pos h8]
    all_goals rfl
  rw [if_neg h8]
  by_cases h9 : charAt st.source st.current = '*'
  · rw [if_pos h9]
    all_goals rfl
  rw [if_neg h9]
  by_cases h10 : charAt st.source st.current = '!'
  · rw [if_pos h10]
    all_goals exact (matchChar_fields { st with current := st.current + 1 } '=').1
  rw [if_neg h10]
  by_cases h11 : charAt st.source st.current = '='
  · rw [if_pos h11]
    all_goals exact (matchChar_fields { st with current := st.current + 1 } '=').1
  rw [if_neg h11]
  by_cases h12 : charAt st.source st.current = '<'
  · rw [if_pos h12]
    all_goals exact (matchChar_fields { st with current := st.current + 1 } '=').1
  rw [if_neg h12]
  by_cases h13 : charAt st.source st.current = '>'
  · rw [if_pos h13]
    all_goals exact (matchChar_fields { st with current := st.current + 1 } '=').1
  rw [if_neg h13]
  by_cases h14 : charAt st.source st.current = '/'
  · rw [if_pos h14]
    by_cases hm : ((matchChar { st with current := st.current + 1 } '/').1 = true)
    · rw [if_pos hm]
      exact ((commentRun_fields _).1).trans (matchChar_fields _ _).1
    · rw [if_neg hm]
      exact (matchChar_fields { st with current := st.current + 1 } '/').1
  rw [if_neg h14]
  by_cases h15 : charAt st.source st.current = ' '
  · rw [if_pos h15]
    all_goals rfl
  rw [if_neg h15]
  by_cases h16 : charAt st.source st.current = '\r'
  · rw [if_pos h16]
    all_goals rfl
  rw [if_neg h16]
  by_cases h17 : charAt st.source st.current = '\t'
  · rw [if_pos h17]
    all_goals rfl
  rw [if_neg h17]
  by_cases h18 : charAt st.source st.current = '\n'
  · rw [if_pos h18]
    all_goals rfl
  rw [if_neg h18]
  by_cases h19 : charAt st.source st.current = '"'
  · rw [if_pos h19]
    all_goals exact stringFn_source _
  rw [if_neg h19]
  by_cases h20 : isDigit (charAt st.source st.current) = true
  · rw [if_pos h20]
    all_goals exact numberFn_source _
  rw [if_neg h20]
  by_cases h21 : isAlpha (charAt st.source st.current) = true
  · rw [if_pos h21]
    all_goals exact identifierFn_source _
  rw [if_neg h21]
  all_goals rfl

theorem scanToken_current_succ_le (st : ScanState) :
    st.current + 1 ≤ (scanToken st).current := by
  simp only [scanToken]
  by_cases h0 : charAt st.source st.current = '('
  · rw [if_pos h0]
    all_goals exact Nat.le_refl _
  rw [if_neg h0]
  by_cases h1 : charAt st.source st.current = ')'
  · rw [if_pos h1]
    all_goals exact Nat.le_refl _
  rw [if_neg h1]
  by_cases h2 : charAt st.source st.current = '\x7b'
  · rw [if_pos h2]
    all_goals exact Nat.le_refl _
  rw [if_neg h2]
  by_cases h3 : charAt st.source st.current = '\x7d'
  · rw [if_pos h3]
    all_goals exact Nat.le_refl _
  rw [if_neg h3]
  by_cases h4 : charAt st.source st.current = ','
  · rw [if_pos h4]
    all_goals exact Nat.le_refl _
  rw [if_neg h4]
  by_cases h5 : charAt st.source st.current = '.'
  · rw [if_pos h5]
    all_goals exact Nat.le_refl _
  rw [if_neg h5]
  by_cases h6 : charAt st.source st.current = '-'
  · rw [if_pos h6]
    all_goals exact Nat.le_refl _
  rw [if_neg h6]
  by_cases h7 : charAt st.source st.current = '+'
  · rw [if_pos h7]
    all_goals exact Nat.le_refl _
  rw [if_neg h7]
  by_cases h8 : charAt st.source st.current = ';'
  · rw [if_pos h8]
    all_goals exact Nat.le_refl _
  rw [if_neg h8]
  by_cases h9 : charAt st.source st.current = '*'
  · rw [if_pos h9]
    all_goals exact Nat.le_refl _
  rw [if_neg h9]
  by_cases h10 : charAt st.source st.current = '!'
  · rw [if_pos h10]
    all_goals exact (matchChar_current { st with current := st.current + 1 } '=').1
  rw [if_neg h10]
  by_cases h11 : charAt st.source st.current = '='
  · rw [if_pos h11]
    all_goals exact (matchChar_current { st with current := st.current + 1 } '=').1
  rw [if_neg h11]
  by_cases h12 : charAt st.source st.current = '<'
  · rw [if_pos h12]
    all_goals exact (matchChar_current { st with current := st.current + 1 } '=').1
  rw [if_neg h12]
  by_cases h13 : charAt st.source st.current = '>'
  · rw [if_pos h13]
    all_goals exact (matchChar_current { st with current := st.current + 1 } '=').1
  rw [if_neg h13]
  by_cases h14 : charAt st.source st.current = '/'
  · rw [if_pos h14]
    by_cases hm : ((matchChar { st with current := st.current + 1 } '/').1 = true)
    · rw [if_pos hm]
      exact Nat.le_trans (matchChar_current { st with current := st.current + 1 } '/').1 (commentRun_current_le _)
    · rw [if_neg hm]
      exact (matchChar_current { st with current := st.current + 1 } '/').1
  rw [if_neg h14]
  by_cases h15 : charAt st.source st.current = ' '
  · rw [if_pos h15]
    all_goals exact Nat.le_refl _
  rw [if_neg h15]
  by_cases h16 : charAt st.source st.current = '\r'
  · rw [if_pos h16]
    all_goals exact Nat.le_refl _
  rw [if_neg h16]
  by_cases h17 : charAt st.source st.current = '\t'
  · rw [if_pos h17]
    all_goals exact Nat.le_refl _
  rw [if_neg h17]
  by_cases h18 : charAt st.source st.current = '\n'
  · rw [if_pos h18]
    all_goals exact Nat.le_refl _
  rw [if_neg h18]
  by_cases h19 : charAt st.source st.current = '"'
  · rw [if_pos h19]
    all_goals exact stringFn_current_le { st with current := st.current + 1 }
  rw [if_neg h19]
  by_cases h20 : isDigit (charAt st.source st.current) = true
  · rw [if_pos h20]
    all_goals exact numberFn_current_le { st with current := st.current + 1 }
  rw [if_neg h20]
  by_cases h21 : isAlpha (charAt st.source st.current) = true
  · rw [if_pos h21]
    all_goals exact identifierFn_current_le { st with current := st.current + 1 }
  rw [if_neg h21]
  all_goals exact Nat.le_refl _

/-- Newline is not an ASCII letter or underscore. -/
theorem isAlpha_ne_nl {c : Char} (h : isAlpha c = true) : c ≠ '\n' := by
  intro hc
  rw [hc] at h
  exact absurd h (by decide)

/-- One `scanToken` step from a loop-head state (`start = current`,
`current < length`, `line` correct for `current`): the source and `start`
are unchanged, `current` stays in bounds, the line counter again matches
`current`, every appended token is a well-formed non-EOF token stamped
with the line of its end offset, and diagnostics only accumulate. -/
theorem scanToken_post (st : ScanState)
    (hse : st.start = st.current)
    (hlt : st.current < st.source.length)
    (hl : st.line = lineAt st.source st.current) :
    (scanToken st).source = st.source ∧
    (scanToken st).start = st.start ∧
    st.current ≤ (scanToken st).current ∧
    (scanToken st).current ≤ st.source.length ∧
    (scanToken st).line = lineAt st.source (scanToken st).current ∧
    (∃ ts, (scanToken st).tokens = st.tokens ++ ts ∧
      ∀ tk ∈ ts, TokOk st.source tk ∧ tk.type ≠ TokenType.EOF) ∧
    (∃ es, (scanToken st).errors = st.errors ++ es) := by
  simp only [scanToken]
  by_cases h0 : charAt st.source st.current = '('
  · rw [if_pos h0]
    refine addToken_post st { st with current := st.current + 1 } TokenType.LEFT_PAREN Literal.none rfl rfl rfl rfl ?_ (Nat.le_succ _) hlt ?_ (by decide)
    · exact Nat.le_trans (Nat.le_of_eq hse) (Nat.le_succ _)
    · show st.line = lineAt st.source (st.current + 1)
      rw [lineAt_succ_ne (by rw [h0]; decide)]
      exact hl
  rw [if_neg h0]
  by_cases h1 : charAt st.source st.current = ')'
  · rw [if_pos h1]
    refine addToken_post st { st with current := st.current + 1 } TokenType.RIGHT_PAREN Literal.none rfl rfl rfl rfl ?_ (Nat.le_succ _) hlt ?_ (by decide)
    · exact Nat.le_trans (Nat.le_of_eq hse) (Nat.le_succ _)
    · show st.line = lineAt st.source (st.current + 1)
      rw [lineAt_succ_ne (by rw [h1]; decide)]
      exact hl
  rw [if_neg h1]
  by_cases h2 : charAt st.source st.current = '\x7b'
  · rw [if_pos h2]
    refine addToken_post st { st with current := st.current + 1 } TokenType.LEFT_BRACE Literal.none rfl rfl rfl rfl ?_ (Nat.le_succ _) hlt ?_ (by decide)
    · exact Nat.le_trans (Nat.le_of_eq hse) (Nat.le_succ _)
    · show st.line = lineAt st.source (st.current + 1)
      rw [lineAt_succ_ne (by rw [h2]; decide)]
      exact hl
  rw [if_neg h2]
  by_cases h3 : charAt st.source st.current = '\x7d'
  · rw [if_pos h3]
    refine addToken_post st { st with current := st.current + 1 } TokenType.RIGHT_BRACE Literal.none rfl rfl rfl rfl ?_ (Nat.le_succ _) hlt ?_ (by decide)
    · exact Nat.le_trans (Nat.le_of_eq hse) (Nat.le_succ _)
    · show st.line = lineAt st.source (st.current + 1)
      rw [lineAt_succ_ne (by rw [h3]; decide)]
      exact hl
  rw [if_neg h3]
  by_cases h4 : charAt st.source st.current = ','
  · rw [if_pos h4]
    refine addToken_post st { st with current := st.current + 1 } TokenType.COMMA Literal.none rfl rfl rfl rfl ?_ (Nat.le_succ _) hlt ?_ (by decide)
    · exact Nat.le_trans (Nat.le_of_eq hse) (Nat.le_succ _)
    · show st.line = lineAt st.source (st.current + 1)
      rw [lineAt_succ_ne (by rw [h4]; decide)]
      exact hl
  rw [if_neg h4]
  by_cases h5 : charAt st.source st.current = '.'
  · rw [if_pos h5]
    refine addToken_post st { st with current := st.current + 1 } TokenType.DOT Literal.none rfl rfl rfl rfl ?_ (Nat.le_succ _) hlt ?_ (by decide)
    · exact Nat.le_trans (Nat.le_of_eq hse) (Nat.le_succ _)
    · show st.line = lineAt st.source (st.current + 1)
      rw [lineAt_succ_ne (by rw [h5]; decide)]
      exact hl
  rw [if_neg h5]
  by_cases h6 : charAt st.source st.current = '-'
  · rw [if_pos h6]
    refine addToken_post st { st with current := st.current + 1 } TokenType.MINUS Literal.none rfl rfl rfl rfl ?_ (Nat.le_succ _) hlt ?_ (by decide)
    · exact Nat.le_trans (Nat.le_of_eq hse) (Nat.le_succ _)
    · show st.line = lineAt st.source (st.current + 1)
      rw [lineAt_succ_ne (by rw [h6]; decide)]
      exact hl
  rw [if_neg h6]
  by_cases h7 : charAt st.source st.current = '+'
  · rw [if_pos h7]
    refine addToken_post st { st with current := st.current + 1 } TokenType.PLUS Literal.none rfl rfl rfl rfl ?_ (Nat.le_succ _) hlt ?_ (by decide)
    · exact Nat.le_trans (Nat.le_of_eq hse) (Nat.le_succ _)
    · show st.line = lineAt st.source (st.current + 1)
      rw [lineAt_succ_ne (by rw [h7]; decide)]
      exact hl
  rw [if_neg h7]
  by_cases h8 : charAt st.source st.current = ';'
  · rw [if_pos h8]
    refine addToken_post st { st with current := st.current + 1 } TokenType.SEMICOLON Literal.none rfl rfl rfl rfl ?_ (Nat.le_succ _) hlt ?_ (by decide)
    · exact Nat.le_trans (Nat.le_of_eq hse) (Nat.le_succ _)
    · show st.line = lineAt st.source (st.current + 1)
      rw [lineAt_succ_ne (by rw [h8]; decide)]
      exact hl
  rw [if_neg h8]
  by_cases h9 : charAt st.source st.current = '*'
  · rw [if_pos h9]
    refine addToken_post st { st with current := st.current + 1 } TokenType.STAR Literal.none rfl rfl rfl rfl ?_ (Nat.le_succ _) hlt ?_ (by decide)
    · exact Nat.le_trans (Nat.le_of_eq hse) (Nat.le_succ _)
    · show st.line = lineAt st.source (st.current + 1)
      rw [lineAt_succ_ne (by rw [h9]; decide)]
      exact hl
  rw [if_neg h9]
  by_cases h10 : charAt st.source st.current = '!'
  · rw [if_pos h10]
    refine addToken_post st (matchChar { st with current := st.current + 1 } '=').2 _ Literal.none ?_ ?_ ?_ ?_ ?_ ?_ ?_ ?_ ?_
    · exact (matchChar_fields { st with current := st.current + 1 } '=').1
    · exact (matchChar_fields { st with current := st.current + 1 } '=').2.1
    · exact (matchChar_fields { st with current := st.current + 1 } '=').2.2.2.1
    · exact (matchChar_fields { st with current := st.current + 1 } '=').2.2.2.2
    · exact Nat.le_trans (Nat.le_of_eq hse)
        (Nat.le_trans (Nat.le_succ _) (matchChar_current { st with current := st.current + 1 } '=').1)
    · exact Nat.le_trans (Nat.le_succ _) (matchChar_current { st with current := st.current + 1 } '=').1
    · exact matchChar_le_length { st with current := st.current + 1 } '=' hlt
    · have hfl : (matchChar { st with current := st.current + 1 } '=').2.line = st.line := (matchChar_fields { st with current := st.current + 1 } '=').2.2.1
      have hml : lineAt st.source (matchChar { st with current := st.current + 1 } '=').2.current = lineAt st.source (st.current + 1) :=
        matchChar_lineAt { st with current := st.current + 1 } '=' (by decide)
      rw [hfl, hml, lineAt_succ_ne (by rw [h10]; decide)]
      exact hl
    · by_cases hb : ((matchChar { st with current := st.current + 1 } '=').1 = true)
      · rw [if_pos hb]
        decide
      · rw [if_neg hb]
        decide
  rw [if_neg h10]
  by_cases h11 : charAt st.source st.current = '='
  · rw [if_pos h11]
    refine addToken_post st (matchChar { st with current := st.current + 1 } '=').2 _ Literal.none ?_ ?_ ?_ ?_ ?_ ?_ ?_ ?_ ?_
    · exact (matchChar_fields { st with current := st.current + 1 } '=').1
    · exact (matchChar_fields { st with current := st.current + 1 } '=').2.1
    · exact (matchChar_fields { st with current := st.current + 1 } '=').2.2.2.1
    · exact (matchChar_fields { st with current := st.current + 1 } '=').2.2.2.2
    · exact Nat.le_trans (Nat.le_of_eq hse)
        (Nat.le_trans (Nat.le_succ _) (matchChar_current { st with current := st.current + 1 } '=').1)
    · exact Nat.le_trans (Nat.le_succ _) (matchChar_current { st with current := st.current + 1 } '=').1
    · exact matchChar_le_length { st with current := st.current + 1 } '=' hlt
    · have hfl : (matchChar { st with current := st.current + 1 } '=').2.line = st.line := (matchChar_fields { st with current := st.current + 1 } '=').2.2.1
      have hml : lineAt st.source (matchChar { st with current := st.current + 1 } '=').2.current = lineAt st.source (st.current + 1) :=
        matchChar_lineAt { st with current := st.current + 1 } '=' (by decide)
      rw [hfl, hml, lineAt_succ_ne (by rw [h11]; decide)]
      exact hl
    · by_cases hb : ((matchChar { st with current := st.current + 1 } '=').1 = true)
      · rw [if_pos hb]
        decide
      · rw [if_neg hb]
        decide
  rw [if_neg h11]
  by_cases h12 : charAt st.source st.current = '<'
  · rw [if_pos h12]
    refine addToken_post st (matchChar { st with current := st.current + 1 } '=').2 _ Literal.none ?_ ?_ ?_ ?_ ?_ ?_ ?_ ?_ ?_
    · exact (matchChar_fields { st with current := st.current + 1 } '=').1
    · exact (matchChar_fields { st with current := st.current + 1 } '=').2.1
    · exact (matchChar_fields { st with current := st.current + 1 } '=').2.2.2.1
    · exact (matchChar_fields { st with current := st.current + 1 } '=').2.2.2.2
    · exact Nat.le_trans (Nat.le_of_eq hse)
        (Nat.le_trans (Nat.le_succ _) (matchChar_current { st with current := st.current + 1 } '=').1)
    · exact Nat.le_trans (Nat.le_succ _) (matchChar_current { st with current := st.current + 1 } '=').1
    · exact matchChar_le_length { st with current := st.current + 1 } '=' hlt
    · have hfl : (matchChar { st with current := st.current + 1 } '=').2.line = st.line := (matchChar_fields { st with current := st.current + 1 } '=').2.2.1
      have hml : lineAt st.source (matchChar { st with current := st.current + 1 } '=').2.current = lineAt st.source (st.current + 1) :=
        matchChar_lineAt { st with current := st.current + 1 } '=' (by decide)
      rw [hfl, hml, lineAt_succ_ne (by rw [h12]; decide)]
      exact hl
    · by_cases hb : ((matchChar { st with current := st.current + 1 } '=').1 = true)
      · rw [if_pos hb]
        decide
      · rw [if_neg hb]
        decide
  rw [if_neg h12]
  by_cases h13 : charAt st.source st.current = '>'
  · rw [if_pos h13]
    refine addToken_post st (matchChar { st with current := st.current + 1 } '=').2 _ Literal.none ?_ ?_ ?_ ?_ ?_ ?_ ?_ ?_ ?_
    · exact (matchChar_fields { st with current := st.current + 1 } '=').1
    · exact (matchChar_fields { st with current := st.current + 1 } '=').2.1
    · exact (matchChar_fields { st with current := st.current + 1 } '=').2.2.2.1
    · exact (matchChar_fields { st with current := st.current + 1 } '=').2.2.2.2
    · exact Nat.le_trans (Nat.le_of_eq hse)
        (Nat.le_trans (Nat.le_succ _) (matchChar_current { st with current := st.current + 1 } '=').1)
    · exact Nat.le_trans (Nat.le_succ _) (matchChar_current { st with current := st.current + 1 } '=').1
    · exact matchChar_le_length { st with current := st.current + 1 } '=' hlt
    · have hfl : (matchChar { st with current := st.current + 1 } '=').2.line = st.line := (matchChar_fields { st with current := st.current + 1 } '=').2.2.1
      have hml : lineAt st.source (matchChar { st with current := st.current + 1 } '=').2.current = lineAt st.source (st.current + 1) :=
        matchChar_lineAt { st with current := st.current + 1 } '=' (by decide)
      rw [hfl, hml, lineAt_succ_ne (by rw [h13]; decide)]
      exact hl
    · by_cases hb : ((matchChar { st with current := st.current + 1 } '=').1 = true)
      · rw [if_pos hb]
        decide
      · rw [if_neg hb]
        decide
  rw [if_neg h13]
  by_cases h14 : charAt st.source st.current = '/'
  · rw [if_pos h14]
    by_cases hm : ((matchChar { st with current := st.current + 1 } '/').1 = true)
    · rw [if_pos hm]
      have hms : (matchChar { st with current := st.current + 1 } '/').2.source = st.source := (matchChar_fields { st with current := st.current + 1 } '/').1
      have hmst : (matchChar { st with current := st.current + 1 } '/').2.start = st.start := (matchChar_fields { st with current := st.current + 1 } '/').2.1
      have hmln : (matchChar { st with current := st.current + 1 } '/').2.line = st.line := (matchChar_fields { st with current := st.current + 1 } '/').2.2.1
      have hmtk : (matchChar { st with current := st.current + 1 } '/').2.tokens = st.tokens := (matchChar_fields { st with current := st.current + 1 } '/').2.2.2.1
      have hmer : (matchChar { st with current := st.current + 1 } '/').2.errors = st.errors := (matchChar_fields { st with current := st.current + 1 } '/').2.2.2.2
      have hmc : (matchChar { st with current := st.current + 1 } '/').2.current ≤ st.source.length := matchChar_le_length { st with current := st.current + 1 } '/' hlt
      have h4 := commentRun_le_length (matchChar { st with current := st.current + 1 } '/').2 (by rw [hms]; exact hmc)
      rw [hms] at h4
      refine ⟨((commentRun_fields _).1).trans hms, ((commentRun_fields _).2.1).trans hmst, ?_, h4, ?_, ?_, ?_⟩
      · exact Nat.le_trans (Nat.le_succ _) (Nat.le_trans (matchChar_current { st with current := st.current + 1 } '/').1 (commentRun_current_le _))
      · have hca := commentRun_lineAt (matchChar { st with current := st.current + 1 } '/').2
        rw [hms] at hca
        have hml3 : lineAt st.source (matchChar { st with current := st.current + 1 } '/').2.current = lineAt st.source (st.current + 1) :=
          matchChar_lineAt { st with current := st.current + 1 } '/' (by decide)
        rw [(commentRun_fields _).2.2.1, hmln, hca, hml3, lineAt_succ_ne (by rw [h14]; decide)]
        exact hl
      · exact ⟨[], by rw [List.append_nil]; exact ((commentRun_fields _).2.2.2.1).trans hmtk, by simp⟩
      · exact ⟨[], by rw [List.append_nil]; exact ((commentRun_fields _).2.2.2.2).trans hmer⟩
    · rw [if_neg hm]
      refine addToken_post st (matchChar { st with current := st.current + 1 } '/').2 TokenType.SLASH Literal.none ?_ ?_ ?_ ?_ ?_ ?_ ?_ ?_ (by decide)
      · exact (matchChar_fields { st with current := st.current + 1 } '/').1
      · exact (matchChar_fields { st with current := st.current + 1 } '/').2.1
      · exact (matchChar_fields { st with current := st.current + 1 } '/').2.2.2.1
      · exact (matchChar_fields { st with current := st.current + 1 } '/').2.2.2.2
      · exact Nat.le_trans (Nat.le_of_eq hse)
          (Nat.le_trans (Nat.le_succ _) (matchChar_current { st with current := st.current + 1 } '/').1)
      · exact Nat.le_trans (Nat.le_succ _) (matchChar_current { st with current := st.current + 1 } '/').1
      · exact matchChar_le_length { st with current := st.current + 1 } '/' hlt
      · have hfl : (matchChar { st with current := st.current + 1 } '/').2.line = st.line := (matchChar_fields { st with current := st.current + 1 } '/').2.2.1
        have hml : lineAt st.source (matchChar { st with current := st.current + 1 } '/').2.current = lineAt st.source (st.current + 1) :=
          matchChar_lineAt { st with current := st.current + 1 } '/' (by decide)
        rw [hfl, hml, lineAt_succ_ne (by rw [h14]; decide)]
        exact hl
  rw [if_neg h14]
  by_cases h15 : charAt st.source st.current = ' '
  · rw [if_pos h15]
    refine ⟨rfl, rfl, Nat.le_succ _, hlt, ?_, ⟨[], by simp, by simp⟩, ⟨[], by simp⟩⟩
    show st.line = lineAt st.source (st.current + 1)
    rw [lineAt_succ_ne (by rw [h15]; decide)]
    exact hl
  rw [if_neg h15]
  by_cases h16 : charAt st.source st.current = '\r'
  · rw [if_pos h16]
    refine ⟨rfl, rfl, Nat.le_succ _, hlt, ?_, ⟨[], by simp, by simp⟩, ⟨[], by simp⟩⟩
    show st.line = lineAt st.source (st.current + 1)
    rw [lineAt_succ_ne (by rw [h16]; decide)]
    exact hl
  rw [if_neg h16]
  by_cases h17 : charAt st.source st.current = '\t'
  · rw [if_pos h17]
    refine ⟨rfl, rfl, Nat.le_succ _, hlt, ?_, ⟨[], by simp, by simp⟩, ⟨[], by simp⟩⟩
    show st.line = lineAt st.source (st.current + 1)
    rw [lineAt_succ_ne (by rw [h17]; decide)]
    exact hl
  rw [if_neg h17]
  by_cases h18 : charAt st.source st.current = '\n'
  · rw [if_pos h18]
    refine ⟨rfl, rfl, Nat.le_succ _, hlt, ?_, ⟨[], by simp, by simp⟩, ⟨[], by simp⟩⟩
    show st.line + 1 = lineAt st.source (st.current + 1)
    rw [lineAt_succ_nl hlt h18, hl]
  rw [if_neg h18]
  by_cases h19 : charAt st.source st.current = '"'
  · rw [if_pos h19]
    obtain ⟨q1, q2, q3, q4, q5, q6, q7⟩ := stringFn_post { st with current := st.current + 1 }
      (by show st.start ≤ st.current + 1; rw [hse]; exact Nat.le_succ _) hlt
      (by show st.line = lineAt st.source (st.current + 1)
          rw [lineAt_succ_ne (by rw [h19]; decide)]
          exact hl)
    exact ⟨q1, q2, Nat.le_trans (Nat.le_succ _) q3, q4, q5, q6, q7⟩
  rw [if_neg h19]
  by_cases h20 : isDigit (charAt st.source st.current) = true
  · rw [if_pos h20]
    obtain ⟨q1, q2, q3, q4, q5, q6, q7⟩ := numberFn_post { st with current := st.current + 1 }
      (by show st.start ≤ st.current + 1; rw [hse]; exact Nat.le_succ _) hlt
      (by show st.line = lineAt st.source (st.current + 1)
          rw [lineAt_succ_ne (isDigit_ne_nl h20)]
          exact hl)
    exact ⟨q1, q2, Nat.le_trans (Nat.le_succ _) q3, q4, q5, q6, q7⟩
  rw [if_neg h20]
  by_cases h21 : isAlpha (charAt st.source st.current) = true
  · rw [if_pos h21]
    obtain ⟨q1, q2, q3, q4, q5, q6, q7⟩ := identifierFn_post { st with current := st.current + 1 }
      (by show st.start ≤ st.current + 1; rw [hse]; exact Nat.le_succ _) hlt
      (by show st.line = lineAt st.source (st.current + 1)
          rw [lineAt_succ_ne (isAlpha_ne_nl h21)]
          exact hl)
    exact ⟨q1, q2, Nat.le_trans (Nat.le_succ _) q3, q4, q5, q6, q7⟩
  rw [if_neg h21]
  refine ⟨rfl, rfl, Nat.le_succ _, hlt, ?_, ⟨[], by simp, by simp⟩,
    ⟨[(st.line, "Unexpected character.")], rfl⟩⟩
  show st.line = lineAt st.source (st.current + 1)
  rw [lineAt_succ_ne h18]
  exact hl

/-! ## The main loop -/

theorem scanLoopF_atEnd (fuel : Nat) : ∀ st : ScanState,
    isAtEnd st = true → scanLoopF fuel st = st := by
  induction fuel with
  | zero => intro st _; rfl
  | succ n ih =>
    intro st h
    unfold scanLoopF
    rw [h]
    rfl

theorem scanLoopF_congr : ∀ (f1 f2 : Nat) (st : ScanState),
    st.source.length - st.current ≤ f1 →
    st.source.length - st.current ≤ f2 →
    scanLoopF f1 st = scanLoopF f2 st := by
  intro f1
  induction f1 with
  | zero =>
    intro f2 st h1 h2
    have he : isAtEnd st = true := isAtEnd_true_iff.mpr (by omega)
    rw [scanLoopF_atEnd 0 st he, scanLoopF_atEnd f2 st he]
  | succ n ih =>
    intro f2 st h1 h2
    by_cases he : isAtEnd st = true
    · rw [scanLoopF_atEnd _ st he, scanLoopF_atEnd f2 st he]
    · have he' : isAtEnd st = false := Bool.eq_false_iff.mpr he
      have hlt := isAtEnd_false_iff.mp he'
      rcases f2 with _ | k
      · omega
      · rw [scanLoopF, scanLoopF, he']
        simp only [Bool.not_false, if_pos]
        have hsrc : (scanToken { st with start := st.current }).source = st.source :=
          scanToken_source _
        have hcur : st.current + 1 ≤ (scanToken { st with start := st.current }).current :=
          scanToken_current_succ_le { st with start := st.current }
        have hm1 : (scanToken { st with start := st.current }).source.length -
            (scanToken { st with start := st.current }).current ≤ n := by
          rw [hsrc]
          omega
        have hm2 : (scanToken { st with start := st.current }).source.length -
            (scanToken { st with start := st.current }).current ≤ k := by
          rw [hsrc]
          omega
        exact ih k _ hm1 hm2

theorem scanLoop_eq (st : ScanState) :
    scanLoop st =
      if !isAtEnd st then scanLoop (scanToken { st with start := st.current }) else st := by
  by_cases he : isAtEnd st = true
  · rw [he]
    show scanLoop st = st
    exact scanLoopF_atEnd _ st he
  · have he' : isAtEnd st = false := Bool.eq_false_iff.mpr he
    have hlt := isAtEnd_false_iff.mp he'
    rw [he']
    show scanLoop st = scanLoop (scanToken { st with start := st.current })
    unfold scanLoop
    obtain ⟨k, hk⟩ : ∃ k, st.source.length - st.current = k + 1 :=
      ⟨st.source.length - st.current - 1, by omega⟩
    rw [hk, scanLoopF, he']
    simp only [Bool.not_false, if_pos]
    have hsrc : (scanToken { st with start := st.current }).source = st.source :=
      scanToken_source _
    have hcur : st.current + 1 ≤ (scanToken { st with start := st.current }).current :=
      scanToken_current_succ_le { st with start := st.current }
    have hm1 : (scanToken { st with start := st.current }).source.length -
        (scanToken { st with start := st.current }).current ≤ k := by
      rw [hsrc]
      omega
    exact scanLoopF_congr k _ _ hm1 (Nat.le_refl _)

set_option maxHeartbeats 1000000 in
theorem scanLoop_post_aux (n : Nat) : ∀ st : ScanState,
    st.source.length - st.current ≤ n →
    st.current ≤ st.source.length →
    st.line = lineAt st.source st.current →
    (scanLoop st).source = st.source ∧
    st.current ≤ (scanLoop st).current ∧
    (scanLoop st).current ≤ st.source.length ∧
    (scanLoop st).line = lineAt st.source (scanLoop st).current ∧
    (∃ ts, (scanLoop st).tokens = st.tokens ++ ts ∧
      ∀ tk ∈ ts, TokOk st.source tk ∧ tk.type ≠ TokenType.EOF) ∧
    (∃ es, (scanLoop st).errors = st.errors ++ es) ∧
    isAtEnd (scanLoop st) = true := by
  induction n with
  | zero =>
    intro st hn h2 hl
    have he : isAtEnd st = true := isAtEnd_true_iff.mpr (by omega)
    rw [show scanLoop st = st from scanLoopF_atEnd _ st he]
    exact ⟨rfl, Nat.le_refl _, h2, hl, ⟨[], by simp, by simp⟩, ⟨[], by simp⟩, he⟩
  | succ n ih =>
    intro st hn h2 hl
    by_cases he : isAtEnd st = true
    · rw [show scanLoop st = st from scanLoopF_atEnd _ st he]
      exact ⟨rfl, Nat.le_refl _, h2, hl, ⟨[], by simp, by simp⟩, ⟨[], by simp⟩, he⟩
    · have he' : isAtEnd st = false := Bool.eq_false_iff.mpr he
      have hlt := isAtEnd_false_iff.mp he'
      rw [scanLoop_eq st, he']
      simp only [Bool.not_false, if_pos]
      obtain ⟨p1, p2, p3, p4, p5, p6, p7⟩ :=
        scanToken_post { st with start := st.current } rfl hlt hl
      obtain ⟨ts1, hts1, hts1ok⟩ := p6
      obtain ⟨es1, hes1⟩ := p7
      have hq2 : (scanToken { st with start := st.current }).current ≤
          (scanToken { st with start := st.current }).source.length := by
        rw [p1]; exact p4
      have hql : (scanToken { st with start := st.current }).line =
          lineAt (scanToken { st with start := st.current }).source
            (scanToken { st with start := st.current }).current := by
        rw [p1]; exact p5
      have hmeas : (scanToken { st with start := st.current }).source.length -
          (scanToken { st with start := st.current }).current ≤ n := by
        have hs : (scanToken { st with start := st.current }).source = st.source :=
          scanToken_source { st with start := st.current }
        have hcur : st.current + 1 ≤ (scanToken { st with start := st.current }).current :=
          scanToken_current_succ_le { st with start := st.current }
        rw [hs]
        omega
      obtain ⟨r1, r2, r3, r4, r5, r6, r7⟩ :=
        ih (scanToken { st with start := st.current }) hmeas hq2 hql
      obtain ⟨ts2, hts2, hts2ok⟩ := r5
      obtain ⟨es2, hes2⟩ := r6
      refine ⟨r1.trans p1, ?_, ?_, ?_, ?_, ?_, r7⟩
      · exact Nat.le_trans p3 r2
      · rw [p1] at r3
        exact r3
      · rw [p1] at r4
        exact r4
      · refine ⟨ts1 ++ ts2, ?_, ?_⟩
        · rw [hts2, hts1]
          show (st.tokens ++ ts1) ++ ts2 = st.tokens ++ (ts1 ++ ts2)
          rw [List.append_assoc]
        · intro tk htk
          rcases List.mem_append.mp htk with h | h
          · exact hts1ok tk h
          · have hh := hts2ok tk h
            rwa [p1] at hh
      · refine ⟨es1 ++ es2, ?_⟩
        rw [hes2, hes1]
        show (st.errors ++ es1) ++ es2 = st.errors ++ (es1 ++ es2)
        rw [List.append_assoc]

theorem scanLoop_post (st : ScanState)
    (h2 : st.current ≤ st.source.length)
    (hl : st.line = lineAt st.source st.current) :
    (scanLoop st).source = st.source ∧
    st.current ≤ (scanLoop st).current ∧
    (scanLoop st).current ≤ st.source.length ∧
    (scanLoop st).line = lineAt st.source (scanLoop st).current ∧
    (∃ ts, (scanLoop st).tokens = st.tokens ++ ts ∧
      ∀ tk ∈ ts, TokOk st.source tk ∧ tk.type ≠ TokenType.EOF) ∧
    (∃ es, (scanLoop st).errors = st.errors ++ es) ∧
    isAtEnd (scanLoop st) = true :=
  scanLoop_post_aux _ st (Nat.le_refl _) h2 hl

/-! ## The whole scan -/

theorem scan_tokens_eq (source : List Char) :
    (scan source).tokens =
      (scanLoop ⟨source, 0, 0, 1, [], []⟩).tokens ++
        [⟨TokenType.EOF, [], Literal.none, (scanLoop ⟨source, 0, 0, 1, [], []⟩).line⟩] := rfl

theorem scan_errors_eq (source : List Char) :
    (scan source).errors = (scanLoop ⟨source, 0, 0, 1, [], []⟩).errors := rfl

theorem scanLoop_init_post (source : List Char) :
    (scanLoop ⟨source, 0, 0, 1, [], []⟩).source = source ∧
    (scanLoop ⟨source, 0, 0, 1, [], []⟩).current = source.length ∧
    (scanLoop ⟨source, 0, 0, 1, [], []⟩).line = lineAt source source.length ∧
    (∀ tk ∈ (scanLoop ⟨source, 0, 0, 1, [], []⟩).tokens,
      TokOk source tk ∧ tk.type ≠ TokenType.EOF) := by
  obtain ⟨l1, l2, l3, l4, l5, l6, l7⟩ :=
    scanLoop_post ⟨source, 0, 0, 1, [], []⟩ (Nat.zero_le _) (lineAt_zero source).symm
  have hcur : (scanLoop ⟨source, 0, 0, 1, [], []⟩).current = source.length := by
    have hend : source.length ≤ (scanLoop ⟨source, 0, 0, 1, [], []⟩).current := by
      have h := isAtEnd_true_iff.mp l7
      rw [l1] at h
      exact h
    have hle : (scanLoop ⟨source, 0, 0, 1, [], []⟩).current ≤ source.length := l3
    exact Nat.le_antisymm hle hend
  refine ⟨l1, hcur, by rw [← hcur]; exact l4, ?_⟩
  obtain ⟨ts, hts, htsok⟩ := l5
  intro tk htk
  rw [hts] at htk
  exact htsok tk (by simpa using htk)

/-- C1: for every input, the scan terminates (all scanner functions are total
Lean functions) and the token sequence is non-empty, ends with an EOF token
with empty lexeme, and contains exactly one EOF token; this holds for the
empty input as well. -/
theorem scan_terminates_eof_final (source : List Char) :
    (scan source).tokens ≠ [] ∧
    (∃ n, (scan source).tokens.getLast? = some ⟨TokenType.EOF, [], Literal.none, n⟩) ∧
    (scan source).tokens.countP (fun t => t.type == TokenType.EOF) = 1 ∧
    (scan []).tokens = [⟨TokenType.EOF, [], Literal.none, 1⟩] := by
  obtain ⟨h1, h2, h3, h4⟩ := scanLoop_init_post source
  refine ⟨?_, ?_, ?_, by decide⟩
  · rw [scan_tokens_eq]
    simp
  · exact ⟨_, by rw [scan_tokens_eq]; exact List.getLast?_concat _⟩
  · rw [scan_tokens_eq, List.countP_append]
    have hz : (scanLoop ⟨source, 0, 0, 1, [], []⟩).tokens.countP
        (fun t => t.type == TokenType.EOF) = 0 := by
      rw [List.countP_eq_zero]
      intro tk htk
      have := (h4 tk htk).2
      simpa using this
    rw [hz]
    simp

/-- C3: when the string loop hits end-of-input before a closing quote, the
attempted string lexeme produces no token and exactly one "Unterminated
string." diagnostic is appended; concretely, scanning `"abc` (opening quote,
then `abc`, no closing quote) yields no token besides EOF and exactly one
such diagnostic at line 1. -/
theorem unterminated_string_no_token :
    (∀ st : ScanState, isAtEnd (stringRun st) = true →
      (stringFn st).tokens = st.tokens ∧
      (stringFn st).errors = st.errors ++ [((stringRun st).line, "Unterminated string.")]) ∧
    (scan "\"abc".toList).tokens.map Token.type = [TokenType.EOF] ∧
    (scan "\"abc".toList).errors = [(1, "Unterminated string.")] := by
  refine ⟨?_, by decide, by decide⟩
  intro st h
  simp only [stringFn]
  rw [if_pos h]
  exact ⟨(stringRun_fields st).2.2.1, by rw [(stringRun_fields st).2.2.2]⟩

theorem unterminated_string_no_token_witness :
    (stringFn ⟨'"' :: ['a'], 0, 1, 1, [], []⟩).tokens = [] ∧
    (stringFn ⟨'"' :: ['a'], 0, 1, 1, [], []⟩).errors =
      [] ++ [((stringRun ⟨'"' :: ['a'], 0, 1, 1, [], []⟩).line, "Unterminated string.")] :=
  unterminated_string_no_token.1 ⟨'"' :: ['a'], 0, 1, 1, [], []⟩ (by decide)

/-- C7: a line comment consumes characters up to but not including the
following newline (the loop stops at end-of-input or with `current` on the
newline), emits no token and leaves the line counter unchanged; concretely
`// comment\n123` yields exactly one non-EOF token: NUMBER 123 at line 2,
and no diagnostics. -/
theorem comment_to_eol :
    (∀ st : ScanState,
      (commentRun st).tokens = st.tokens ∧
      (commentRun st).line = st.line ∧
      (isAtEnd (commentRun st) = true ∨
        charAt (commentRun st).source (commentRun st).current = '\n')) ∧
    (scan "// comment\n123".toList).tokens =
      [⟨TokenType.NUMBER, "123".toList, Literal.num (parseDecimal "123".toList), 2⟩,
       ⟨TokenType.EOF, [], Literal.none, 2⟩] ∧
    (scan "// comment\n123".toList).errors = [] ∧
    parseDecimal "123".toList = 123 := by
  refine ⟨?_, by rfl, by decide, ?_⟩
  · intro st
    exact ⟨(commentRun_fields st).2.2.2.1, (commentRun_fields st).2.2.1, commentRun_stop st⟩
  · show ((123 : Nat) : ℚ) = 123
    norm_num

/-! ## Reachable loop-head states of a scan -/

/-- `ScanReach st st'`: the main loop, started at loop-head state `st`,
passes through loop-head state `st'` (reflexive-transitive closure of one
`start = current; scanToken()` iteration taken while input remains). -/
inductive ScanReach : ScanState → ScanState → Prop
  | refl (st : ScanState) : ScanReach st st
  | step {st st' : ScanState} (h : isAtEnd st = false)
      (htail : ScanReach (scanToken { st with start := st.current }) st') :
      ScanReach st st'

theorem ScanReach.source_eq {st st' : ScanState} (h : ScanReach st st') :
    st'.source = st.source := by
  induction h with
  | refl => rfl
  | step h htail ih =>
    rw [ih]
    exact scanToken_source _

theorem ScanReach.current_le {st st' : ScanState} (h : ScanReach st st') :
    st.current ≤ st'.current := by
  induction h with
  | refl => exact Nat.le_refl _
  | step h htail ih =>
    rename_i u u'
    have hstep : u.current + 1 ≤ (scanToken { u with start := u.current }).current :=
      scanToken_current_succ_le { u with start := u.current }
    omega

theorem ScanReach.invariant_full {st st' : ScanState} (h : ScanReach st st')
    (hs : st.start ≤ st.current)
    (h2 : st.current ≤ st.source.length)
    (hl : st.line = lineAt st.source st.current) :
    st'.start ≤ st'.current ∧ st'.current ≤ st.source.length ∧
    st'.line = lineAt st.source st'.current := by
  induction h with
  | refl => exact ⟨hs, h2, hl⟩
  | step h htail ih =>
    next st st' =>
    have hlt := isAtEnd_false_iff.mp h
    obtain ⟨p1, p2, p3, p4, p5, p6, p7⟩ :=
      scanToken_post { st with start := st.current } rfl hlt hl
    have hq1 : (scanToken { st with start := st.current }).start ≤
        (scanToken { st with start := st.current }).current := by
      rw [p2]
      exact p3
    have hq2 : (scanToken { st with start := st.current }).current ≤
        (scanToken { st with start := st.current }).source.length := by
      rw [p1]; exact p4
    have hql : (scanToken { st with start := st.current }).line =
        lineAt (scanToken { st with start := st.current }).source
          (scanToken { st with start := st.current }).current := by
      rw [p1]; exact p5
    obtain ⟨r1, r2, r3⟩ := ih hq1 hq2 hql
    have hsc : (scanToken { st with start := st.current }).source = st.source :=
      scanToken_source { st with start := st.current }
    rw [hsc] at r2 r3
    exact ⟨r1, r2, r3⟩

/-- C5: over any single scan of `source`, every reachable loop-head state
`st` satisfies `start ≤ current ≤ length source`, and the `line` counter is
monotonically non-decreasing along the scan: any state `st'` reached later
in the same scan has `st.line ≤ st'.line`. -/
theorem scan_state_invariant (source : List Char) (st : ScanState)
    (h : ScanReach ⟨source, 0, 0, 1, [], []⟩ st) :
    st.start ≤ st.current ∧ st.current ≤ source.length ∧
    ∀ st', ScanReach st st' → st.line ≤ st'.line := by
  obtain ⟨i1, i2, i3⟩ :=
    h.invariant_full (Nat.le_refl _) (Nat.zero_le _) (lineAt_zero source).symm
  have hsrc : st.source = source := h.source_eq
  refine ⟨i1, i2, ?_⟩
  intro st' h'
  have hsrc2 : st.source.length = source.length := by rw [hsrc]
  obtain ⟨j1, j2, j3⟩ := h'.invariant_full i1 (by rw [hsrc2]; exact i2) (by rw [hsrc]; exact i3)
  rw [hsrc] at j3
  rw [i3, j3]
  exact lineAt_mono h'.current_le

theorem scan_state_invariant_witness :
    (0 : Nat) ≤ 0 ∧ (0 : Nat) ≤ ('a' :: []).length ∧
    ∀ st', ScanReach ⟨'a' :: [], 0, 0, 1, [], []⟩ st' → 1 ≤ st'.line :=
  scan_state_invariant ('a' :: []) ⟨'a' :: [], 0, 0, 1, [], []⟩
    (ScanReach.refl _)

/-! ## Token line stamps -/

theorem lineAt_sub_count (src : List Char) {s e : Nat} (hse : s ≤ e) :
    lineAt src e = lineAt src s + (substr src s e).countP (fun c => c == '\n') := by
  have h2 : (src.take e).countP (fun c => c == '\n') =
      (src.take s).countP (fun c => c == '\n') +
        ((src.take e).drop s).countP (fun c => c == '\n') := by
    conv_lhs => rw [← List.take_append_drop s (src.take e)]
    rw [List.countP_append, List.take_take, Nat.min_eq_left hse]
  unfold lineAt substr
  omega

theorem substr_self_nil (src : List Char) (l : Nat) : substr src l l = [] := by
  unfold substr
  refine List.drop_eq_nil_of_le ?_
  rw [List.length_take]
  exact Nat.min_le_left _ _

/-- C2 counterexample: scanning the five characters `"a`, newline, `b"` (a
string literal whose opening quote is on line 1) produces a STRING token
whose `line` field is 2 — the line of the closing quote — although its
lexeme (the whole input) starts at offset 0, which is on line 1. -/
theorem string_token_line_cex :
    ((scan ('"' :: 'a' :: '\n' :: 'b' :: ['"'])).tokens.map
        (fun t => (t.type, t.lexeme, t.line))) =
      [(TokenType.STRING, '"' :: 'a' :: '\n' :: 'b' :: ['"'], 2),
       (TokenType.EOF, [], 2)] ∧
    lineAt ('"' :: 'a' :: '\n' :: 'b' :: ['"']) 0 = 1 := by
  constructor
  · decide
  · decide

/-- C2 amended: every token of a scan carries the 1-based line number of the
offset where its lexeme ENDS (the scanner stamps tokens with the line
counter at push time); for every token whose lexeme contains no newline —
all tokens except multi-line string literals — this coincides with the line
on which the lexeme starts. -/
theorem token_line_end_of_lexeme (src : List Char) (t : Token)
    (ht : t ∈ (scan src).tokens) :
    ∃ s e, s ≤ e ∧ e ≤ src.length ∧ t.lexeme = substr src s e ∧
      t.line = lineAt src e ∧
      ((∀ c ∈ t.lexeme, c ≠ '\n') → t.line = lineAt src s) := by
  obtain ⟨h1, h2, h3, h4⟩ := scanLoop_init_post src
  rw [scan_tokens_eq] at ht
  rcases List.mem_append.mp ht with hmem | hmem
  · obtain ⟨⟨s, e, hse, helen, hlex, hline⟩, _⟩ := h4 t hmem
    refine ⟨s, e, hse, helen, hlex, hline, ?_⟩
    intro hno
    rw [hline, lineAt_sub_count src hse]
    have hz : (substr src s e).countP (fun c => c == '\n') = 0 := by
      rw [List.countP_eq_zero]
      intro c hc
      have hcc := hno c (by rw [hlex]; exact hc)
      simpa using hcc
    rw [hz]
    omega
  · have hteq : t = ⟨TokenType.EOF, [], Literal.none,
        (scanLoop ⟨src, 0, 0, 1, [], []⟩).line⟩ := by
      simpa using hmem
    subst hteq
    refine ⟨src.length, src.length, Nat.le_refl _, Nat.le_refl _, ?_, ?_, ?_⟩
    · exact (substr_self_nil src src.length).symm
    · exact h3
    · intro _
      exact h3

theorem token_line_end_of_lexeme_witness :
    ∃ s e, s ≤ e ∧ e ≤ (['('] : List Char).length ∧
      (⟨TokenType.LEFT_PAREN, ['('], Literal.none, 1⟩ : Token).lexeme = substr ['('] s e ∧
      (⟨TokenType.LEFT_PAREN, ['('], Literal.none, 1⟩ : Token).line = lineAt ['('] e ∧
      ((∀ c ∈ (⟨TokenType.LEFT_PAREN, ['('], Literal.none, 1⟩ : Token).lexeme, c ≠ '\n') →
        (⟨TokenType.LEFT_PAREN, ['('], Literal.none, 1⟩ : Token).line = lineAt ['('] s) :=
  token_line_end_of_lexeme ['('] ⟨TokenType.LEFT_PAREN, ['('], Literal.none, 1⟩ (by decide)

/-! ## Unexpected characters -/

/-- A character hitting the default case of the dispatch: none of the
switch labels, not a digit, not a letter or underscore. -/
def unhandledChar (c : Char) : Prop :=
  c ∉ ['(', ')', '\x7b', '\x7d', ',', '.', '-', '+', '*', ';', '!', '=', '<', '>', '/',
       ' ', '\r', '\t', '\n', '"'] ∧
  isDigit c = false ∧ isAlpha c = false

/-- C6: a character that matches no lexical rule adds exactly one
"Unexpected character." diagnostic at the current line, emits no token,
and the scan simply moves to the next character; concretely `@123` gives
one such diagnostic at line 1 and still produces NUMBER 123. -/
theorem unexpected_char_continue :
    (∀ st : ScanState, unhandledChar (charAt st.source st.current) →
      scanToken st = { st with
        current := st.current + 1,
        errors := st.errors ++ [(st.line, "Unexpected character.")] }) ∧
    (scan "@123".toList).errors = [(1, "Unexpected character.")] ∧
    (scan "@123".toList).tokens =
      [⟨TokenType.NUMBER, "123".toList, Literal.num (parseDecimal "123".toList), 1⟩,
       ⟨TokenType.EOF, [], Literal.none, 1⟩] ∧
    parseDecimal "123".toList = 123 := by
  refine ⟨?_, by decide, by rfl, by show ((123 : Nat) : ℚ) = 123; norm_num⟩
  rintro st ⟨hmem, hdig, halp⟩
  simp only [scanToken]
  rw [if_neg (show ¬(charAt st.source st.current = '(') from
    fun he => hmem (by rw [he]; decide))]
  rw [if_neg (show ¬(charAt st.source st.current = ')') from
    fun he => hmem (by rw [he]; decide))]
  rw [if_neg (show ¬(charAt st.source st.current = '\x7b') from
    fun he => hmem (by rw [he]; decide))]
  rw [if_neg (show ¬(charAt st.source st.current = '\x7d') from
    fun he => hmem (by rw [he]; decide))]
  rw [if_neg (show ¬(charAt st.source st.current = ',') from
    fun he => hmem (by rw [he]; decide))]
  rw [if_neg (show ¬(charAt st.source st.current = '.') from
    fun he => hmem (by rw [he]; decide))]
  rw [if_neg (show ¬(charAt st.source st.current = '-') from
    fun he => hmem (by rw [he]; decide))]
  rw [if_neg (show ¬(charAt st.source st.current = '+') from
    fun he => hmem (by rw [he]; decide))]
  rw [if_neg (show ¬(charAt st.source st.current = ';') from
    fun he => hmem (by rw [he]; decide))]
  rw [if_neg (show ¬(charAt st.source st.current = '*') from
    fun he => hmem (by rw [he]; decide))]
  rw [if_neg (show ¬(charAt st.source st.current = '!') from
    fun he => hmem (by rw [he]; decide))]
  rw [if_neg (show ¬(charAt st.source st.current = '=') from
    fun he => hmem (by rw [he]; decide))]
  rw [if_neg (show ¬(charAt st.source st.current = '<') from
    fun he => hmem (by rw [he]; decide))]
  rw [if_neg (show ¬(charAt st.source st.current = '>') from
    fun he => hmem (by rw [he]; decide))]
  rw [if_neg (show ¬(charAt st.source st.current = '/') from
    fun he => hmem (by rw [he]; decide))]
  rw [if_neg (show ¬(charAt st.source st.current = ' ') from
    fun he => hmem (by rw [he]; decide))]
  rw [if_neg (show ¬(charAt st.source st.current = '\r') from
    fun he => hmem (by rw [he]; decide))]
  rw [if_neg (show ¬(charAt st.source st.current = '\t') from
    fun he => hmem (by rw [he]; decide))]
  rw [if_neg (show ¬(charAt st.source st.current = '\n') from
    fun he => hmem (by rw [he]; decide))]
  rw [if_neg (show ¬(charAt st.source st.current = '"') from
    fun he => hmem (by rw [he]; decide))]
  rw [if_neg (show ¬(isDigit (charAt st.source st.current) = true) from
    by rw [hdig]; exact Bool.false_ne_true)]
  rw [if_neg (show ¬(isAlpha (charAt st.source st.current) = true) from
    by rw [halp]; exact Bool.false_ne_true)]

theorem unexpected_char_continue_witness :
    scanToken ⟨['@'], 0, 0, 1, [], []⟩ =
      { (⟨['@'], 0, 0, 1, [], []⟩ : ScanState) with
        current := 0 + 1,
        errors := [] ++ [(1, "Unexpected character.")] } :=
  unexpected_char_continue.1 ⟨['@'], 0, 0, 1, [], []⟩
    ⟨by decide, by decide, by decide⟩

/-! ## Numbers -/

/-- C8: number lexing consumes a maximal run of digits (every consumed
position holds a digit and the next character is not a digit), and the
fractional part is consumed only when the dot is immediately followed by
a digit — otherwise `current` stays at the end of the integer digit run,
leaving the dot for the next token; concretely `12.5` lexes to one
NUMBER 12.5 and `12.` to NUMBER 12 followed by DOT. -/
theorem number_maximal_munch :
    (∀ st : ScanState,
      (∀ i, st.current ≤ i → i < (digitsRun st).current →
        isDigit (charAt st.source i) = true) ∧
      isDigit (peek (digitsRun st)) = false ∧
      ((peek (digitsRun st) == '.' && isDigit (peekNext (digitsRun st))) = false →
        (numberFn st).current = (digitsRun st).current)) ∧
    (scan "12.5".toList).tokens =
      [⟨TokenType.NUMBER, "12.5".toList, Literal.num (parseDecimal "12.5".toList), 1⟩,
       ⟨TokenType.EOF, [], Literal.none, 1⟩] ∧
    parseDecimal "12.5".toList = 25 / 2 ∧
    (scan "12.".toList).tokens =
      [⟨TokenType.NUMBER, "12".toList, Literal.num (parseDecimal "12".toList), 1⟩,
       ⟨TokenType.DOT, ['.'], Literal.none, 1⟩,
       ⟨TokenType.EOF, [], Literal.none, 1⟩] ∧
    parseDecimal "12".toList = 12 := by
  refine ⟨?_, by rfl,
    by show ((12 : Nat) : ℚ) + ((5 : Nat) : ℚ) / (10 : ℚ) ^ (['5'] : List Char).length = 25 / 2
       norm_num,
    by rfl,
    by show ((12 : Nat) : ℚ) = 12; norm_num⟩
  intro st
  refine ⟨digitsRun_consumed st, digitsRun_stop st, ?_⟩
  intro hcond
  simp only [numberFn]
  rw [if_neg (by rw [hcond]; exact Bool.false_ne_true)]
  rfl

theorem number_maximal_munch_witness :
    isDigit (charAt (['1'] : List Char) 0) = true ∧
    (numberFn ⟨['1', '.'], 0, 0, 1, [], []⟩).current =
      (digitsRun ⟨['1', '.'], 0, 0, 1, [], []⟩).current :=
  ⟨(number_maximal_munch.1 ⟨['1'], 0, 0, 1, [], []⟩).1 0 (by decide) (by decide),
   (number_maximal_munch.1 ⟨['1', '.'], 0, 0, 1, [], []⟩).2.2 (by decide)⟩

/-! ## Identifiers and keywords -/

/-- The sixteen reserved-word spellings of the keyword table. -/
def kwSpellings : List (List Char) :=
  ["and".toList, "class".toList, "else".toList, "false".toList, "for".toList, "fun".toList, "if".toList, "nil".toList, "or".toList, "print".toList, "return".toList, "super".toList, "this".toList, "true".toList, "var".toList, "while".toList]

/-- The property names every plain JavaScript object literal inherits from
`Object.prototype`; reading one of these off the `keywords` object yields
the inherited member (a function, or the prototype itself for
`__proto__`), not `undefined`. -/
def protoMemberNames : List (List Char) :=
  ["constructor".toList, "hasOwnProperty".toList, "isPrototypeOf".toList,
   "propertyIsEnumerable".toList, "toLocaleString".toList, "toString".toList,
   "valueOf".toList, "__defineGetter__".toList, "__defineSetter__".toList,
   "__lookupGetter__".toList, "__lookupSetter__".toList, "__proto__".toList]

/-- Result of the property read `keywords[text]` under JavaScript object
semantics: an own entry of the table (a `TokenType`), a member inherited
from `Object.prototype` (never `undefined`), or `undefined`. -/
inductive KeywordLookup where
  | own (t : TokenType)
  | inherited (name : List Char)
  | undef
  deriving DecidableEq

/-- `keywords[text]` as the program executes it: the own properties are the
sixteen reserved words; a miss falls through to the prototype chain before
becoming `undefined`. -/
def keywordsJS (text : List Char) : KeywordLookup :=
  match keywords text with
  | some t => KeywordLookup.own t
  | none =>
    if text ∈ protoMemberNames then KeywordLookup.inherited text
    else KeywordLookup.undef

/-- The `type` value `identifier()` pushes for a lexeme:
`let type = keywords[text]; if (type === undefined) type = TokenType.IDENTIFIER;`. -/
def identifierClass (text : List Char) : KeywordLookup :=
  match keywordsJS text with
  | KeywordLookup.undef => KeywordLookup.own TokenType.IDENTIFIER
  | r => r

/-- C9: the keyword table's own entries are exactly the sixteen reserved
words, but the claim's IDENTIFIER default is broken in the program: since
`keywords[text]` is a plain-object property read, every `Object.prototype`
member name — each a lexable identifier spelling (a letter-or-underscore
head and an alphanumeric run) that is not a reserved word and misses the
table — returns the inherited member instead of `undefined`, so
`identifier()` pushes a token whose type is that member, not IDENTIFIER;
`toString` is a concrete failing input. -/
theorem keyword_lookup_proto_bug :
    (∀ p ∈ protoMemberNames, keywords p = none ∧ p ∉ kwSpellings ∧
      isAlpha (charAt p 0) = true ∧ (∀ c ∈ p, isAlphaNumeric c = true) ∧
      identifierClass p = KeywordLookup.inherited p ∧
      identifierClass p ≠ KeywordLookup.own TokenType.IDENTIFIER) ∧
    identifierClass ("toString".toList) =
      KeywordLookup.inherited ("toString".toList) := by
  decide

/-! ## The driver (`main`, `run_file`) -/

/-- The three process-level outcomes `main()` can dispatch to. -/
inductive DriverAction where
  | usageExit64
  | runFile (path : Option String)
  | prompt
  deriving DecidableEq

/-- `main()`'s dispatch on `process.argv` (which, under Bun/Node, includes
the runtime executable and the script path before any user argument):
`argv.length > 2` prints usage and exits 64; `argv.length === 1` calls
`run_file(argv[1])` (an out-of-range access); anything else starts the
interactive prompt. -/
def mainDispatch (argv : List String) : DriverAction :=
  if argv.length > 2 then DriverAction.usageExit64
  else if argv.length = 1 then DriverAction.runFile argv[1]?
  else DriverAction.prompt

/-- `run_file`: read the text, scan it, and exit with 65 when a lexical
error was reported (`had_error`), 0 otherwise. -/
def runFileExit (text : List Char) : Nat :=
  if (scan text).errors ≠ [] then 65 else 0

/-- C10 (code evaluated at the failing input): invoked with exactly one
file-path argument — a 3-element argv `[runtime, script, file]` — `main`
takes the `argv.length > 2` branch and exits 64 with a usage message,
without ever scanning; the 65/0 exit logic of `run_file` itself matches
the claim, but it is unreachable for a real file argument. -/
theorem main_argv_bug :
    mainDispatch ["bun", "index.ts", "script.lox"] = DriverAction.usageExit64 ∧
    runFileExit "@".toList = 65 ∧
    runFileExit "1".toList = 0 := by
  refine ⟨by decide, ?_, ?_⟩
  · rw [runFileExit, if_pos (by decide)]
  · rw [runFileExit, if_neg (by decide)]

/-! ## One-step unfolding equations for the loops -/

theorem digitsRun_eq (st : ScanState) :
    digitsRun st =
      if isDigit (peek st) then digitsRun { st with current := st.current + 1 } else st := by
  by_cases h : isDigit (peek st) = true
  · rw [if_pos h]
    have hlt := peek_isDigit_lt h
    unfold digitsRun
    obtain ⟨k, hk⟩ : ∃ k, st.source.length - st.current = k + 1 :=
      ⟨st.source.length - st.current - 1, by omega⟩
    rw [hk, digitsLoopF, if_pos h]
    have : ({ st with current := st.current + 1 } : ScanState).source.length -
        ({ st with current := st.current + 1 } : ScanState).current = k := by
      show st.source.length - (st.current + 1) = k
      omega
    rw [this]
  · rw [if_neg h]
    unfold digitsRun
    rcases hk : st.source.length - st.current with _ | k
    · rfl
    · rw [digitsLoopF, if_neg h]

theorem identRun_eq (st : ScanState) :
    identRun st =
      if isAlphaNumeric (peek st) then identRun { st with current := st.current + 1 } else st := by
  by_cases h : isAlphaNumeric (peek st) = true
  · rw [if_pos h]
    have hlt := peek_isAlphaNumeric_lt h
    unfold identRun
    obtain ⟨k, hk⟩ : ∃ k, st.source.length - st.current = k + 1 :=
      ⟨st.source.length - st.current - 1, by omega⟩
    rw [hk, identLoopF, if_pos h]
    have : ({ st with current := st.current + 1 } : ScanState).source.length -
        ({ st with current := st.current + 1 } : ScanState).current = k := by
      show st.source.length - (st.current + 1) = k
      omega
    rw [this]
  · rw [if_neg h]
    unfold identRun
    rcases hk : st.source.length - st.current with _ | k
    · rfl
    · rw [identLoopF, if_neg h]

theorem commentRun_eq (st : ScanState) :
    commentRun st =
      if peek st != '\n' && !isAtEnd st then
        commentRun { st with current := st.current + 1 }
      else st := by
  by_cases h : (peek st != '\n' && !isAtEnd st) = true
  · rw [if_pos h]
    have hlt : st.current < st.source.length := by
      rw [Bool.and_eq_true, Bool.not_eq_true'] at h
      exact isAtEnd_false_iff.mp h.2
    unfold commentRun
    obtain ⟨k, hk⟩ : ∃ k, st.source.length - st.current = k + 1 :=
      ⟨st.source.length - st.current - 1, by omega⟩
    rw [hk, commentLoopF, if_pos h]
    have : ({ st with current := st.current + 1 } : ScanState).source.length -
        ({ st with current := st.current + 1 } : ScanState).current = k := by
      show st.source.length - (st.current + 1) = k
      omega
    rw [this]
  · rw [if_neg h]
    unfold commentRun
    rcases hk : st.source.length - st.current with _ | k
    · rfl
    · rw [commentLoopF, if_neg h]

theorem stringRun_eq (st : ScanState) :
    stringRun st =
      if peek st != '"' && !isAtEnd st then
        stringRun { st with
          line := if peek st == '\n' then st.line + 1 else st.line,
          current := st.current + 1 }
      else st := by
  by_cases h : (peek st != '"' && !isAtEnd st) = true
  · rw [if_pos h]
    have hlt : st.current < st.source.length := by
      rw [Bool.and_eq_true, Bool.not_eq_true'] at h
      exact isAtEnd_false_iff.mp h.2
    unfold stringRun
    obtain ⟨k, hk⟩ : ∃ k, st.source.length - st.current = k + 1 :=
      ⟨st.source.length - st.current - 1, by omega⟩
    rw [hk, stringLoopF, if_pos h]
    have : ({ st with
        line := if peek st == '\n' then st.line + 1 else st.line,
        current := st.current + 1 } : ScanState).source.length -
        ({ st with
            line := if peek st == '\n' then st.line + 1 else st.line,
            current := st.current + 1 } : ScanState).current = k := by
      show st.source.length - (st.current + 1) = k
      omega
    rw [this]
  · rw [if_neg h]
    unfold stringRun
    rcases hk : st.source.length - st.current with _ | k
    · rfl
    · rw [stringLoopF, if_neg h]

/-! ## Index arithmetic across a concatenation `A ++ '\n' :: B` -/

theorem charAt_append_left {A : List Char} (r : List Char) {i : Nat}
    (h : i < A.length) : charAt (A ++ r) i = charAt A i := by
  unfold charAt
  exact List.getD_append A r _ i h

theorem charAt_boundary (A B : List Char) :
    charAt (A ++ '\n' :: B) A.length = '\n' := by
  unfold charAt
  rw [List.getD_append_right A ('\n' :: B) _ A.length (Nat.le_refl _)]
  simp

theorem charAt_shift (A B : List Char) (i : Nat) :
    charAt (A ++ '\n' :: B) (A.length + 1 + i) = charAt B i := by
  unfold charAt
  have hsplit : A ++ '\n' :: B = (A ++ ['\n']) ++ B := by
    rw [List.append_assoc]
    rfl
  rw [hsplit]
  have hlen : (A ++ ['\n']).length = A.length + 1 := by simp
  rw [List.getD_append_right (A ++ ['\n']) B _ (A.length + 1 + i) (by omega)]
  congr 1
  omega

theorem length_cat (A B : List Char) :
    (A ++ '\n' :: B).length = A.length + 1 + B.length := by
  simp
  omega

theorem substr_append_left {A : List Char} (r : List Char) {s e : Nat}
    (h : e ≤ A.length) : substr (A ++ r) s e = substr A s e := by
  unfold substr
  rw [List.take_append_of_le_length h]

theorem substr_shift (A B : List Char) (s e : Nat) :
    substr (A ++ '\n' :: B) (A.length + 1 + s) (A.length + 1 + e) = substr B s e := by
  unfold substr
  have hsplit : A ++ '\n' :: B = (A ++ ['\n']) ++ B := by
    rw [List.append_assoc]
    rfl
  rw [hsplit]
  have hlen : (A ++ ['\n']).length = A.length + 1 := by simp
  have h1 : A.length + 1 + e = (A ++ ['\n']).length + e := by omega
  have h2 : A.length + 1 + s = (A ++ ['\n']).length + s := by omega
  rw [h1, List.take_append, h2, List.drop_append]

/-! ## Phase 1: scanning the `A` region of `A ++ '\n' :: B` behaves like
scanning `A` alone (up to an unterminated string reaching the boundary) -/

theorem peek_agree_left {A B : List Char} {xa xf : ScanState}
    (ha : xa.source = A) (hf : xf.source = A ++ '\n' :: B)
    (hc : xf.current = xa.current) (hlt : xa.current < A.length) :
    peek xf = peek xa := by
  have hfl : xf.current < xf.source.length := by
    rw [hf, hc, length_cat]
    omega
  rw [peek_eq_charAt hfl, peek_eq_charAt (by rw [ha]; exact hlt)]
  rw [ha, hf, hc]
  exact charAt_append_left _ hlt

theorem peek_boundary_a {A : List Char} {xa : ScanState}
    (ha : xa.source = A) (heq : xa.current = A.length) :
    peek xa = '\x00' := by
  rw [peek, if_pos (isAtEnd_true_iff.mpr (by rw [ha, heq]))]

theorem peek_boundary_f {A B : List Char} {xf : ScanState}
    (hf : xf.source = A ++ '\n' :: B) (heq : xf.current = A.length) :
    peek xf = '\n' := by
  have hfl : xf.current < xf.source.length := by
    rw [hf, heq, length_cat]
    omega
  rw [peek_eq_charAt hfl, hf, heq]
  exact charAt_boundary A B

theorem digitsRun_simA (A B : List Char) (n : Nat) : ∀ xa xf : ScanState,
    A.length - xa.current ≤ n →
    xa.source = A → xf.source = A ++ '\n' :: B → xf.current = xa.current →
    xa.current ≤ A.length →
    (digitsRun xf).current = (digitsRun xa).current ∧ (digitsRun xa).current ≤ A.length := by
  induction n with
  | zero =>
    intro xa xf hn ha hf hc hle
    have heq : xa.current = A.length := by omega
    have hpa : isDigit (peek xa) = false := by
      rw [peek_boundary_a ha heq]
      decide
    have hpf : isDigit (peek xf) = false := by
      rw [peek_boundary_f hf (by rw [hc, heq])]
      decide
    rw [digitsRun_eq xa, if_neg (by rw [hpa]; exact Bool.false_ne_true),
      digitsRun_eq xf, if_neg (by rw [hpf]; exact Bool.false_ne_true)]
    exact ⟨hc, hle⟩
  | succ n ih =>
    intro xa xf hn ha hf hc hle
    by_cases heq : xa.current = A.length
    · have hpa : isDigit (peek xa) = false := by
        rw [peek_boundary_a ha heq]
        decide
      have hpf : isDigit (peek xf) = false := by
        rw [peek_boundary_f hf (by rw [hc, heq])]
        decide
      rw [digitsRun_eq xa, if_neg (by rw [hpa]; exact Bool.false_ne_true),
        digitsRun_eq xf, if_neg (by rw [hpf]; exact Bool.false_ne_true)]
      exact ⟨hc, hle⟩
    · have hlt : xa.current < A.length := by omega
      have hpk := peek_agree_left ha hf hc hlt
      by_cases hd : isDigit (peek xa) = true
      · rw [digitsRun_eq xa, if_pos hd, digitsRun_eq xf, if_pos (by rw [hpk]; exact hd)]
        exact ih { xa with current := xa.current + 1 } { xf with current := xf.current + 1 }
          (by show A.length - (xa.current + 1) ≤ n; omega)
          (by show xa.source = A; exact ha)
          (by show xf.source = A ++ '\n' :: B; exact hf)
          (by show xf.current + 1 = xa.current + 1; omega)
          (by show xa.current + 1 ≤ A.length; omega)
      · rw [digitsRun_eq xa, if_neg hd, digitsRun_eq xf, if_neg (by rw [hpk]; exact hd)]
        exact ⟨hc, hle⟩

theorem identRun_simA (A B : List Char) (n : Nat) : ∀ xa xf : ScanState,
    A.length - xa.current ≤ n →
    xa.source = A → xf.source = A ++ '\n' :: B → xf.current = xa.current →
    xa.current ≤ A.length →
    (identRun xf).current = (identRun xa).current ∧ (identRun xa).current ≤ A.length := by
  induction n with
  | zero =>
    intro xa xf hn ha hf hc hle
    have heq : xa.current = A.length := by omega
    have hpa : isAlphaNumeric (peek xa) = false := by
      rw [peek_boundary_a ha heq]
      decide
    have hpf : isAlphaNumeric (peek xf) = false := by
      rw [peek_boundary_f hf (by rw [hc, heq])]
      decide
    rw [identRun_eq xa, if_neg (by rw [hpa]; exact Bool.false_ne_true),
      identRun_eq xf, if_neg (by rw [hpf]; exact Bool.false_ne_true)]
    exact ⟨hc, hle⟩
  | succ n ih =>
    intro xa xf hn ha hf hc hle
    by_cases heq : xa.current = A.length
    · have hpa : isAlphaNumeric (peek xa) = false := by
        rw [peek_boundary_a ha heq]
        decide
      have hpf : isAlphaNumeric (peek xf) = false := by
        rw [peek_boundary_f hf (by rw [hc, heq])]
        decide
      rw [identRun_eq xa, if_neg (by rw [hpa]; exact Bool.false_ne_true),
        identRun_eq xf, if_neg (by rw [hpf]; exact Bool.false_ne_true)]
      exact ⟨hc, hle⟩
    · have hlt : xa.current < A.length := by omega
      have hpk := peek_agree_left ha hf hc hlt
      by_cases hd : isAlphaNumeric (peek xa) = true
      · rw [identRun_eq xa, if_pos hd, identRun_eq xf, if_pos (by rw [hpk]; exact hd)]
        exact ih { xa with current := xa.current + 1 } { xf with current := xf.current + 1 }
          (by show A.length - (xa.current + 1) ≤ n; omega)
          (by show xa.source = A; exact ha)
          (by show xf.source = A ++ '\n' :: B; exact hf)
          (by show xf.current + 1 = xa.current + 1; omega)
          (by show xa.current + 1 ≤ A.length; omega)
      · rw [identRun_eq xa, if_neg hd, identRun_eq xf, if_neg (by rw [hpk]; exact hd)]
        exact ⟨hc, hle⟩

theorem commentRun_simA (A B : List Char) (n : Nat) : ∀ xa xf : ScanState,
    A.length - xa.current ≤ n →
    xa.source = A → xf.source = A ++ '\n' :: B → xf.current = xa.current →
    xa.current ≤ A.length →
    (commentRun xf).current = (commentRun xa).current ∧
    (commentRun xa).current ≤ A.length := by
  induction n with
  | zero =>
    intro xa xf hn ha hf hc hle
    have heq : xa.current = A.length := by omega
    have hca : (peek xa != '\n' && !isAtEnd xa) = false := by
      rw [isAtEnd_true_iff.mpr (by rw [ha, heq] : xa.source.length ≤ xa.current)]
      simp
    have hcf : (peek xf != '\n' && !isAtEnd xf) = false := by
      rw [peek_boundary_f hf (by rw [hc, heq])]
      simp
    rw [commentRun_eq xa, if_neg (by rw [hca]; exact Bool.false_ne_true),
      commentRun_eq xf, if_neg (by rw [hcf]; exact Bool.false_ne_true)]
    exact ⟨hc, hle⟩
  | succ n ih =>
    intro xa xf hn ha hf hc hle
    by_cases heq : xa.current = A.length
    · have hca : (peek xa != '\n' && !isAtEnd xa) = false := by
        rw [isAtEnd_true_iff.mpr (by rw [ha, heq] : xa.source.length ≤ xa.current)]
        simp
      have hcf : (peek xf != '\n' && !isAtEnd xf) = false := by
        rw [peek_boundary_f hf (by rw [hc, heq])]
        simp
      rw [commentRun_eq xa, if_neg (by rw [hca]; exact Bool.false_ne_true),
        commentRun_eq xf, if_neg (by rw [hcf]; exact Bool.false_ne_true)]
      exact ⟨hc, hle⟩
    · have hlt : xa.current < A.length := by omega
      have hpk := peek_agree_left ha hf hc hlt
      have hba : isAtEnd xa = false := isAtEnd_false_iff.mpr (by rw [ha]; exact hlt)
      have hbf : isAtEnd xf = false := isAtEnd_false_iff.mpr (by
        rw [hf, hc, length_cat]
        omega)
      have hcond : (peek xf != '\n' && !isAtEnd xf) = (peek xa != '\n' && !isAtEnd xa) := by
        rw [hpk, hba, hbf]
      by_cases hd : (peek xa != '\n' && !isAtEnd xa) = true
      · rw [commentRun_eq xa, if_pos hd, commentRun_eq xf, if_pos (by rw [hcond]; exact hd)]
        exact ih { xa with current := xa.current + 1 } { xf with current := xf.current + 1 }
          (by show A.length - (xa.current + 1) ≤ n; omega)
          (by show xa.source = A; exact ha)
          (by show xf.source = A ++ '\n' :: B; exact hf)
          (by show xf.current + 1 = xa.current + 1; omega)
          (by show xa.current + 1 ≤ A.length; omega)
      · rw [commentRun_eq xa, if_neg hd, commentRun_eq xf, if_neg (by rw [hcond]; exact hd)]
        exact ⟨hc, hle⟩

theorem stringRun_simA (A B : List Char) (n : Nat) : ∀ xa xf : ScanState,
    A.length - xa.current ≤ n →
    xa.source = A → xf.source = A ++ '\n' :: B → xf.current = xa.current →
    xf.line = xa.line →
    xa.current ≤ A.length →
    isAtEnd (stringRun xa) = true ∨
    ((stringRun xf).current = (stringRun xa).current ∧
      (stringRun xf).line = (stringRun xa).line ∧
      (stringRun xa).current ≤ A.length ∧
      isAtEnd (stringRun xa) = false) := by
  induction n with
  | zero =>
    intro xa xf hn ha hf hc hl hle
    have heq : xa.current = A.length := by omega
    have hea : isAtEnd xa = true := isAtEnd_true_iff.mpr (by rw [ha, heq])
    have hca : (peek xa != '"' && !isAtEnd xa) = false := by
      rw [hea]
      simp
    rw [stringRun_eq xa, if_neg (by rw [hca]; exact Bool.false_ne_true)]
    exact Or.inl hea
  | succ n ih =>
    intro xa xf hn ha hf hc hl hle
    by_cases heq : xa.current = A.length
    · have hea : isAtEnd xa = true := isAtEnd_true_iff.mpr (by rw [ha, heq])
      have hca : (peek xa != '"' && !isAtEnd xa) = false := by
        rw [hea]
        simp
      rw [stringRun_eq xa, if_neg (by rw [hca]; exact Bool.false_ne_true)]
      exact Or.inl hea
    · have hlt : xa.current < A.length := by omega
      have hpk := peek_agree_left ha hf hc hlt
      have hba : isAtEnd xa = false := isAtEnd_false_iff.mpr (by rw [ha]; exact hlt)
      have hbf : isAtEnd xf = false := isAtEnd_false_iff.mpr (by
        rw [hf, hc, length_cat]
        omega)
      have hcond : (peek xf != '"' && !isAtEnd xf) = (peek xa != '"' && !isAtEnd xa) := by
        rw [hpk, hba, hbf]
      by_cases hd : (peek xa != '"' && !isAtEnd xa) = true
      · have hdf : (peek xf != '"' && !isAtEnd xf) = true := by rw [hcond]; exact hd
        rw [stringRun_eq xa, if_pos hd, stringRun_eq xf, if_pos hdf]
        exact ih
          { xa with
            line := if peek xa == '\n' then xa.line + 1 else xa.line,
            current := xa.current + 1 }
          { xf with
            line := if peek xf == '\n' then xf.line + 1 else xf.line,
            current := xf.current + 1 }
          (by show A.length - (xa.current + 1) ≤ n; omega)
          (by show xa.source = A; exact ha)
          (by show xf.source = A ++ '\n' :: B; exact hf)
          (by show xf.current + 1 = xa.current + 1; omega)
          (by
            show (if peek xf == '\n' then xf.line + 1 else xf.line) =
              (if peek xa == '\n' then xa.line + 1 else xa.line)
            rw [hpk, hl])
          (by show xa.current + 1 ≤ A.length; omega)
      · have hdf : ¬(peek xf != '"' && !isAtEnd xf) = true := by rw [hcond]; exact hd
        rw [stringRun_eq xa, if_neg hd, stringRun_eq xf, if_neg hdf]
        exact Or.inr ⟨hc, hl, hle, hba⟩

theorem matchChar_simA {A B : List Char} (xa xf : ScanState) (e : Char)
    (ha : xa.source = A) (hf : xf.source = A ++ '\n' :: B)
    (hc : xf.current = xa.current) (hle : xa.current ≤ A.length) (he : e ≠ '\n') :
    (matchChar xf e).1 = (matchChar xa e).1 ∧
    (matchChar xf e).2.current = (matchChar xa e).2.current ∧
    (matchChar xa e).2.current ≤ A.length := by
  by_cases heq : xa.current = A.length
  · have hea : isAtEnd xa = true := isAtEnd_true_iff.mpr (by rw [ha, heq])
    have hbf : isAtEnd xf = false := isAtEnd_false_iff.mpr (by
      rw [hf, hc, heq, length_cat]
      omega)
    have hbf' : ¬(isAtEnd xf = true) := by rw [hbf]; exact Bool.false_ne_true
    have hch : charAt xf.source xf.current = '\n' := by
      rw [hf, hc, heq]
      exact charAt_boundary A B
    have hchne : charAt xf.source xf.current ≠ e := by
      rw [hch]
      exact fun hx => he hx.symm
    rw [matchChar, matchChar, if_pos hea, if_neg hbf', if_pos hchne]
    exact ⟨rfl, hc, hle⟩
  · have hlt : xa.current < A.length := by omega
    have hba : isAtEnd xa = false := isAtEnd_false_iff.mpr (by rw [ha]; exact hlt)
    have hbf : isAtEnd xf = false := isAtEnd_false_iff.mpr (by
      rw [hf, hc, length_cat]
      omega)
    have hba' : ¬(isAtEnd xa = true) := by rw [hba]; exact Bool.false_ne_true
    have hbf' : ¬(isAtEnd xf = true) := by rw [hbf]; exact Bool.false_ne_true
    have hch : charAt xf.source xf.current = charAt xa.source xa.current := by
      rw [hf, hc, ha]
      exact charAt_append_left _ hlt
    rw [matchChar, matchChar, if_neg hba', if_neg hbf']
    by_cases hcc : charAt xa.source xa.current = e
    · have h1 : ¬(charAt xa.source xa.current ≠ e) := fun hx => hx hcc
      have h2 : ¬(charAt xf.source xf.current ≠ e) := by
        rw [hch]
        exact fun hx => hx hcc
      rw [if_neg h1, if_neg h2]
      refine ⟨rfl, ?_, ?_⟩
      · show xf.current + 1 = xa.current + 1
        omega
      · show xa.current + 1 ≤ A.length
        omega
    · have h2 : charAt xf.source xf.current ≠ e := by
        rw [hch]
        exact hcc
      rw [if_pos hcc, if_pos h2]
      exact ⟨rfl, hc, hle⟩

theorem fracCond_simA {A B : List Char} (xa xf : ScanState)
    (ha : xa.source = A) (hf : xf.source = A ++ '\n' :: B)
    (hc : xf.current = xa.current) (hle : xa.current ≤ A.length) :
    (peek xf == '.' && isDigit (peekNext xf)) =
      (peek xa == '.' && isDigit (peekNext xa)) := by
  by_cases heq : xa.current = A.length
  · rw [peek_boundary_a ha heq, peek_boundary_f hf (by rw [hc, heq])]
    rfl
  · have hlt : xa.current < A.length := by omega
    rw [peek_agree_left ha hf hc hlt]
    cases hq : (peek xa == '.') with
    | false => simp
    | true =>
      by_cases heq2 : xa.current + 1 = A.length
      · have hpa : peekNext xa = '\x00' := by
          rw [peekNext, if_pos (by rw [ha, ← heq2])]
        have hpf : peekNext xf = '\n' := by
          rw [peekNext, if_neg (by rw [hf, hc, length_cat]; omega)]
          rw [hf, hc, heq2]
          exact charAt_boundary A B
        rw [hpa, hpf]
        rfl
      · have hlt2 : xa.current + 1 < A.length := by omega
        have hpa : peekNext xa = charAt A (xa.current + 1) := by
          rw [peekNext, if_neg (by rw [ha]; omega), ha]
        have hpf : peekNext xf = charAt A (xa.current + 1) := by
          rw [peekNext, if_neg (by rw [hf, hc, length_cat]; omega), hf, hc]
          exact charAt_append_left _ hlt2
        rw [hpa, hpf]

theorem addToken_simA {A B : List Char} (ya yf : ScanState) (t : TokenType) (l : Literal)
    (hsrcA : ya.source = A) (hsrcF : yf.source = A ++ '\n' :: B)
    (hcur : yf.current = ya.current) (hsta : yf.start = ya.start)
    (hlin : yf.line = ya.line) (htok : yf.tokens = ya.tokens)
    (herr : yf.errors = ya.errors) (hle : ya.current ≤ A.length) :
    (addToken yf t l).current = (addToken ya t l).current ∧
    (addToken yf t l).line = (addToken ya t l).line ∧
    (addToken yf t l).tokens = (addToken ya t l).tokens ∧
    (addToken yf t l).errors = (addToken ya t l).errors ∧
    (addToken ya t l).current ≤ A.length := by
  refine ⟨hcur, hlin, ?_, herr, hle⟩
  show yf.tokens ++ [⟨t, substr yf.source yf.start yf.current, l, yf.line⟩] =
    ya.tokens ++ [⟨t, substr ya.source ya.start ya.current, l, ya.line⟩]
  rw [htok, hsta, hlin, hcur, hsrcF, hsrcA, substr_append_left _ hle]

/-- One `scanToken` step inside the `A` region of `A ++ '\n' :: B` behaves
exactly as the same step of the scan of `A` alone — unless the step is a
string literal that runs off the end of `A`, in which case the scan of `A`
alone records an "Unterminated string." diagnostic. -/
theorem scanToken_simA (A B : List Char) (xa xf : ScanState)
    (ha : xa.source = A) (hf : xf.source = A ++ '\n' :: B)
    (hc : xf.current = xa.current) (hst : xf.start = xa.start)
    (hl : xf.line = xa.line) (htk : xf.tokens = xa.tokens)
    (her : xf.errors = xa.errors) (hlt : xa.current < A.length) :
    ((scanToken xf).current = (scanToken xa).current ∧
     (scanToken xf).line = (scanToken xa).line ∧
     (scanToken xf).tokens = (scanToken xa).tokens ∧
     (scanToken xf).errors = (scanToken xa).errors ∧
     (scanToken xa).current ≤ A.length) ∨
    (∃ l, (l, "Unterminated string.") ∈ (scanToken xa).errors) := by
  have hch : charAt xf.source xf.current = charAt xa.source xa.current := by
    rw [hf, hc, ha]
    exact charAt_append_left _ hlt
  simp only [scanToken]
  by_cases h0 : charAt xa.source xa.current = '('
  · have h0f : charAt xf.source xf.current = '(' := by rw [hch]; exact h0
    rw [if_pos h0]
    rw [if_pos h0f]
    exact Or.inl (addToken_simA (A := A) (B := B)
      { xa with current := xa.current + 1 }
      { xf with current := xf.current + 1 }
      (TokenType.LEFT_PAREN)
      (Literal.none)
      (ha)
      (hf)
      (by show xf.current + 1 = xa.current + 1; omega)
      (by show xf.start = xa.start; exact hst)
      (by show xf.line = xa.line; exact hl)
      (by show xf.tokens = xa.tokens; exact htk)
      (by show xf.errors = xa.errors; exact her)
      (by show xa.current + 1 ≤ A.length; omega))
  have h0fn : ¬(charAt xf.source xf.current = '(') := by rw [hch]; exact h0
  rw [if_neg h0]
  rw [if_neg h0fn]
  by_cases h1 : charAt xa.source xa.current = ')'
  · have h1f : charAt xf.source xf.current = ')' := by rw [hch]; exact h1
    rw [if_pos h1]
    rw [if_pos h1f]
    exact Or.inl (addToken_simA (A := A) (B := B)
      { xa with current := xa.current + 1 }
      { xf with current := xf.current + 1 }
      (TokenType.RIGHT_PAREN)
      (Literal.none)
      (ha)
      (hf)
      (by show xf.current + 1 = xa.current + 1; omega)
      (by show xf.start = xa.start; exact hst)
      (by show xf.line = xa.line; exact hl)
      (by show xf.tokens = xa.tokens; exact htk)
      (by show xf.errors = xa.errors; exact her)
      (by show xa.current + 1 ≤ A.length; omega))
  have h1fn : ¬(charAt xf.source xf.current = ')') := by rw [hch]; exact h1
  rw [if_neg h1]
  rw [if_neg h1fn]
  by_cases h2 : charAt xa.source xa.current = '\x7b'
  · have h2f : charAt xf.source xf.current = '\x7b' := by rw [hch]; exact h2
    rw [if_pos h2]
    rw [if_pos h2f]
    exact Or.inl (addToken_simA (A := A) (B := B)
      { xa with current := xa.current + 1 }
      { xf with current := xf.current + 1 }
      (TokenType.LEFT_BRACE)
      (Literal.none)
      (ha)
      (hf)
      (by show xf.current + 1 = xa.current + 1; omega)
      (by show xf.start = xa.start; exact hst)
      (by show xf.line = xa.line; exact hl)
      (by show xf.tokens = xa.tokens; exact htk)
      (by show xf.errors = xa.errors; exact her)
      (by show xa.current + 1 ≤ A.length; omega))
  have h2fn : ¬(charAt xf.source xf.current = '\x7b') := by rw [hch]; exact h2
  rw [if_neg h2]
  rw [if_neg h2fn]
  by_cases h3 : charAt xa.source xa.current = '\x7d'
  · have h3f : charAt xf.source xf.current = '\x7d' := by rw [hch]; exact h3
    rw [if_pos h3]
    rw [if_pos h3f]
    exact Or.inl (addToken_simA (A := A) (B := B)
      { xa with current := xa.current + 1 }
      { xf with current := xf.current + 1 }
      (TokenType.RIGHT_BRACE)
      (Literal.none)
      (ha)
      (hf)
      (by show xf.current + 1 = xa.current + 1; omega)
      (by show xf.start = xa.start; exact hst)
      (by show xf.line = xa.line; exact hl)
      (by show xf.tokens = xa.tokens; exact htk)
      (by show xf.errors = xa.errors; exact her)
      (by show xa.current + 1 ≤ A.length; omega))
  have h3fn : ¬(charAt xf.source xf.current = '\x7d') := by rw [hch]; exact h3
  rw [if_neg h3]
  rw [if_neg h3fn]
  by_cases h4 : charAt xa.source xa.current = ','
  · have h4f : charAt xf.source xf.current = ',' := by rw [hch]; exact h4
    rw [if_pos h4]
    rw [if_pos h4f]
    exact Or.inl (addToken_simA (A := A) (B := B)
      { xa with current := xa.current + 1 }
      { xf with current := xf.current + 1 }
      (TokenType.COMMA)
      (Literal.none)
      (ha)
      (hf)
      (by show xf.current + 1 = xa.current + 1; omega)
      (by show xf.start = xa.start; exact hst)
      (by show xf.line = xa.line; exact hl)
      (by show xf.tokens = xa.tokens; exact htk)
      (by show xf.errors = xa.errors; exact her)
      (by show xa.current + 1 ≤ A.length; omega))
  have h4fn : ¬(charAt xf.source xf.current = ',') := by rw [hch]; exact h4
  rw [if_neg h4]
  rw [if_neg h4fn]
  by_cases h5 : charAt xa.source xa.current = '.'
  · have h5f : charAt xf.source xf.current = '.' := by rw [hch]; exact h5
    rw [if_pos h5]
    rw [if_pos h5f]
    exact Or.inl (addToken_simA (A := A) (B := B)
      { xa with current := xa.current + 1 }
      { xf with current := xf.current + 1 }
      (TokenType.DOT)
      (Literal.none)
      (ha)
      (hf)
      (by show xf.current + 1 = xa.current + 1; omega)
      (by show xf.start = xa.start; exact hst)
      (by show xf.line = xa.line; exact hl)
      (by show xf.tokens = xa.tokens; exact htk)
      (by show xf.errors = xa.errors; exact her)
      (by show xa.current + 1 ≤ A.length; omega))
  have h5fn : ¬(charAt xf.source xf.current = '.') := by rw [hch]; exact h5
  rw [if_neg h5]
  rw [if_neg h5fn]
  by_cases h6 : charAt xa.source xa.current = '-'
  · have h6f : charAt xf.source xf.current = '-' := by rw [hch]; exact h6
    rw [if_pos h6]
    rw [if_pos h6f]
    exact Or.inl (addToken_simA (A := A) (B := B)
      { xa with current := xa.current + 1 }
      { xf with current := xf.current + 1 }
      (TokenType.MINUS)
      (Literal.none)
      (ha)
      (hf)
      (by show xf.current + 1 = xa.current + 1; omega)
      (by show xf.start = xa.start; exact hst)
      (by show xf.line = xa.line; exact hl)
      (by show xf.tokens = xa.tokens; exact htk)
      (by show xf.errors = xa.errors; exact her)
      (by show xa.current + 1 ≤ A.length; omega))
  have h6fn : ¬(charAt xf.source xf.current = '-') := by rw [hch]; exact h6
  rw [if_neg h6]
  rw [if_neg h6fn]
  by_cases h7 : charAt xa.source xa.current = '+'
  · have h7f : charAt xf.source xf.current = '+' := by rw [hch]; exact h7
    rw [if_pos h7]
    rw [if_pos h7f]
    exact Or.inl (addToken_simA (A := A) (B := B)
      { xa with current := xa.current + 1 }
      { xf with current := xf.current + 1 }
      (TokenType.PLUS)
      (Literal.none)
      (ha)
      (hf)
      (by show xf.current + 1 = xa.current + 1; omega)
      (by show xf.start = xa.start; exact hst)
      (by show xf.line = xa.line; exact hl)
      (by show xf.tokens = xa.tokens; exact htk)
      (by show xf.errors = xa.errors; exact her)
      (by show xa.current + 1 ≤ A.length; omega))
  have h7fn : ¬(charAt xf.source xf.current = '+') := by rw [hch]; exact h7
  rw [if_neg h7]
  rw [if_neg h7fn]
  by_cases h8 : charAt xa.source xa.current = ';'
  · have h8f : charAt xf.source xf.current = ';' := by rw [hch]; exact h8
    rw [if_pos h8]
    rw [if_pos h8f]
    exact Or.inl (addToken_simA (A := A) (B := B)
      { xa with current := xa.current + 1 }
      { xf with current := xf.current + 1 }
      (TokenType.SEMICOLON)
      (Literal.none)
      (ha)
      (hf)
      (by show xf.current + 1 = xa.current + 1; omega)
      (by show xf.start = xa.start; exact hst)
      (by show xf.line = xa.line; exact hl)
      (by show xf.tokens = xa.tokens; exact htk)
      (by show xf.errors = xa.errors; exact her)
      (by show xa.current + 1 ≤ A.length; omega))
  have h8fn : ¬(charAt xf.source xf.current = ';') := by rw [hch]; exact h8
  rw [if_neg h8]
  rw [if_neg h8fn]
  by_cases h9 : charAt xa.source xa.current = '*'
  · have h9f : charAt xf.source xf.current = '*' := by rw [hch]; exact h9
    rw [if_pos h9]
    rw [if_pos h9f]
    exact Or.inl (addToken_simA (A := A) (B := B)
      { xa with current := xa.current + 1 }
      { xf with current := xf.current + 1 }
      (TokenType.STAR)
      (Literal.none)
      (ha)
      (hf)
      (by show xf.current + 1 = xa.current + 1; omega)
      (by show xf.start = xa.start; exact hst)
      (by show xf.line = xa.line; exact hl)
      (by show xf.tokens = xa.tokens; exact htk)
      (by show xf.errors = xa.errors; exact her)
      (by show xa.current + 1 ≤ A.length; omega))
  have h9fn : ¬(charAt xf.source xf.current = '*') := by rw [hch]; exact h9
  rw [if_neg h9]
  rw [if_neg h9fn]
  by_cases h10 : charAt xa.source xa.current = '!'
  · have h10f : charAt xf.source xf.current = '!' := by rw [hch]; exact h10
    rw [if_pos h10]
    rw [if_pos h10f]
    obtain ⟨hm1, hm2, hm3⟩ := matchChar_simA (A := A) (B := B)
      { xa with current := xa.current + 1 } { xf with current := xf.current + 1 } '='
      ha hf (by show xf.current + 1 = xa.current + 1; omega)
      (by show xa.current + 1 ≤ A.length; omega) (by decide)
    obtain ⟨f1, f2, f3, f4, f5⟩ := matchChar_fields { xf with current := xf.current + 1 } '='
    obtain ⟨g1, g2, g3, g4, g5⟩ := matchChar_fields { xa with current := xa.current + 1 } '='
    rw [hm1]
    exact Or.inl (addToken_simA (A := A) (B := B)
      (matchChar { xa with current := xa.current + 1 } '=').2
      (matchChar { xf with current := xf.current + 1 } '=').2
      (if (matchChar { xa with current := xa.current + 1 } '=').1 then TokenType.BANG_EQUAL else TokenType.BANG)
      (Literal.none)
      (by rw [g1]; exact ha)
      (by rw [f1]; exact hf)
      (hm2)
      (by rw [f2, g2]; show xf.start = xa.start; exact hst)
      (by rw [f3, g3]; show xf.line = xa.line; exact hl)
      (by rw [f4, g4]; show xf.tokens = xa.tokens; exact htk)
      (by rw [f5, g5]; show xf.errors = xa.errors; exact her)
      (hm3))
  have h10fn : ¬(charAt xf.source xf.current = '!') := by rw [hch]; exact h10
  rw [if_neg h10]
  rw [if_neg h10fn]
  by_cases h11 : charAt xa.source xa.current = '='
  · have h11f : charAt xf.source xf.current = '=' := by rw [hch]; exact h11
    rw [if_pos h11]
    rw [if_pos h11f]
    obtain ⟨hm1, hm2, hm3⟩ := matchChar_simA (A := A) (B := B)
      { xa with current := xa.current + 1 } { xf with current := xf.current + 1 } '='
      ha hf (by show xf.current + 1 = xa.current + 1; omega)
      (by show xa.current + 1 ≤ A.length; omega) (by decide)
    obtain ⟨f1, f2, f3, f4, f5⟩ := matchChar_fields { xf with current := xf.current + 1 } '='
    obtain ⟨g1, g2, g3, g4, g5⟩ := matchChar_fields { xa with current := xa.current + 1 } '='
    rw [hm1]
    exact Or.inl (addToken_simA (A := A) (B := B)
      (matchChar { xa with current := xa.current + 1 } '=').2
      (matchChar { xf with current := xf.current + 1 } '=').2
      (if (matchChar { xa with current := xa.current + 1 } '=').1 then TokenType.EQUAL_EQUAL else TokenType.EQUAL)
      (Literal.none)
      (by rw [g1]; exact ha)
      (by rw [f1]; exact hf)
      (hm2)
      (by rw [f2, g2]; show xf.start = xa.start; exact hst)
      (by rw [f3, g3]; show xf.line = xa.line; exact hl)
      (by rw [f4, g4]; show xf.tokens = xa.tokens; exact htk)
      (by rw [f5, g5]; show xf.errors = xa.errors; exact her)
      (hm3))
  have h11fn : ¬(charAt xf.source xf.current = '=') := by rw [hch]; exact h11
  rw [if_neg h11]
  rw [if_neg h11fn]
  by_cases h12 : charAt xa.source xa.current = '<'
  · have h12f : charAt xf.source xf.current = '<' := by rw [hch]; exact h12
    rw [if_pos h12]
    rw [if_pos h12f]
    obtain ⟨hm1, hm2, hm3⟩ := matchChar_simA (A := A) (B := B)
      { xa with current := xa.current + 1 } { xf with current := xf.current + 1 } '='
      ha hf (by show xf.current + 1 = xa.current + 1; omega)
      (by show xa.current + 1 ≤ A.length; omega) (by decide)
    obtain ⟨f1, f2, f3, f4, f5⟩ := matchChar_fields { xf with current := xf.current + 1 } '='
    obtain ⟨g1, g2, g3, g4, g5⟩ := matchChar_fields { xa with current := xa.current + 1 } '='
    rw [hm1]
    exact Or.inl (addToken_simA (A := A) (B := B)
      (matchChar { xa with current := xa.current + 1 } '=').2
      (matchChar { xf with current := xf.current + 1 } '=').2
      (if (matchChar { xa with current := xa.current + 1 } '=').1 then TokenType.LESS_EQUAL else TokenType.LESS)
      (Literal.none)
      (by rw [g1]; exact ha)
      (by rw [f1]; exact hf)
      (hm2)
      (by rw [f2, g2]; show xf.start = xa.start; exact hst)
      (by rw [f3, g3]; show xf.line = xa.line; exact hl)
      (by rw [f4, g4]; show xf.tokens = xa.tokens; exact htk)
      (by rw [f5, g5]; show xf.errors = xa.errors; exact her)
      (hm3))
  have h12fn : ¬(charAt xf.source xf.current = '<') := by rw [hch]; exact h12
  rw [if_neg h12]
  rw [if_neg h12fn]
  by_cases h13 : charAt xa.source xa.current = '>'
  · have h13f : charAt xf.source xf.current = '>' := by rw [hch]; exact h13
    rw [if_pos h13]
    rw [if_pos h13f]
    obtain ⟨hm1, hm2, hm3⟩ := matchChar_simA (A := A) (B := B)
      { xa with current := xa.current + 1 } { xf with current := xf.current + 1 } '='
      ha hf (by show xf.current + 1 = xa.current + 1; omega)
      (by show xa.current + 1 ≤ A.length; omega) (by decide)
    obtain ⟨f1, f2, f3, f4, f5⟩ := matchChar_fields { xf with current := xf.current + 1 } '='
    obtain ⟨g1, g2, g3, g4, g5⟩ := matchChar_fields { xa with current := xa.current + 1 } '='
    rw [hm1]
    exact Or.inl (addToken_simA (A := A) (B := B)
      (matchChar { xa with current := xa.current + 1 } '=').2
      (matchChar { xf with current := xf.current + 1 } '=').2
      (if (matchChar { xa with current := xa.current + 1 } '=').1 then TokenType.GREATER_EQUAL else TokenType.GREATER)
      (Literal.none)
      (by rw [g1]; exact ha)
      (by rw [f1]; exact hf)
      (hm2)
      (by rw [f2, g2]; show xf.start = xa.start; exact hst)
      (by rw [f3, g3]; show xf.line = xa.line; exact hl)
      (by rw [f4, g4]; show xf.tokens = xa.tokens; exact htk)
      (by rw [f5, g5]; show xf.errors = xa.errors; exact her)
      (hm3))
  have h13fn : ¬(charAt xf.source xf.current = '>') := by rw [hch]; exact h13
  rw [if_neg h13]
  rw [if_neg h13fn]
  by_cases h14 : charAt xa.source xa.current = '/'
  · have h14f : charAt xf.source xf.current = '/' := by rw [hch]; exact h14
    rw [if_pos h14]
    rw [if_pos h14f]
    obtain ⟨hm1, hm2, hm3⟩ := matchChar_simA (A := A) (B := B)
      { xa with current := xa.current + 1 } { xf with current := xf.current + 1 } '/'
      ha hf (by show xf.current + 1 = xa.current + 1; omega)
      (by show xa.current + 1 ≤ A.length; omega) (by decide)
    obtain ⟨f1, f2, f3, f4, f5⟩ := matchChar_fields { xf with current := xf.current + 1 } '/'
    obtain ⟨g1, g2, g3, g4, g5⟩ := matchChar_fields { xa with current := xa.current + 1 } '/'
    rw [hm1]
    by_cases hmf : ((matchChar { xa with current := xa.current + 1 } '/').1 = true)
    · rw [if_pos hmf]
      rw [if_pos hmf]
      obtain ⟨hk1, hk2⟩ := commentRun_simA A B A.length (matchChar { xa with current := xa.current + 1 } '/').2 (matchChar { xf with current := xf.current + 1 } '/').2
        (by omega)
        (by rw [g1]; exact ha) (by rw [f1]; exact hf) hm2 hm3
      obtain ⟨cf1, cf2, cf3, cf4, cf5⟩ := commentRun_fields (matchChar { xf with current := xf.current + 1 } '/').2
      obtain ⟨cg1, cg2, cg3, cg4, cg5⟩ := commentRun_fields (matchChar { xa with current := xa.current + 1 } '/').2
      refine Or.inl ⟨hk1, ?_, ?_, ?_, hk2⟩
      · rw [cf3, cg3, f3, g3]
        show xf.line = xa.line
        exact hl
      · rw [cf4, cg4, f4, g4]
        show xf.tokens = xa.tokens
        exact htk
      · rw [cf5, cg5, f5, g5]
        show xf.errors = xa.errors
        exact her
    · rw [if_neg hmf]
      rw [if_neg hmf]
      exact Or.inl (addToken_simA (A := A) (B := B)
        (matchChar { xa with current := xa.current + 1 } '/').2
        (matchChar { xf with current := xf.current + 1 } '/').2
        (TokenType.SLASH)
        (Literal.none)
        (by rw [g1]; exact ha)
        (by rw [f1]; exact hf)
        (hm2)
        (by rw [f2, g2]; show xf.start = xa.start; exact hst)
        (by rw [f3, g3]; show xf.line = xa.line; exact hl)
        (by rw [f4, g4]; show xf.tokens = xa.tokens; exact htk)
        (by rw [f5, g5]; show xf.errors = xa.errors; exact her)
        (hm3))
  have h14fn : ¬(charAt xf.source xf.current = '/') := by rw [hch]; exact h14
  rw [if_neg h14]
  rw [if_neg h14fn]
  by_cases h15 : charAt xa.source xa.current = ' '
  · have h15f : charAt xf.source xf.current = ' ' := by rw [hch]; exact h15
    rw [if_pos h15]
    rw [if_pos h15f]
    refine Or.inl ⟨?_, ?_, ?_, ?_, ?_⟩
    · show xf.current + 1 = xa.current + 1
      omega
    · show xf.line = xa.line
      exact hl
    · show xf.tokens = xa.tokens
      exact htk
    · show xf.errors = xa.errors
      exact her
    · show xa.current + 1 ≤ A.length
      omega
  have h15fn : ¬(charAt xf.source xf.current = ' ') := by rw [hch]; exact h15
  rw [if_neg h15]
  rw [if_neg h15fn]
  by_cases h16 : charAt xa.source xa.current = '\r'
  · have h16f : charAt xf.source xf.current = '\r' := by rw [hch]; exact h16
    rw [if_pos h16]
    rw [if_pos h16f]
    refine Or.inl ⟨?_, ?_, ?_, ?_, ?_⟩
    · show xf.current + 1 = xa.current + 1
      omega
    · show xf.line = xa.line
      exact hl
    · show xf.tokens = xa.tokens
      exact htk
    · show xf.errors = xa.errors
      exact her
    · show xa.current + 1 ≤ A.length
      omega
  have h16fn : ¬(charAt xf.source xf.current = '\r') := by rw [hch]; exact h16
  rw [if_neg h16]
  rw [if_neg h16fn]
  by_cases h17 : charAt xa.source xa.current = '\t'
  · have h17f : charAt xf.source xf.current = '\t' := by rw [hch]; exact h17
    rw [if_pos h17]
    rw [if_pos h17f]
    refine Or.inl ⟨?_, ?_, ?_, ?_, ?_⟩
    · show xf.current + 1 = xa.current + 1
      omega
    · show xf.line = xa.line
      exact hl
    · show xf.tokens = xa.tokens
      exact htk
    · show xf.errors = xa.errors
      exact her
    · show xa.current + 1 ≤ A.length
      omega
  have h17fn : ¬(charAt xf.source xf.current = '\t') := by rw [hch]; exact h17
  rw [if_neg h17]
  rw [if_neg h17fn]
  by_cases h18 : charAt xa.source xa.current = '\n'
  · have h18f : charAt xf.source xf.current = '\n' := by rw [hch]; exact h18
    rw [if_pos h18]
    rw [if_pos h18f]
    refine Or.inl ⟨?_, ?_, ?_, ?_, ?_⟩
    · show xf.current + 1 = xa.current + 1
      omega
    · show xf.line + 1 = xa.line + 1
      rw [hl]
    · show xf.tokens = xa.tokens
      exact htk
    · show xf.errors = xa.errors
      exact her
    · show xa.current + 1 ≤ A.length
      omega
  have h18fn : ¬(charAt xf.source xf.current = '\n') := by rw [hch]; exact h18
  rw [if_neg h18]
  rw [if_neg h18fn]
  by_cases h19 : charAt xa.source xa.current = '"'
  · have h19f : charAt xf.source xf.current = '"' := by rw [hch]; exact h19
    rw [if_pos h19]
    rw [if_pos h19f]
    rcases stringRun_simA A B A.length { xa with current := xa.current + 1 } { xf with current := xf.current + 1 }
        (by show A.length - (xa.current + 1) ≤ A.length; omega)
        ha hf (by show xf.current + 1 = xa.current + 1; omega)
        (by show xf.line = xa.line; exact hl)
        (by show xa.current + 1 ≤ A.length; omega)
      with hterm | ⟨hs1, hs2, hs3, hs4⟩
    · refine Or.inr ⟨(stringRun { xa with current := xa.current + 1 }).line, ?_⟩
      simp only [stringFn]
      rw [if_pos hterm]
      show ((stringRun { xa with current := xa.current + 1 }).line, "Unterminated string.") ∈
        (stringRun { xa with current := xa.current + 1 }).errors ++ [((stringRun { xa with current := xa.current + 1 }).line, "Unterminated string.")]
      exact List.mem_append_right _ (List.mem_singleton.mpr rfl)
    · have sf1 : (stringRun { xf with current := xf.current + 1 }).source = A ++ '\n' :: B := by
        have hh : (stringRun { xf with current := xf.current + 1 }).source = ({ xf with current := xf.current + 1 } : ScanState).source := (stringRun_fields _).1
        rw [hh]
        exact hf
      have sg1 : (stringRun { xa with current := xa.current + 1 }).source = A := by
        have hh : (stringRun { xa with current := xa.current + 1 }).source = ({ xa with current := xa.current + 1 } : ScanState).source := (stringRun_fields _).1
        rw [hh]
        exact ha
      have sf2 : (stringRun { xf with current := xf.current + 1 }).start = xf.start := (stringRun_fields _).2.1
      have sg2 : (stringRun { xa with current := xa.current + 1 }).start = xa.start := (stringRun_fields _).2.1
      have sf3 : (stringRun { xf with current := xf.current + 1 }).tokens = xf.tokens := (stringRun_fields _).2.2.1
      have sg3 : (stringRun { xa with current := xa.current + 1 }).tokens = xa.tokens := (stringRun_fields _).2.2.1
      have sf4 : (stringRun { xf with current := xf.current + 1 }).errors = xf.errors := (stringRun_fields _).2.2.2
      have sg4 : (stringRun { xa with current := xa.current + 1 }).errors = xa.errors := (stringRun_fields _).2.2.2
      have hlta : (stringRun { xa with current := xa.current + 1 }).current < A.length := by
        have hx := isAtEnd_false_iff.mp hs4
        rw [sg1] at hx
        exact hx
      have hf4 : isAtEnd (stringRun { xf with current := xf.current + 1 }) = false := by
        refine isAtEnd_false_iff.mpr ?_
        rw [hs1, sf1, length_cat]
        omega
      have hna : ¬(isAtEnd (stringRun { xa with current := xa.current + 1 }) = true) := by rw [hs4]; exact Bool.false_ne_true
      have hnf : ¬(isAtEnd (stringRun { xf with current := xf.current + 1 }) = true) := by rw [hf4]; exact Bool.false_ne_true
      simp only [stringFn]
      rw [if_neg hna]
      rw [if_neg hnf]
      have hm1 : (stringRun { xa with current := xa.current + 1 }).current + 1 - 1 = (stringRun { xa with current := xa.current + 1 }).current := by omega
      have hm1f : (stringRun { xf with current := xf.current + 1 }).current + 1 - 1 = (stringRun { xf with current := xf.current + 1 }).current := by omega
      have hlexa : substr (stringRun { xa with current := xa.current + 1 }).source ((stringRun { xa with current := xa.current + 1 }).start + 1)
          ((stringRun { xa with current := xa.current + 1 }).current + 1 - 1) =
          substr A (xa.start + 1) ((stringRun { xa with current := xa.current + 1 }).current) := by
        rw [hm1, sg1, sg2]
      have hlexf : substr (stringRun { xf with current := xf.current + 1 }).source ((stringRun { xf with current := xf.current + 1 }).start + 1)
          ((stringRun { xf with current := xf.current + 1 }).current + 1 - 1) =
          substr A (xa.start + 1) ((stringRun { xa with current := xa.current + 1 }).current) := by
        rw [hm1f, sf1, sf2, hs1, hst]
        exact substr_append_left _ (Nat.le_of_lt hlta)
      rw [hlexa, hlexf]
      exact Or.inl (addToken_simA (A := A) (B := B)
        { stringRun { xa with current := xa.current + 1 } with current := (stringRun { xa with current := xa.current + 1 }).current + 1 }
        { stringRun { xf with current := xf.current + 1 } with current := (stringRun { xf with current := xf.current + 1 }).current + 1 }
        (TokenType.STRING)
        (Literal.str (substr A (xa.start + 1) ((stringRun { xa with current := xa.current + 1 }).current)))
      (by show (stringRun { xa with current := xa.current + 1 }).source = A; exact sg1)
      (by show (stringRun { xf with current := xf.current + 1 }).source = A ++ '\n' :: B; exact sf1)
      (by show (stringRun { xf with current := xf.current + 1 }).current + 1 = (stringRun { xa with current := xa.current + 1 }).current + 1; omega)
      (by show (stringRun { xf with current := xf.current + 1 }).start = (stringRun { xa with current := xa.current + 1 }).start; rw [sf2, sg2]; exact hst)
      (by show (stringRun { xf with current := xf.current + 1 }).line = (stringRun { xa with current := xa.current + 1 }).line; exact hs2)
      (by show (stringRun { xf with current := xf.current + 1 }).tokens = (stringRun { xa with current := xa.current + 1 }).tokens; rw [sf3, sg3]; exact htk)
      (by show (stringRun { xf with current := xf.current + 1 }).errors = (stringRun { xa with current := xa.current + 1 }).errors; rw [sf4, sg4]; exact her)
      (by show (stringRun { xa with current := xa.current + 1 }).current + 1 ≤ A.length; omega))
  have h19fn : ¬(charAt xf.source xf.current = '"') := by rw [hch]; exact h19
  rw [if_neg h19]
  rw [if_neg h19fn]
  by_cases h20 : isDigit (charAt xa.source xa.current) = true
  · have h20f : isDigit (charAt xf.source xf.current) = true := by rw [hch]; exact h20
    rw [if_pos h20]
    rw [if_pos h20f]
    obtain ⟨hd1, hd2⟩ := digitsRun_simA A B A.length { xa with current := xa.current + 1 } { xf with current := xf.current + 1 }
      (by show A.length - (xa.current + 1) ≤ A.length; omega)
      ha hf (by show xf.current + 1 = xa.current + 1; omega)
      (by show xa.current + 1 ≤ A.length; omega)
    have hDAsrc : (digitsRun { xa with current := xa.current + 1 }).source = A := by
      have hh : (digitsRun { xa with current := xa.current + 1 }).source = ({ xa with current := xa.current + 1 } : ScanState).source := (digitsRun_fields _).1
      rw [hh]
      exact ha
    have hDFsrc : (digitsRun { xf with current := xf.current + 1 }).source = A ++ '\n' :: B := by
      have hh : (digitsRun { xf with current := xf.current + 1 }).source = ({ xf with current := xf.current + 1 } : ScanState).source := (digitsRun_fields _).1
      rw [hh]
      exact hf
    have hDAst : (digitsRun { xa with current := xa.current + 1 }).start = xa.start := (digitsRun_fields _).2.1
    have hDFst : (digitsRun { xf with current := xf.current + 1 }).start = xf.start := (digitsRun_fields _).2.1
    have hDAln : (digitsRun { xa with current := xa.current + 1 }).line = xa.line := (digitsRun_fields _).2.2.1
    have hDFln : (digitsRun { xf with current := xf.current + 1 }).line = xf.line := (digitsRun_fields _).2.2.1
    have hDAtk : (digitsRun { xa with current := xa.current + 1 }).tokens = xa.tokens := (digitsRun_fields _).2.2.2.1
    have hDFtk : (digitsRun { xf with current := xf.current + 1 }).tokens = xf.tokens := (digitsRun_fields _).2.2.2.1
    have hDAer : (digitsRun { xa with current := xa.current + 1 }).errors = xa.errors := (digitsRun_fields _).2.2.2.2
    have hDFer : (digitsRun { xf with current := xf.current + 1 }).errors = xf.errors := (digitsRun_fields _).2.2.2.2
    have hfr := fracCond_simA (A := A) (B := B) (digitsRun { xa with current := xa.current + 1 }) (digitsRun { xf with current := xf.current + 1 }) hDAsrc hDFsrc hd1 hd2
    simp only [numberFn]
    rw [hfr]
    by_cases hdot : (peek (digitsRun { xa with current := xa.current + 1 }) == '.' && isDigit (peekNext (digitsRun { xa with current := xa.current + 1 }))) = true
    · rw [if_pos hdot]
      rw [if_pos hdot]
      have hdlt : (digitsRun { xa with current := xa.current + 1 }).current < A.length := by
        rw [Bool.and_eq_true] at hdot
        have hp : peek (digitsRun { xa with current := xa.current + 1 }) = '.' := eq_of_beq hdot.1
        have hx : (digitsRun { xa with current := xa.current + 1 }).current < (digitsRun { xa with current := xa.current + 1 }).source.length := by
          by_contra hy
          push_neg at hy
          rw [peek, if_pos (isAtEnd_true_iff.mpr hy)] at hp
          exact absurd hp (by decide)
        rwa [hDAsrc] at hx
      obtain ⟨he1, he2⟩ := digitsRun_simA A B A.length
        { digitsRun { xa with current := xa.current + 1 } with current := (digitsRun { xa with current := xa.current + 1 }).current + 1 }
        { digitsRun { xf with current := xf.current + 1 } with current := (digitsRun { xf with current := xf.current + 1 }).current + 1 }
        (by show A.length - ((digitsRun { xa with current := xa.current + 1 }).current + 1) ≤ A.length; omega)
        (by show (digitsRun { xa with current := xa.current + 1 }).source = A; exact hDAsrc)
        (by show (digitsRun { xf with current := xf.current + 1 }).source = A ++ '\n' :: B; exact hDFsrc)
        (by show (digitsRun { xf with current := xf.current + 1 }).current + 1 = (digitsRun { xa with current := xa.current + 1 }).current + 1; omega)
        (by show (digitsRun { xa with current := xa.current + 1 }).current + 1 ≤ A.length; omega)
      have hEAsrc : (digitsRun { digitsRun { xa with current := xa.current + 1 } with current := (digitsRun { xa with current := xa.current + 1 }).current + 1 }).source = A := by
        have hh : (digitsRun { digitsRun { xa with current := xa.current + 1 } with current := (digitsRun { xa with current := xa.current + 1 }).current + 1 }).source = (digitsRun { xa with current := xa.current + 1 }).source := (digitsRun_fields _).1
        rw [hh]
        exact hDAsrc
      have hEFsrc : (digitsRun { digitsRun { xf with current := xf.current + 1 } with current := (digitsRun { xf with current := xf.current + 1 }).current + 1 }).source = A ++ '\n' :: B := by
        have hh : (digitsRun { digitsRun { xf with current := xf.current + 1 } with current := (digitsRun { xf with current := xf.current + 1 }).current + 1 }).source = (digitsRun { xf with current := xf.current + 1 }).source := (digitsRun_fields _).1
        rw [hh]
        exact hDFsrc
      have hEAst : (digitsRun { digitsRun { xa with current := xa.current + 1 } with current := (digitsRun { xa with current := xa.current + 1 }).current + 1 }).start = xa.start := by
        have hh : (digitsRun { digitsRun { xa with current := xa.current + 1 } with current := (digitsRun { xa with current := xa.current + 1 }).current + 1 }).start = (digitsRun { xa with current := xa.current + 1 }).start := (digitsRun_fields _).2.1
        rw [hh]
        exact hDAst
      have hEFst : (digitsRun { digitsRun { xf with current := xf.current + 1 } with current := (digitsRun { xf with current := xf.current + 1 }).current + 1 }).start = xf.start := by
        have hh : (digitsRun { digitsRun { xf with current := xf.current + 1 } with current := (digitsRun { xf with current := xf.current + 1 }).current + 1 }).start = (digitsRun { xf with current := xf.current + 1 }).start := (digitsRun_fields _).2.1
        rw [hh]
        exact hDFst
      have hEAln : (digitsRun { digitsRun { xa with current := xa.current + 1 } with current := (digitsRun { xa with current := xa.current + 1 }).current + 1 }).line = xa.line := by
        have hh : (digitsRun { digitsRun { xa with current := xa.current + 1 } with current := (digitsRun { xa with current := xa.current + 1 }).current + 1 }).line = (digitsRun { xa with current := xa.current + 1 }).line := (digitsRun_fields _).2.2.1
        rw [hh]
        exact hDAln
      have hEFln : (digitsRun { digitsRun { xf with current := xf.current + 1 } with current := (digitsRun { xf with current := xf.current + 1 }).current + 1 }).line = xf.line := by
        have hh : (digitsRun { digitsRun { xf with current := xf.current + 1 } with current := (digitsRun { xf with current := xf.current + 1 }).current + 1 }).line = (digitsRun { xf with current := xf.current + 1 }).line := (digitsRun_fields _).2.2.1
        rw [hh]
        exact hDFln
      have hEAtk : (digitsRun { digitsRun { xa with current := xa.current + 1 } with current := (digitsRun { xa with current := xa.current + 1 }).current + 1 }).tokens = xa.tokens := by
        have hh : (digitsRun { digitsRun { xa with current := xa.current + 1 } with current := (digitsRun { xa with current := xa.current + 1 }).current + 1 }).tokens = (digitsRun { xa with current := xa.current + 1 }).tokens := (digitsRun_fields _).2.2.2.1
        rw [hh]
        exact hDAtk
      have hEFtk : (digitsRun { digitsRun { xf with current := xf.current + 1 } with current := (digitsRun { xf with current := xf.current + 1 }).current + 1 }).tokens = xf.tokens := by
        have hh : (digitsRun { digitsRun { xf with current := xf.current + 1 } with current := (digitsRun { xf with current := xf.current + 1 }).current + 1 }).tokens = (digitsRun { xf with current := xf.current + 1 }).tokens := (digitsRun_fields _).2.2.2.1
        rw [hh]
        exact hDFtk
      have hEAer : (digitsRun { digitsRun { xa with current := xa.current + 1 } with current := (digitsRun { xa with current := xa.current + 1 }).current + 1 }).errors = xa.errors := by
        have hh : (digitsRun { digitsRun { xa with current := xa.current + 1 } with current := (digitsRun { xa with current := xa.current + 1 }).current + 1 }).errors = (digitsRun { xa with current := xa.current + 1 }).errors := (digitsRun_fields _).2.2.2.2
        rw [hh]
        exact hDAer
      have hEFer : (digitsRun { digitsRun { xf with current := xf.current + 1 } with current := (digitsRun { xf with current := xf.current + 1 }).current + 1 }).errors = xf.errors := by
        have hh : (digitsRun { digitsRun { xf with current := xf.current + 1 } with current := (digitsRun { xf with current := xf.current + 1 }).current + 1 }).errors = (digitsRun { xf with current := xf.current + 1 }).errors := (digitsRun_fields _).2.2.2.2
        rw [hh]
        exact hDFer
      have hlexa : substr (digitsRun { digitsRun { xa with current := xa.current + 1 } with current := (digitsRun { xa with current := xa.current + 1 }).current + 1 }).source (digitsRun { digitsRun { xa with current := xa.current + 1 } with current := (digitsRun { xa with current := xa.current + 1 }).current + 1 }).start (digitsRun { digitsRun { xa with current := xa.current + 1 } with current := (digitsRun { xa with current := xa.current + 1 }).current + 1 }).current =
          substr A xa.start (digitsRun { digitsRun { xa with current := xa.current + 1 } with current := (digitsRun { xa with current := xa.current + 1 }).current + 1 }).current := by
        rw [hEAsrc, hEAst]
      have hlexf : substr (digitsRun { digitsRun { xf with current := xf.current + 1 } with current := (digitsRun { xf with current := xf.current + 1 }).current + 1 }).source (digitsRun { digitsRun { xf with current := xf.current + 1 } with current := (digitsRun { xf with current := xf.current + 1 }).current + 1 }).start (digitsRun { digitsRun { xf with current := xf.current + 1 } with current := (digitsRun { xf with current := xf.current + 1 }).current + 1 }).current =
          substr A xa.start (digitsRun { digitsRun { xa with current := xa.current + 1 } with current := (digitsRun { xa with current := xa.current + 1 }).current + 1 }).current := by
        rw [hEFsrc, hEFst, he1, hst]
        exact substr_append_left _ he2
      rw [hlexa, hlexf]
      exact Or.inl (addToken_simA (A := A) (B := B)
        (digitsRun { digitsRun { xa with current := xa.current + 1 } with current := (digitsRun { xa with current := xa.current + 1 }).current + 1 })
        (digitsRun { digitsRun { xf with current := xf.current + 1 } with current := (digitsRun { xf with current := xf.current + 1 }).current + 1 })
        (TokenType.NUMBER)
        (Literal.num (parseDecimal (substr A xa.start (digitsRun { digitsRun { xa with current := xa.current + 1 } with current := (digitsRun { xa with current := xa.current + 1 }).current + 1 }).current)))
        (by show (digitsRun { digitsRun { xa with current := xa.current + 1 } with current := (digitsRun { xa with current := xa.current + 1 }).current + 1 }).source = A; exact hEAsrc)
        (by show (digitsRun { digitsRun { xf with current := xf.current + 1 } with current := (digitsRun { xf with current := xf.current + 1 }).current + 1 }).source = A ++ '\n' :: B; exact hEFsrc)
        (by show (digitsRun { digitsRun { xf with current := xf.current + 1 } with current := (digitsRun { xf with current := xf.current + 1 }).current + 1 }).current = (digitsRun { digitsRun { xa with current := xa.current + 1 } with current := (digitsRun { xa with current := xa.current + 1 }).current + 1 }).current; exact he1)
        (by show (digitsRun { digitsRun { xf with current := xf.current + 1 } with current := (digitsRun { xf with current := xf.current + 1 }).current + 1 }).start = (digitsRun { digitsRun { xa with current := xa.current + 1 } with current := (digitsRun { xa with current := xa.current + 1 }).current + 1 }).start; rw [hEFst, hEAst]; exact hst)
        (by show (digitsRun { digitsRun { xf with current := xf.current + 1 } with current := (digitsRun { xf with current := xf.current + 1 }).current + 1 }).line = (digitsRun { digitsRun { xa with current := xa.current + 1 } with current := (digitsRun { xa with current := xa.current + 1 }).current + 1 }).line; rw [hEFln, hEAln]; exact hl)
        (by show (digitsRun { digitsRun { xf with current := xf.current + 1 } with current := (digitsRun { xf with current := xf.current + 1 }).current + 1 }).tokens = (digitsRun { digitsRun { xa with current := xa.current + 1 } with current := (digitsRun { xa with current := xa.current + 1 }).current + 1 }).tokens; rw [hEFtk, hEAtk]; exact htk)
        (by show (digitsRun { digitsRun { xf with current := xf.current + 1 } with current := (digitsRun { xf with current := xf.current + 1 }).current + 1 }).errors = (digitsRun { digitsRun { xa with current := xa.current + 1 } with current := (digitsRun { xa with current := xa.current + 1 }).current + 1 }).errors; rw [hEFer, hEAer]; exact her)
        (he2))
    · rw [if_neg hdot]
      rw [if_neg hdot]
      have hlexa : substr (digitsRun { xa with current := xa.current + 1 }).source (digitsRun { xa with current := xa.current + 1 }).start (digitsRun { xa with current := xa.current + 1 }).current =
          substr A xa.start (digitsRun { xa with current := xa.current + 1 }).current := by
        rw [hDAsrc, hDAst]
      have hlexf : substr (digitsRun { xf with current := xf.current + 1 }).source (digitsRun { xf with current := xf.current + 1 }).start (digitsRun { xf with current := xf.current + 1 }).current =
          substr A xa.start (digitsRun { xa with current := xa.current + 1 }).current := by
        rw [hDFsrc, hDFst, hd1, hst]
        exact substr_append_left _ hd2
      rw [hlexa, hlexf]
      exact Or.inl (addToken_simA (A := A) (B := B)
        (digitsRun { xa with current := xa.current + 1 })
        (digitsRun { xf with current := xf.current + 1 })
        (TokenType.NUMBER)
        (Literal.num (parseDecimal (substr A xa.start (digitsRun { xa with current := xa.current + 1 }).current)))
        (by show (digitsRun { xa with current := xa.current + 1 }).source = A; exact hDAsrc)
        (by show (digitsRun { xf with current := xf.current + 1 }).source = A ++ '\n' :: B; exact hDFsrc)
        (by show (digitsRun { xf with current := xf.current + 1 }).current = (digitsRun { xa with current := xa.current + 1 }).current; exact hd1)
        (by show (digitsRun { xf with current := xf.current + 1 }).start = (digitsRun { xa with current := xa.current + 1 }).start; rw [hDFst, hDAst]; exact hst)
        (by show (digitsRun { xf with current := xf.current + 1 }).line = (digitsRun { xa with current := xa.current + 1 }).line; rw [hDFln, hDAln]; exact hl)
        (by show (digitsRun { xf with current := xf.current + 1 }).tokens = (digitsRun { xa with current := xa.current + 1 }).tokens; rw [hDFtk, hDAtk]; exact htk)
        (by show (digitsRun { xf with current := xf.current + 1 }).errors = (digitsRun { xa with current := xa.current + 1 }).errors; rw [hDFer, hDAer]; exact her)
        (hd2))
  have h20fn : ¬(isDigit (charAt xf.source xf.current) = true) := by rw [hch]; exact h20
  rw [if_neg h20]
  rw [if_neg h20fn]
  by_cases h21 : isAlpha (charAt xa.source xa.current) = true
  · have h21f : isAlpha (charAt xf.source xf.current) = true := by rw [hch]; exact h21
    rw [if_pos h21]
    rw [if_pos h21f]
    obtain ⟨hi1, hi2⟩ := identRun_simA A B A.length { xa with current := xa.current + 1 } { xf with current := xf.current + 1 }
      (by show A.length - (xa.current + 1) ≤ A.length; omega)
      ha hf (by show xf.current + 1 = xa.current + 1; omega)
      (by show xa.current + 1 ≤ A.length; omega)
    have hIAsrc : (identRun { xa with current := xa.current + 1 }).source = A := by
      have hh : (identRun { xa with current := xa.current + 1 }).source = ({ xa with current := xa.current + 1 } : ScanState).source := (identRun_fields _).1
      rw [hh]
      exact ha
    have hIFsrc : (identRun { xf with current := xf.current + 1 }).source = A ++ '\n' :: B := by
      have hh : (identRun { xf with current := xf.current + 1 }).source = ({ xf with current := xf.current + 1 } : ScanState).source := (identRun_fields _).1
      rw [hh]
      exact hf
    have hIAst : (identRun { xa with current := xa.current + 1 }).start = xa.start := (identRun_fields _).2.1
    have hIFst : (identRun { xf with current := xf.current + 1 }).start = xf.start := (identRun_fields _).2.1
    have hIAln : (identRun { xa with current := xa.current + 1 }).line = xa.line := (identRun_fields _).2.2.1
    have hIFln : (identRun { xf with current := xf.current + 1 }).line = xf.line := (identRun_fields _).2.2.1
    have hIAtk : (identRun { xa with current := xa.current + 1 }).tokens = xa.tokens := (identRun_fields _).2.2.2.1
    have hIFtk : (identRun { xf with current := xf.current + 1 }).tokens = xf.tokens := (identRun_fields _).2.2.2.1
    have hIAer : (identRun { xa with current := xa.current + 1 }).errors = xa.errors := (identRun_fields _).2.2.2.2
    have hIFer : (identRun { xf with current := xf.current + 1 }).errors = xf.errors := (identRun_fields _).2.2.2.2
    simp only [identifierFn]
    have hlexa : substr (identRun { xa with current := xa.current + 1 }).source (identRun { xa with current := xa.current + 1 }).start (identRun { xa with current := xa.current + 1 }).current =
        substr A xa.start (identRun { xa with current := xa.current + 1 }).current := by
      rw [hIAsrc, hIAst]
    have hlexf : substr (identRun { xf with current := xf.current + 1 }).source (identRun { xf with current := xf.current + 1 }).start (identRun { xf with current := xf.current + 1 }).current =
        substr A xa.start (identRun { xa with current := xa.current + 1 }).current := by
      rw [hIFsrc, hIFst, hi1, hst]
      exact substr_append_left _ hi2
    rw [hlexa, hlexf]
    exact Or.inl (addToken_simA (A := A) (B := B)
      (identRun { xa with current := xa.current + 1 })
      (identRun { xf with current := xf.current + 1 })
      ((keywords (substr A xa.start (identRun { xa with current := xa.current + 1 }).current)).getD TokenType.IDENTIFIER)
      (Literal.none)
      (by show (identRun { xa with current := xa.current + 1 }).source = A; exact hIAsrc)
      (by show (identRun { xf with current := xf.current + 1 }).source = A ++ '\n' :: B; exact hIFsrc)
      (by show (identRun { xf with current := xf.current + 1 }).current = (identRun { xa with current := xa.current + 1 }).current; exact hi1)
      (by show (identRun { xf with current := xf.current + 1 }).start = (identRun { xa with current := xa.current + 1 }).start; rw [hIFst, hIAst]; exact hst)
      (by show (identRun { xf with current := xf.current + 1 }).line = (identRun { xa with current := xa.current + 1 }).line; rw [hIFln, hIAln]; exact hl)
      (by show (identRun { xf with current := xf.current + 1 }).tokens = (identRun { xa with current := xa.current + 1 }).tokens; rw [hIFtk, hIAtk]; exact htk)
      (by show (identRun { xf with current := xf.current + 1 }).errors = (identRun { xa with current := xa.current + 1 }).errors; rw [hIFer, hIAer]; exact her)
      (hi2))
  have h21fn : ¬(isAlpha (charAt xf.source xf.current) = true) := by rw [hch]; exact h21
  rw [if_neg h21]
  rw [if_neg h21fn]
  refine Or.inl ⟨?_, ?_, ?_, ?_, ?_⟩
  · show xf.current + 1 = xa.current + 1
    omega
  · show xf.line = xa.line
    exact hl
  · show xf.tokens = xa.tokens
    exact htk
  · show xf.errors ++ [(xf.line, "Unexpected character.")] =
      xa.errors ++ [(xa.line, "Unexpected character.")]
    rw [her, hl]
  · show xa.current + 1 ≤ A.length
    omega

/-- Phase-1 loop simulation: while the cursor is inside the `A` region of
`A ++ '\n' :: B`, the loop behaves exactly as on `A` alone, unless scanning
`A` alone reports an unterminated string. -/
theorem scanLoop_simA (n : Nat) : ∀ (A B : List Char) (xa xf : ScanState),
    A.length - xa.current ≤ n →
    xa.source = A → xf.source = A ++ '\n' :: B →
    xf.current = xa.current → xf.line = xa.line →
    xf.tokens = xa.tokens → xf.errors = xa.errors →
    xa.current ≤ A.length →
    xa.line = lineAt A xa.current →
    (∀ l, ¬((l, "Unterminated string.") ∈ (scanLoop xa).errors)) →
    ∃ xm : ScanState, scanLoop xf = scanLoop xm ∧
      xm.source = A ++ '\n' :: B ∧ xm.current = A.length ∧
      xm.line = (scanLoop xa).line ∧ xm.tokens = (scanLoop xa).tokens ∧
      xm.errors = (scanLoop xa).errors := by
  induction n with
  | zero =>
    intro A B xa xf hn ha hf hc hl htk her hle hla _
    have hcur : xa.current = A.length := by omega
    have hea : isAtEnd xa = true := isAtEnd_true_iff.mpr (by rw [ha]; omega)
    have hsa : scanLoop xa = xa := scanLoopF_atEnd _ xa hea
    exact ⟨xf, rfl, hf, by omega, by rw [hsa]; exact hl, by rw [hsa]; exact htk,
      by rw [hsa]; exact her⟩
  | succ k ih =>
    intro A B xa xf hn ha hf hc hl htk her hle hla hnu
    by_cases hcase : xa.current = A.length
    · have hea : isAtEnd xa = true := isAtEnd_true_iff.mpr (by rw [ha]; omega)
      have hsa : scanLoop xa = xa := scanLoopF_atEnd _ xa hea
      exact ⟨xf, rfl, hf, by omega, by rw [hsa]; exact hl, by rw [hsa]; exact htk,
        by rw [hsa]; exact her⟩
    · have hlt : xa.current < A.length := by omega
      have hea : isAtEnd xa = false := isAtEnd_false_iff.mpr (by rw [ha]; omega)
      have hef : isAtEnd xf = false := isAtEnd_false_iff.mpr (by rw [hf, length_cat]; omega)
      have hEa : scanLoop xa = scanLoop (scanToken { xa with start := xa.current }) := by
        rw [scanLoop_eq xa, hea]
        simp only [Bool.not_false, if_pos]
      have hEf : scanLoop xf = scanLoop (scanToken { xf with start := xf.current }) := by
        rw [scanLoop_eq xf, hef]
        simp only [Bool.not_false, if_pos]
      obtain ⟨p1, p2, p3, p4, p5, p6, p7⟩ := scanToken_post { xa with start := xa.current }
        rfl (by show xa.current < xa.source.length; rw [ha]; exact hlt)
        (by show xa.line = lineAt xa.source xa.current; rw [ha]; exact hla)
      have hsim := scanToken_simA A B { xa with start := xa.current }
        { xf with start := xf.current }
        (by show xa.source = A; exact ha)
        (by show xf.source = A ++ '\n' :: B; exact hf)
        (by show xf.current = xa.current; exact hc)
        (by show xf.current = xa.current; exact hc)
        (by show xf.line = xa.line; exact hl)
        (by show xf.tokens = xa.tokens; exact htk)
        (by show xf.errors = xa.errors; exact her)
        (by show xa.current < A.length; exact hlt)
      rcases hsim with ⟨hs1, hs2, hs3, hs4, hs5⟩ | ⟨l, hmem⟩
      · have hcs : xa.current + 1 ≤ (scanToken { xa with start := xa.current }).current :=
          scanToken_current_succ_le { xa with start := xa.current }
        have hnu' : ∀ l2, ¬((l2, "Unterminated string.") ∈
            (scanLoop (scanToken { xa with start := xa.current })).errors) := by
          intro l2 hmem2
          exact hnu l2 (by rw [hEa]; exact hmem2)
        obtain ⟨xm, hq1, hq2, hq3, hq4, hq5, hq6⟩ := ih A B
          (scanToken { xa with start := xa.current })
          (scanToken { xf with start := xf.current })
          (by omega)
          (by rw [scanToken_source]; exact ha)
          (by rw [scanToken_source]; exact hf)
          hs1 hs2 hs3 hs4 hs5
          (by
            have hp5 : (scanToken { xa with start := xa.current }).line =
                lineAt A ((scanToken { xa with start := xa.current }).current) := by
              rw [← ha]
              exact p5
            exact hp5)
          hnu'
        exact ⟨xm, by rw [hEf]; exact hq1, hq2, hq3,
          by rw [hEa]; exact hq4, by rw [hEa]; exact hq5, by rw [hEa]; exact hq6⟩
      · exfalso
        have hq2 : (scanToken { xa with start := xa.current }).current ≤
            (scanToken { xa with start := xa.current }).source.length := by
          rw [p1]
          exact p4
        have hql : (scanToken { xa with start := xa.current }).line =
            lineAt (scanToken { xa with start := xa.current }).source
              (scanToken { xa with start := xa.current }).current := by
          rw [p1]
          exact p5
        obtain ⟨_, _, _, _, _, ⟨es, hes⟩, _⟩ :=
          scanLoop_post (scanToken { xa with start := xa.current }) hq2 hql
        refine hnu l ?_
        rw [hEa, hes]
        exact List.mem_append_left _ hmem

/-- A newline character is consumed by advancing the cursor and bumping the
line counter; nothing else changes. -/
theorem scanToken_newline (st : ScanState)
    (h : charAt st.source st.current = '\n') :
    scanToken st = { st with
      current := st.current + 1
      line := st.line + 1 } := by
  simp only [scanToken]
  have h0 : ¬(charAt st.source st.current = '(') := by rw [h]; decide
  have h1 : ¬(charAt st.source st.current = ')') := by rw [h]; decide
  have h2 : ¬(charAt st.source st.current = '\x7b') := by rw [h]; decide
  have h3 : ¬(charAt st.source st.current = '\x7d') := by rw [h]; decide
  have h4 : ¬(charAt st.source st.current = ',') := by rw [h]; decide
  have h5 : ¬(charAt st.source st.current = '.') := by rw [h]; decide
  have h6 : ¬(charAt st.source st.current = '-') := by rw [h]; decide
  have h7 : ¬(charAt st.source st.current = '+') := by rw [h]; decide
  have h8 : ¬(charAt st.source st.current = ';') := by rw [h]; decide
  have h9 : ¬(charAt st.source st.current = '*') := by rw [h]; decide
  have h10 : ¬(charAt st.source st.current = '!') := by rw [h]; decide
  have h11 : ¬(charAt st.source st.current = '=') := by rw [h]; decide
  have h12 : ¬(charAt st.source st.current = '<') := by rw [h]; decide
  have h13 : ¬(charAt st.source st.current = '>') := by rw [h]; decide
  have h14 : ¬(charAt st.source st.current = '/') := by rw [h]; decide
  have h15 : ¬(charAt st.source st.current = ' ') := by rw [h]; decide
  have h16 : ¬(charAt st.source st.current = '\x0d') := by rw [h]; decide
  have h17 : ¬(charAt st.source st.current = '\t') := by rw [h]; decide
  rw [if_neg h0, if_neg h1, if_neg h2, if_neg h3, if_neg h4, if_neg h5, if_neg h6, if_neg h7, if_neg h8, if_neg h9, if_neg h10, if_neg h11, if_neg h12, if_neg h13, if_neg h14, if_neg h15, if_neg h16, if_neg h17, if_pos h]

/-! ## Phase 2: scanning the `B` region of `A ++ '\n' :: B`

After the boundary newline is consumed the cursor sits at offset
`A.length + 1` and every subsequent step mirrors a scan of `B` alone with
all offsets shifted by `A.length + 1` and all line numbers shifted by the
line count of `A`. -/

/-- Number of lines of a source text: one more than its newline count. -/
def lineCount (src : List Char) : Nat := 1 + src.countP (fun c => c == '\n')

/-- Shift a token's line number. -/
def shiftTok (k : Nat) (t : Token) : Token := { t with line := t.line + k }

/-- Shift a diagnostic's line number. -/
def shiftErr (k : Nat) (e : Nat × String) : Nat × String := (e.1 + k, e.2)

theorem isAtEnd_shift {A B : List Char} {xb xf : ScanState}
    (hb : xb.source = B) (hf : xf.source = A ++ '\n' :: B)
    (hc : xf.current = A.length + 1 + xb.current) :
    isAtEnd xf = isAtEnd xb := by
  by_cases h : B.length ≤ xb.current
  · rw [isAtEnd_true_iff.mpr (by rw [hf, length_cat]; omega),
      isAtEnd_true_iff.mpr (by rw [hb]; exact h)]
  · push_neg at h
    rw [isAtEnd_false_iff.mpr (by rw [hf, length_cat]; omega),
      isAtEnd_false_iff.mpr (by rw [hb]; exact h)]

theorem peek_shift {A B : List Char} {xb xf : ScanState}
    (hb : xb.source = B) (hf : xf.source = A ++ '\n' :: B)
    (hc : xf.current = A.length + 1 + xb.current) :
    peek xf = peek xb := by
  by_cases h : isAtEnd xb = true
  · have hff : isAtEnd xf = true := by rw [isAtEnd_shift hb hf hc]; exact h
    rw [peek, peek, if_pos hff, if_pos h]
  · have hff : ¬(isAtEnd xf = true) := by rw [isAtEnd_shift hb hf hc]; exact h
    rw [peek, peek, if_neg hff, if_neg h, hf, hb, hc]
    exact charAt_shift A B xb.current

theorem peekNext_shift {A B : List Char} {xb xf : ScanState}
    (hb : xb.source = B) (hf : xf.source = A ++ '\n' :: B)
    (hc : xf.current = A.length + 1 + xb.current) :
    peekNext xf = peekNext xb := by
  by_cases h : B.length ≤ xb.current + 1
  · have hpb : xb.source.length ≤ xb.current + 1 := by rw [hb]; exact h
    have hpf : xf.source.length ≤ xf.current + 1 := by rw [hf, length_cat]; omega
    rw [peekNext, peekNext, if_pos hpf, if_pos hpb]
  · push_neg at h
    have hpb : ¬(xb.source.length ≤ xb.current + 1) := by rw [hb]; omega
    have hpf : ¬(xf.source.length ≤ xf.current + 1) := by rw [hf, length_cat]; omega
    rw [peekNext, peekNext, if_neg hpf, if_neg hpb, hf, hb]
    have he : xf.current + 1 = A.length + 1 + (xb.current + 1) := by omega
    rw [he]
    exact charAt_shift A B (xb.current + 1)

theorem digitsRun_simSh (A B : List Char) (n : Nat) : ∀ xb xf : ScanState,
    B.length - xb.current ≤ n →
    xb.source = B → xf.source = A ++ '\n' :: B →
    xf.current = A.length + 1 + xb.current →
    (digitsRun xf).current = A.length + 1 + (digitsRun xb).current := by
  induction n with
  | zero =>
    intro xb xf hn hb hf hc
    have heb : isAtEnd xb = true := isAtEnd_true_iff.mpr (by rw [hb]; omega)
    have hpk : peek xb = '\x00' := by rw [peek, if_pos heb]
    have hpb : isDigit (peek xb) = false := by rw [hpk]; decide
    have hpf : isDigit (peek xf) = false := by rw [peek_shift hb hf hc]; exact hpb
    rw [digitsRun_eq xb, if_neg (by rw [hpb]; exact Bool.false_ne_true),
      digitsRun_eq xf, if_neg (by rw [hpf]; exact Bool.false_ne_true)]
    exact hc
  | succ n ih =>
    intro xb xf hn hb hf hc
    have hpk := peek_shift hb hf hc
    by_cases hd : isDigit (peek xb) = true
    · have hlt : xb.current < B.length := by
        have hx := peek_isDigit_lt hd
        rwa [hb] at hx
      rw [digitsRun_eq xb, if_pos hd, digitsRun_eq xf, if_pos (by rw [hpk]; exact hd)]
      exact ih { xb with current := xb.current + 1 } { xf with current := xf.current + 1 }
        (by show B.length - (xb.current + 1) ≤ n; omega)
        (by show xb.source = B; exact hb)
        (by show xf.source = A ++ '\n' :: B; exact hf)
        (by show xf.current + 1 = A.length + 1 + (xb.current + 1); omega)
    · rw [digitsRun_eq xb, if_neg hd, digitsRun_eq xf, if_neg (by rw [hpk]; exact hd)]
      exact hc

theorem identRun_simSh (A B : List Char) (n : Nat) : ∀ xb xf : ScanState,
    B.length - xb.current ≤ n →
    xb.source = B → xf.source = A ++ '\n' :: B →
    xf.current = A.length + 1 + xb.current →
    (identRun xf).current = A.length + 1 + (identRun xb).current := by
  induction n with
  | zero =>
    intro xb xf hn hb hf hc
    have heb : isAtEnd xb = true := isAtEnd_true_iff.mpr (by rw [hb]; omega)
    have hpk : peek xb = '\x00' := by rw [peek, if_pos heb]
    have hpb : isAlphaNumeric (peek xb) = false := by rw [hpk]; decide
    have hpf : isAlphaNumeric (peek xf) = false := by rw [peek_shift hb hf hc]; exact hpb
    rw [identRun_eq xb, if_neg (by rw [hpb]; exact Bool.false_ne_true),
      identRun_eq xf, if_neg (by rw [hpf]; exact Bool.false_ne_true)]
    exact hc
  | succ n ih =>
    intro xb xf hn hb hf hc
    have hpk := peek_shift hb hf hc
    by_cases hd : isAlphaNumeric (peek xb) = true
    · have hlt : xb.current < B.length := by
        have hx := peek_isAlphaNumeric_lt hd
        rwa [hb] at hx
      rw [identRun_eq xb, if_pos hd, identRun_eq xf, if_pos (by rw [hpk]; exact hd)]
      exact ih { xb with current := xb.current + 1 } { xf with current := xf.current + 1 }
        (by show B.length - (xb.current + 1) ≤ n; omega)
        (by show xb.source = B; exact hb)
        (by show xf.source = A ++ '\n' :: B; exact hf)
        (by show xf.current + 1 = A.length + 1 + (xb.current + 1); omega)
    · rw [identRun_eq xb, if_neg hd, identRun_eq xf, if_neg (by rw [hpk]; exact hd)]
      exact hc

theorem commentRun_simSh (A B : List Char) (n : Nat) : ∀ xb xf : ScanState,
    B.length - xb.current ≤ n →
    xb.source = B → xf.source = A ++ '\n' :: B →
    xf.current = A.length + 1 + xb.current →
    (commentRun xf).current = A.length + 1 + (commentRun xb).current := by
  induction n with
  | zero =>
    intro xb xf hn hb hf hc
    have heb : isAtEnd xb = true := isAtEnd_true_iff.mpr (by rw [hb]; omega)
    have hcb : (peek xb != '\n' && !isAtEnd xb) = false := by
      rw [heb]
      simp
    have hcf : (peek xf != '\n' && !isAtEnd xf) = false := by
      rw [peek_shift hb hf hc, isAtEnd_shift hb hf hc]
      exact hcb
    rw [commentRun_eq xb, if_neg (by rw [hcb]; exact Bool.false_ne_true),
      commentRun_eq xf, if_neg (by rw [hcf]; exact Bool.false_ne_true)]
    exact hc
  | succ n ih =>
    intro xb xf hn hb hf hc
    have hcond : (peek xf != '\n' && !isAtEnd xf) = (peek xb != '\n' && !isAtEnd xb) := by
      rw [peek_shift hb hf hc, isAtEnd_shift hb hf hc]
    by_cases hd : (peek xb != '\n' && !isAtEnd xb) = true
    · have hlt : xb.current < B.length := by
        rw [Bool.and_eq_true, Bool.not_eq_true'] at hd
        have hx := isAtEnd_false_iff.mp hd.2
        rwa [hb] at hx
      rw [commentRun_eq xb, if_pos hd, commentRun_eq xf, if_pos (by rw [hcond]; exact hd)]
      exact ih { xb with current := xb.current + 1 } { xf with current := xf.current + 1 }
        (by show B.length - (xb.current + 1) ≤ n; omega)
        (by show xb.source = B; exact hb)
        (by show xf.source = A ++ '\n' :: B; exact hf)
        (by show xf.current + 1 = A.length + 1 + (xb.current + 1); omega)
    · rw [commentRun_eq xb, if_neg hd, commentRun_eq xf, if_neg (by rw [hcond]; exact hd)]
      exact hc

theorem stringRun_simSh (A B : List Char) (k : Nat) (n : Nat) : ∀ xb xf : ScanState,
    B.length - xb.current ≤ n →
    xb.source = B → xf.source = A ++ '\n' :: B →
    xf.current = A.length + 1 + xb.current →
    xf.line = xb.line + k →
    (stringRun xf).current = A.length + 1 + (stringRun xb).current ∧
    (stringRun xf).line = (stringRun xb).line + k := by
  induction n with
  | zero =>
    intro xb xf hn hb hf hc hl
    have heb : isAtEnd xb = true := isAtEnd_true_iff.mpr (by rw [hb]; omega)
    have hcb : (peek xb != '"' && !isAtEnd xb) = false := by
      rw [heb]
      simp
    have hcf : (peek xf != '"' && !isAtEnd xf) = false := by
      rw [peek_shift hb hf hc, isAtEnd_shift hb hf hc]
      exact hcb
    rw [stringRun_eq xb, if_neg (by rw [hcb]; exact Bool.false_ne_true),
      stringRun_eq xf, if_neg (by rw [hcf]; exact Bool.false_ne_true)]
    exact ⟨hc, hl⟩
  | succ n ih =>
    intro xb xf hn hb hf hc hl
    have hcond : (peek xf != '"' && !isAtEnd xf) = (peek xb != '"' && !isAtEnd xb) := by
      rw [peek_shift hb hf hc, isAtEnd_shift hb hf hc]
    by_cases hd : (peek xb != '"' && !isAtEnd xb) = true
    · have hlt : xb.current < B.length := by
        rw [Bool.and_eq_true, Bool.not_eq_true'] at hd
        have hx := isAtEnd_false_iff.mp hd.2
        rwa [hb] at hx
      rw [stringRun_eq xb, if_pos hd, stringRun_eq xf, if_pos (by rw [hcond]; exact hd)]
      exact ih
        { xb with
          line := if peek xb == '\n' then xb.line + 1 else xb.line,
          current := xb.current + 1 }
        { xf with
          line := if peek xf == '\n' then xf.line + 1 else xf.line,
          current := xf.current + 1 }
        (by show B.length - (xb.current + 1) ≤ n; omega)
        (by show xb.source = B; exact hb)
        (by show xf.source = A ++ '\n' :: B; exact hf)
        (by show xf.current + 1 = A.length + 1 + (xb.current + 1); omega)
        (by
          show (if peek xf == '\n' then xf.line + 1 else xf.line) =
            (if peek xb == '\n' then xb.line + 1 else xb.line) + k
          rw [peek_shift hb hf hc, hl]
          by_cases hq : (peek xb == '\n') = true
          · rw [if_pos hq, if_pos hq]
            omega
          · rw [if_neg hq, if_neg hq])
    · rw [stringRun_eq xb, if_neg hd, stringRun_eq xf, if_neg (by rw [hcond]; exact hd)]
      exact ⟨hc, hl⟩

theorem matchChar_simSh {A B : List Char} (xb xf : ScanState) (e : Char)
    (hb : xb.source = B) (hf : xf.source = A ++ '\n' :: B)
    (hc : xf.current = A.length + 1 + xb.current) :
    (matchChar xf e).1 = (matchChar xb e).1 ∧
    (matchChar xf e).2.current = A.length + 1 + (matchChar xb e).2.current := by
  by_cases hend : isAtEnd xb = true
  · have hendf : isAtEnd xf = true := by rw [isAtEnd_shift hb hf hc]; exact hend
    rw [matchChar, matchChar, if_pos hend, if_pos hendf]
    exact ⟨rfl, hc⟩
  · have hendf : ¬(isAtEnd xf = true) := by rw [isAtEnd_shift hb hf hc]; exact hend
    have hch : charAt xf.source xf.current = charAt xb.source xb.current := by
      rw [hf, hb, hc]
      exact charAt_shift A B xb.current
    rw [matchChar, matchChar, if_neg hend, if_neg hendf]
    by_cases hcc : charAt xb.source xb.current ≠ e
    · rw [if_pos hcc, if_pos (by rw [hch]; exact hcc)]
      exact ⟨rfl, hc⟩
    · rw [if_neg hcc, if_neg (by rw [hch]; exact hcc)]
      refine ⟨rfl, ?_⟩
      show xf.current + 1 = A.length + 1 + (xb.current + 1)
      omega

theorem fracCond_simSh {A B : List Char} (xb xf : ScanState)
    (hb : xb.source = B) (hf : xf.source = A ++ '\n' :: B)
    (hc : xf.current = A.length + 1 + xb.current) :
    (peek xf == '.' && isDigit (peekNext xf)) =
      (peek xb == '.' && isDigit (peekNext xb)) := by
  rw [peek_shift hb hf hc, peekNext_shift hb hf hc]

/-- `addToken` preserves the phase-2 shift correspondence: tokens appended
on the two sides differ exactly by the offset and line shifts. -/
theorem addToken_simSh {A B : List Char} (yb yf : ScanState) (t : TokenType)
    (l : Literal) (k : Nat) (T0 : List Token) (E0 : List (Nat × String))
    (hsrcB : yb.source = B) (hsrcF : yf.source = A ++ '\n' :: B)
    (hcur : yf.current = A.length + 1 + yb.current)
    (hsta : yf.start = A.length + 1 + yb.start)
    (hlin : yf.line = yb.line + k)
    (htok : yf.tokens = T0 ++ yb.tokens.map (shiftTok k))
    (herr : yf.errors = E0 ++ yb.errors.map (shiftErr k)) :
    (addToken yf t l).current = A.length + 1 + (addToken yb t l).current ∧
    (addToken yf t l).line = (addToken yb t l).line + k ∧
    (addToken yf t l).tokens = T0 ++ (addToken yb t l).tokens.map (shiftTok k) ∧
    (addToken yf t l).errors = E0 ++ (addToken yb t l).errors.map (shiftErr k) := by
  refine ⟨hcur, hlin, ?_, herr⟩
  show yf.tokens ++ [⟨t, substr yf.source yf.start yf.current, l, yf.line⟩] =
    T0 ++ (yb.tokens ++ [(⟨t, substr yb.source yb.start yb.current, l, yb.line⟩ : Token)]).map (shiftTok k)
  rw [htok, hsrcF, hsrcB, hsta, hcur, hlin, substr_shift, List.map_append]
  simp only [List.map_cons, List.map_nil, shiftTok, List.append_assoc]

/-- One `scanToken` step inside the `B` region of `A ++ '\n' :: B` mirrors
the same step of a scan of `B` alone, with offsets shifted by
`A.length + 1` and line numbers shifted by `k`. -/
theorem scanToken_simSh (A B : List Char) (k : Nat) (T0 : List Token)
    (E0 : List (Nat × String)) (xb xf : ScanState)
    (hb : xb.source = B) (hf : xf.source = A ++ '\n' :: B)
    (hc : xf.current = A.length + 1 + xb.current)
    (hst : xf.start = A.length + 1 + xb.start)
    (hl : xf.line = xb.line + k)
    (htk : xf.tokens = T0 ++ xb.tokens.map (shiftTok k))
    (her : xf.errors = E0 ++ xb.errors.map (shiftErr k)) :
    (scanToken xf).current = A.length + 1 + (scanToken xb).current ∧
    (scanToken xf).line = (scanToken xb).line + k ∧
    (scanToken xf).tokens = T0 ++ (scanToken xb).tokens.map (shiftTok k) ∧
    (scanToken xf).errors = E0 ++ (scanToken xb).errors.map (shiftErr k) := by
  have hch : charAt xf.source xf.current = charAt xb.source xb.current := by
    rw [hf, hb, hc]
    exact charAt_shift A B xb.current
  simp only [scanToken]
  by_cases h0 : charAt xb.source xb.current = '('
  · have h0f : charAt xf.source xf.current = '(' := by rw [hch]; exact h0
    rw [if_pos h0]
    rw [if_pos h0f]
    exact addToken_simSh (A := A) (B := B)
      { xb with current := xb.current + 1 }
      { xf with current := xf.current + 1 }
      (TokenType.LEFT_PAREN)
      (Literal.none)
      k T0 E0
      (hb)
      (hf)
      (by show xf.current + 1 = A.length + 1 + (xb.current + 1); omega)
      (by show xf.start = A.length + 1 + xb.start; exact hst)
      (by show xf.line = xb.line + k; exact hl)
      (by show xf.tokens = T0 ++ xb.tokens.map (shiftTok k); exact htk)
      (by show xf.errors = E0 ++ xb.errors.map (shiftErr k); exact her)
  have h0fn : ¬(charAt xf.source xf.current = '(') := by rw [hch]; exact h0
  rw [if_neg h0]
  rw [if_neg h0fn]
  by_cases h1 : charAt xb.source xb.current = ')'
  · have h1f : charAt xf.source xf.current = ')' := by rw [hch]; exact h1
    rw [if_pos h1]
    rw [if_pos h1f]
    exact addToken_simSh (A := A) (B := B)
      { xb with current := xb.current + 1 }
      { xf with current := xf.current + 1 }
      (TokenType.RIGHT_PAREN)
      (Literal.none)
      k T0 E0
      (hb)
      (hf)
      (by show xf.current + 1 = A.length + 1 + (xb.current + 1); omega)
      (by show xf.start = A.length + 1 + xb.start; exact hst)
      (by show xf.line = xb.line + k; exact hl)
      (by show xf.tokens = T0 ++ xb.tokens.map (shiftTok k); exact htk)
      (by show xf.errors = E0 ++ xb.errors.map (shiftErr k); exact her)
  have h1fn : ¬(charAt xf.source xf.current = ')') := by rw [hch]; exact h1
  rw [if_neg h1]
  rw [if_neg h1fn]
  by_cases h2 : charAt xb.source xb.current = '\x7b'
  · have h2f : charAt xf.source xf.current = '\x7b' := by rw [hch]; exact h2
    rw [if_pos h2]
    rw [if_pos h2f]
    exact addToken_simSh (A := A) (B := B)
      { xb with current := xb.current + 1 }
      { xf with current := xf.current + 1 }
      (TokenType.LEFT_BRACE)
      (Literal.none)
      k T0 E0
      (hb)
      (hf)
      (by show xf.current + 1 = A.length + 1 + (xb.current + 1); omega)
      (by show xf.start = A.length + 1 + xb.start; exact hst)
      (by show xf.line = xb.line + k; exact hl)
      (by show xf.tokens = T0 ++ xb.tokens.map (shiftTok k); exact htk)
      (by show xf.errors = E0 ++ xb.errors.map (shiftErr k); exact her)
  have h2fn : ¬(charAt xf.source xf.current = '\x7b') := by rw [hch]; exact h2
  rw [if_neg h2]
  rw [if_neg h2fn]
  by_cases h3 : charAt xb.source xb.current = '\x7d'
  · have h3f : charAt xf.source xf.current = '\x7d' := by rw [hch]; exact h3
    rw [if_pos h3]
    rw [if_pos h3f]
    exact addToken_simSh (A := A) (B := B)
      { xb with current := xb.current + 1 }
      { xf with current := xf.current + 1 }
      (TokenType.RIGHT_BRACE)
      (Literal.none)
      k T0 E0
      (hb)
      (hf)
      (by show xf.current + 1 = A.length + 1 + (xb.current + 1); omega)
      (by show xf.start = A.length + 1 + xb.start; exact hst)
      (by show xf.line = xb.line + k; exact hl)
      (by show xf.tokens = T0 ++ xb.tokens.map (shiftTok k); exact htk)
      (by show xf.errors = E0 ++ xb.errors.map (shiftErr k); exact her)
  have h3fn : ¬(charAt xf.source xf.current = '\x7d') := by rw [hch]; exact h3
  rw [if_neg h3]
  rw [if_neg h3fn]
  by_cases h4 : charAt xb.source xb.current = ','
  · have h4f : charAt xf.source xf.current = ',' := by rw [hch]; exact h4
    rw [if_pos h4]
    rw [if_pos h4f]
    exact addToken_simSh (A := A) (B := B)
      { xb with current := xb.current + 1 }
      { xf with current := xf.current + 1 }
      (TokenType.COMMA)
      (Literal.none)
      k T0 E0
      (hb)
      (hf)
      (by show xf.current + 1 = A.length + 1 + (xb.current + 1); omega)
      (by show xf.start = A.length + 1 + xb.start; exact hst)
      (by show xf.line = xb.line + k; exact hl)
      (by show xf.tokens = T0 ++ xb.tokens.map (shiftTok k); exact htk)
      (by show xf.errors = E0 ++ xb.errors.map (shiftErr k); exact her)
  have h4fn : ¬(charAt xf.source xf.current = ',') := by rw [hch]; exact h4
  rw [if_neg h4]
  rw [if_neg h4fn]
  by_cases h5 : charAt xb.source xb.current = '.'
  · have h5f : charAt xf.source xf.current = '.' := by rw [hch]; exact h5
    rw [if_pos h5]
    rw [if_pos h5f]
    exact addToken_simSh (A := A) (B := B)
      { xb with current := xb.current + 1 }
      { xf with current := xf.current + 1 }
      (TokenType.DOT)
      (Literal.none)
      k T0 E0
      (hb)
      (hf)
      (by show xf.current + 1 = A.length + 1 + (xb.current + 1); omega)
      (by show xf.start = A.length + 1 + xb.start; exact hst)
      (by show xf.line = xb.line + k; exact hl)
      (by show xf.tokens = T0 ++ xb.tokens.map (shiftTok k); exact htk)
      (by show xf.errors = E0 ++ xb.errors.map (shiftErr k); exact her)
  have h5fn : ¬(charAt xf.source xf.current = '.') := by rw [hch]; exact h5
  rw [if_neg h5]
  rw [if_neg h5fn]
  by_cases h6 : charAt xb.source xb.current = '-'
  · have h6f : charAt xf.source xf.current = '-' := by rw [hch]; exact h6
    rw [if_pos h6]
    rw [if_pos h6f]
    exact addToken_simSh (A := A) (B := B)
      { xb with current := xb.current + 1 }
      { xf with current := xf.current + 1 }
      (TokenType.MINUS)
      (Literal.none)
      k T0 E0
      (hb)
      (hf)
      (by show xf.current + 1 = A.length + 1 + (xb.current + 1); omega)
      (by show xf.start = A.length + 1 + xb.start; exact hst)
      (by show xf.line = xb.line + k; exact hl)
      (by show xf.tokens = T0 ++ xb.tokens.map (shiftTok k); exact htk)
      (by show xf.errors = E0 ++ xb.errors.map (shiftErr k); exact her)
  have h6fn : ¬(charAt xf.source xf.current = '-') := by rw [hch]; exact h6
  rw [if_neg h6]
  rw [if_neg h6fn]
  by_cases h7 : charAt xb.source xb.current = '+'
  · have h7f : charAt xf.source xf.current = '+' := by rw [hch]; exact h7
    rw [if_pos h7]
    rw [if_pos h7f]
    exact addToken_simSh (A := A) (B := B)
      { xb with current := xb.current + 1 }
      { xf with current := xf.current + 1 }
      (TokenType.PLUS)
      (Literal.none)
      k T0 E0
      (hb)
      (hf)
      (by show xf.current + 1 = A.length + 1 + (xb.current + 1); omega)
      (by show xf.start = A.length + 1 + xb.start; exact hst)
      (by show xf.line = xb.line + k; exact hl)
      (by show xf.tokens = T0 ++ xb.tokens.map (shiftTok k); exact htk)
      (by show xf.errors = E0 ++ xb.errors.map (shiftErr k); exact her)
  have h7fn : ¬(charAt xf.source xf.current = '+') := by rw [hch]; exact h7
  rw [if_neg h7]
  rw [if_neg h7fn]
  by_cases h8 : charAt xb.source xb.current = ';'
  · have h8f : charAt xf.source xf.current = ';' := by rw [hch]; exact h8
    rw [if_pos h8]
    rw [if_pos h8f]
    exact addToken_simSh (A := A) (B := B)
      { xb with current := xb.current + 1 }
      { xf with current := xf.current + 1 }
      (TokenType.SEMICOLON)
      (Literal.none)
      k T0 E0
      (hb)
      (hf)
      (by show xf.current + 1 = A.length + 1 + (xb.current + 1); omega)
      (by show xf.start = A.length + 1 + xb.start; exact hst)
      (by show xf.line = xb.line + k; exact hl)
      (by show xf.tokens = T0 ++ xb.tokens.map (shiftTok k); exact htk)
      (by show xf.errors = E0 ++ xb.errors.map (shiftErr k); exact her)
  have h8fn : ¬(charAt xf.source xf.current = ';') := by rw [hch]; exact h8
  rw [if_neg h8]
  rw [if_neg h8fn]
  by_cases h9 : charAt xb.source xb.current = '*'
  · have h9f : charAt xf.source xf.current = '*' := by rw [hch]; exact h9
    rw [if_pos h9]
    rw [if_pos h9f]
    exact addToken_simSh (A := A) (B := B)
      { xb with current := xb.current + 1 }
      { xf with current := xf.current + 1 }
      (TokenType.STAR)
      (Literal.none)
      k T0 E0
      (hb)
      (hf)
      (by show xf.current + 1 = A.length + 1 + (xb.current + 1); omega)
      (by show xf.start = A.length + 1 + xb.start; exact hst)
      (by show xf.line = xb.line + k; exact hl)
      (by show xf.tokens = T0 ++ xb.tokens.map (shiftTok k); exact htk)
      (by show xf.errors = E0 ++ xb.errors.map (shiftErr k); exact her)
  have h9fn : ¬(charAt xf.source xf.current = '*') := by rw [hch]; exact h9
  rw [if_neg h9]
  rw [if_neg h9fn]
  by_cases h10 : charAt xb.source xb.current = '!'
  · have h10f : charAt xf.source xf.current = '!' := by rw [hch]; exact h10
    rw [if_pos h10]
    rw [if_pos h10f]
    obtain ⟨hm1, hm2⟩ := matchChar_simSh (A := A) (B := B)
      { xb with current := xb.current + 1 } { xf with current := xf.current + 1 } '='
      hb hf (by show xf.current + 1 = A.length + 1 + (xb.current + 1); omega)
    obtain ⟨f1, f2, f3, f4, f5⟩ := matchChar_fields { xf with current := xf.current + 1 } '='
    obtain ⟨g1, g2, g3, g4, g5⟩ := matchChar_fields { xb with current := xb.current + 1 } '='
    rw [hm1]
    exact addToken_simSh (A := A) (B := B)
      (matchChar { xb with current := xb.current + 1 } '=').2
      (matchChar { xf with current := xf.current + 1 } '=').2
      (if (matchChar { xb with current := xb.current + 1 } '=').1 then TokenType.BANG_EQUAL else TokenType.BANG)
      (Literal.none)
      k T0 E0
      (by rw [g1]; exact hb)
      (by rw [f1]; exact hf)
      (hm2)
      (by rw [f2, g2]; show xf.start = A.length + 1 + xb.start; exact hst)
      (by rw [f3, g3]; show xf.line = xb.line + k; exact hl)
      (by rw [f4, g4]; show xf.tokens = T0 ++ xb.tokens.map (shiftTok k); exact htk)
      (by rw [f5, g5]; show xf.errors = E0 ++ xb.errors.map (shiftErr k); exact her)
  have h10fn : ¬(charAt xf.source xf.current = '!') := by rw [hch]; exact h10
  rw [if_neg h10]
  rw [if_neg h10fn]
  by_cases h11 : charAt xb.source xb.current = '='
  · have h11f : charAt xf.source xf.current = '=' := by rw [hch]; exact h11
    rw [if_pos h11]
    rw [if_pos h11f]
    obtain ⟨hm1, hm2⟩ := matchChar_simSh (A := A) (B := B)
      { xb with current := xb.current + 1 } { xf with current := xf.current + 1 } '='
      hb hf (by show xf.current + 1 = A.length + 1 + (xb.current + 1); omega)
    obtain ⟨f1, f2, f3, f4, f5⟩ := matchChar_fields { xf with current := xf.current + 1 } '='
    obtain ⟨g1, g2, g3, g4, g5⟩ := matchChar_fields { xb with current := xb.current + 1 } '='
    rw [hm1]
    exact addToken_simSh (A := A) (B := B)
      (matchChar { xb with current := xb.current + 1 } '=').2
      (matchChar { xf with current := xf.current + 1 } '=').2
      (if (matchChar { xb with current := xb.current + 1 } '=').1 then TokenType.EQUAL_EQUAL else TokenType.EQUAL)
      (Literal.none)
      k T0 E0
      (by rw [g1]; exact hb)
      (by rw [f1]; exact hf)
      (hm2)
      (by rw [f2, g2]; show xf.start = A.length + 1 + xb.start; exact hst)
      (by rw [f3, g3]; show xf.line = xb.line + k; exact hl)
      (by rw [f4, g4]; show xf.tokens = T0 ++ xb.tokens.map (shiftTok k); exact htk)
      (by rw [f5, g5]; show xf.errors = E0 ++ xb.errors.map (shiftErr k); exact her)
  have h11fn : ¬(charAt xf.source xf.current = '=') := by rw [hch]; exact h11
  rw [if_neg h11]
  rw [if_neg h11fn]
  by_cases h12 : charAt xb.source xb.current = '<'
  · have h12f : charAt xf.source xf.current = '<' := by rw [hch]; exact h12
    rw [if_pos h12]
    rw [if_pos h12f]
    obtain ⟨hm1, hm2⟩ := matchChar_simSh (A := A) (B := B)
      { xb with current := xb.current + 1 } { xf with current := xf.current + 1 } '='
      hb hf (by show xf.current + 1 = A.length + 1 + (xb.current + 1); omega)
    obtain ⟨f1, f2, f3, f4, f5⟩ := matchChar_fields { xf with current := xf.current + 1 } '='
    obtain ⟨g1, g2, g3, g4, g5⟩ := matchChar_fields { xb with current := xb.current + 1 } '='
    rw [hm1]
    exact addToken_simSh (A := A) (B := B)
      (matchChar { xb with current := xb.current + 1 } '=').2
      (matchChar { xf with current := xf.current + 1 } '=').2
      (if (matchChar { xb with current := xb.current + 1 } '=').1 then TokenType.LESS_EQUAL else TokenType.LESS)
      (Literal.none)
      k T0 E0
      (by rw [g1]; exact hb)
      (by rw [f1]; exact hf)
      (hm2)
      (by rw [f2, g2]; show xf.start = A.length + 1 + xb.start; exact hst)
      (by rw [f3, g3]; show xf.line = xb.line + k; exact hl)
      (by rw [f4, g4]; show xf.tokens = T0 ++ xb.tokens.map (shiftTok k); exact htk)
      (by rw [f5, g5]; show xf.errors = E0 ++ xb.errors.map (shiftErr k); exact her)
  have h12fn : ¬(charAt xf.source xf.current = '<') := by rw [hch]; exact h12
  rw [if_neg h12]
  rw [if_neg h12fn]
  by_cases h13 : charAt xb.source xb.current = '>'
  · have h13f : charAt xf.source xf.current = '>' := by rw [hch]; exact h13
    rw [if_pos h13]
    rw [if_pos h13f]
    obtain ⟨hm1, hm2⟩ := matchChar_simSh (A := A) (B := B)
      { xb with current := xb.current + 1 } { xf with current := xf.current + 1 } '='
      hb hf (by show xf.current + 1 = A.length + 1 + (xb.current + 1); omega)
    obtain ⟨f1, f2, f3, f4, f5⟩ := matchChar_fields { xf with current := xf.current + 1 } '='
    obtain ⟨g1, g2, g3, g4, g5⟩ := matchChar_fields { xb with current := xb.current + 1 } '='
    rw [hm1]
    exact addToken_simSh (A := A) (B := B)
      (matchChar { xb with current := xb.current + 1 } '=').2
      (matchChar { xf with current := xf.current + 1 } '=').2
      (if (matchChar { xb with current := xb.current + 1 } '=').1 then TokenType.GREATER_EQUAL else TokenType.GREATER)
      (Literal.none)
      k T0 E0
      (by rw [g1]; exact hb)
      (by rw [f1]; exact hf)
      (hm2)
      (by rw [f2, g2]; show xf.start = A.length + 1 + xb.start; exact hst)
      (by rw [f3, g3]; show xf.line = xb.line + k; exact hl)
      (by rw [f4, g4]; show xf.tokens = T0 ++ xb.tokens.map (shiftTok k); exact htk)
      (by rw [f5, g5]; show xf.errors = E0 ++ xb.errors.map (shiftErr k); exact her)
  have h13fn : ¬(charAt xf.source xf.current = '>') := by rw [hch]; exact h13
  rw [if_neg h13]
  rw [if_neg h13fn]
  by_cases h14 : charAt xb.source xb.current = '/'
  · have h14f : charAt xf.source xf.current = '/' := by rw [hch]; exact h14
    rw [if_pos h14]
    rw [if_pos h14f]
    obtain ⟨hm1, hm2⟩ := matchChar_simSh (A := A) (B := B)
      { xb with current := xb.current + 1 } { xf with current := xf.current + 1 } '/'
      hb hf (by show xf.current + 1 = A.length + 1 + (xb.current + 1); omega)
    obtain ⟨f1, f2, f3, f4, f5⟩ := matchChar_fields { xf with current := xf.current + 1 } '/'
    obtain ⟨g1, g2, g3, g4, g5⟩ := matchChar_fields { xb with current := xb.current + 1 } '/'
    rw [hm1]
    by_cases hmf : ((matchChar { xb with current := xb.current + 1 } '/').1 = true)
    · rw [if_pos hmf]
      rw [if_pos hmf]
      have hk1 := commentRun_simSh A B B.length (matchChar { xb with current := xb.current + 1 } '/').2 (matchChar { xf with current := xf.current + 1 } '/').2
        (by omega)
        (by rw [g1]; exact hb) (by rw [f1]; exact hf) hm2
      obtain ⟨cf1, cf2, cf3, cf4, cf5⟩ := commentRun_fields (matchChar { xf with current := xf.current + 1 } '/').2
      obtain ⟨cg1, cg2, cg3, cg4, cg5⟩ := commentRun_fields (matchChar { xb with current := xb.current + 1 } '/').2
      refine ⟨hk1, ?_, ?_, ?_⟩
      · rw [cf3, cg3, f3, g3]
        show xf.line = xb.line + k
        exact hl
      · rw [cf4, cg4, f4, g4]
        show xf.tokens = T0 ++ xb.tokens.map (shiftTok k)
        exact htk
      · rw [cf5, cg5, f5, g5]
        show xf.errors = E0 ++ xb.errors.map (shiftErr k)
        exact her
    · rw [if_neg hmf]
      rw [if_neg hmf]
      exact addToken_simSh (A := A) (B := B)
        (matchChar { xb with current := xb.current + 1 } '/').2
        (matchChar { xf with current := xf.current + 1 } '/').2
        (TokenType.SLASH)
        (Literal.none)
        k T0 E0
        (by rw [g1]; exact hb)
        (by rw [f1]; exact hf)
        (hm2)
        (by rw [f2, g2]; show xf.start = A.length + 1 + xb.start; exact hst)
        (by rw [f3, g3]; show xf.line = xb.line + k; exact hl)
        (by rw [f4, g4]; show xf.tokens = T0 ++ xb.tokens.map (shiftTok k); exact htk)
        (by rw [f5, g5]; show xf.errors = E0 ++ xb.errors.map (shiftErr k); exact her)
  have h14fn : ¬(charAt xf.source xf.current = '/') := by rw [hch]; exact h14
  rw [if_neg h14]
  rw [if_neg h14fn]
  by_cases h15 : charAt xb.source xb.current = ' '
  · have h15f : charAt xf.source xf.current = ' ' := by rw [hch]; exact h15
    rw [if_pos h15]
    rw [if_pos h15f]
    refine ⟨?_, ?_, ?_, ?_⟩
    · show xf.current + 1 = A.length + 1 + (xb.current + 1)
      omega
    · show xf.line = xb.line + k
      exact hl
    · show xf.tokens = T0 ++ xb.tokens.map (shiftTok k)
      exact htk
    · show xf.errors = E0 ++ xb.errors.map (shiftErr k)
      exact her
  have h15fn : ¬(charAt xf.source xf.current = ' ') := by rw [hch]; exact h15
  rw [if_neg h15]
  rw [if_neg h15fn]
  by_cases h16 : charAt xb.source xb.current = '\x0d'
  · have h16f : charAt xf.source xf.current = '\x0d' := by rw [hch]; exact h16
    rw [if_pos h16]
    rw [if_pos h16f]
    refine ⟨?_, ?_, ?_, ?_⟩
    · show xf.current + 1 = A.length + 1 + (xb.current + 1)
      omega
    · show xf.line = xb.line + k
      exact hl
    · show xf.tokens = T0 ++ xb.tokens.map (shiftTok k)
      exact htk
    · show xf.errors = E0 ++ xb.errors.map (shiftErr k)
      exact her
  have h16fn : ¬(charAt xf.source xf.current = '\x0d') := by rw [hch]; exact h16
  rw [if_neg h16]
  rw [if_neg h16fn]
  by_cases h17 : charAt xb.source xb.current = '\t'
  · have h17f : charAt xf.source xf.current = '\t' := by rw [hch]; exact h17
    rw [if_pos h17]
    rw [if_pos h17f]
    refine ⟨?_, ?_, ?_, ?_⟩
    · show xf.current + 1 = A.length + 1 + (xb.current + 1)
      omega
    · show xf.line = xb.line + k
      exact hl
    · show xf.tokens = T0 ++ xb.tokens.map (shiftTok k)
      exact htk
    · show xf.errors = E0 ++ xb.errors.map (shiftErr k)
      exact her
  have h17fn : ¬(charAt xf.source xf.current = '\t') := by rw [hch]; exact h17
  rw [if_neg h17]
  rw [if_neg h17fn]
  by_cases h18 : charAt xb.source xb.current = '\n'
  · have h18f : charAt xf.source xf.current = '\n' := by rw [hch]; exact h18
    rw [if_pos h18]
    rw [if_pos h18f]
    refine ⟨?_, ?_, ?_, ?_⟩
    · show xf.current + 1 = A.length + 1 + (xb.current + 1)
      omega
    · show xf.line + 1 = (xb.line + 1) + k
      omega
    · show xf.tokens = T0 ++ xb.tokens.map (shiftTok k)
      exact htk
    · show xf.errors = E0 ++ xb.errors.map (shiftErr k)
      exact her
  have h18fn : ¬(charAt xf.source xf.current = '\n') := by rw [hch]; exact h18
  rw [if_neg h18]
  rw [if_neg h18fn]
  by_cases h19 : charAt xb.source xb.current = '"'
  · have h19f : charAt xf.source xf.current = '"' := by rw [hch]; exact h19
    rw [if_pos h19]
    rw [if_pos h19f]
    obtain ⟨hs1, hs2⟩ := stringRun_simSh A B k B.length { xb with current := xb.current + 1 } { xf with current := xf.current + 1 }
      (by omega) hb hf (by show xf.current + 1 = A.length + 1 + (xb.current + 1); omega)
      (by show xf.line = xb.line + k; exact hl)
    have sf1 : (stringRun { xf with current := xf.current + 1 }).source = A ++ '\n' :: B := by
      have hh : (stringRun { xf with current := xf.current + 1 }).source = ({ xf with current := xf.current + 1 } : ScanState).source := (stringRun_fields _).1
      rw [hh]
      exact hf
    have sg1 : (stringRun { xb with current := xb.current + 1 }).source = B := by
      have hh : (stringRun { xb with current := xb.current + 1 }).source = ({ xb with current := xb.current + 1 } : ScanState).source := (stringRun_fields _).1
      rw [hh]
      exact hb
    have sf2 : (stringRun { xf with current := xf.current + 1 }).start = xf.start := (stringRun_fields _).2.1
    have sg2 : (stringRun { xb with current := xb.current + 1 }).start = xb.start := (stringRun_fields _).2.1
    have sf3 : (stringRun { xf with current := xf.current + 1 }).tokens = xf.tokens := (stringRun_fields _).2.2.1
    have sg3 : (stringRun { xb with current := xb.current + 1 }).tokens = xb.tokens := (stringRun_fields _).2.2.1
    have sf4 : (stringRun { xf with current := xf.current + 1 }).errors = xf.errors := (stringRun_fields _).2.2.2
    have sg4 : (stringRun { xb with current := xb.current + 1 }).errors = xb.errors := (stringRun_fields _).2.2.2
    have hend : isAtEnd (stringRun { xf with current := xf.current + 1 }) = isAtEnd (stringRun { xb with current := xb.current + 1 }) := isAtEnd_shift sg1 sf1 hs1
    simp only [stringFn]
    by_cases hq : isAtEnd (stringRun { xb with current := xb.current + 1 }) = true
    · have hqf : isAtEnd (stringRun { xf with current := xf.current + 1 }) = true := by rw [hend]; exact hq
      rw [if_pos hqf]
      rw [if_pos hq]
      refine ⟨hs1, hs2, ?_, ?_⟩
      · show (stringRun { xf with current := xf.current + 1 }).tokens = T0 ++ (stringRun { xb with current := xb.current + 1 }).tokens.map (shiftTok k)
        rw [sf3, sg3]
        exact htk
      · show (stringRun { xf with current := xf.current + 1 }).errors ++ [((stringRun { xf with current := xf.current + 1 }).line, "Unterminated string.")] =
          E0 ++ ((stringRun { xb with current := xb.current + 1 }).errors ++ [((stringRun { xb with current := xb.current + 1 }).line, "Unterminated string.")]).map (shiftErr k)
        rw [sf4, sg4, hs2, her, List.map_append]
        simp only [List.map_cons, List.map_nil, shiftErr, List.append_assoc]
    · have hqf : ¬(isAtEnd (stringRun { xf with current := xf.current + 1 }) = true) := by rw [hend]; exact hq
      rw [if_neg hqf]
      rw [if_neg hq]
      have hm1f : (stringRun { xf with current := xf.current + 1 }).current + 1 - 1 = (stringRun { xf with current := xf.current + 1 }).current := by omega
      have hm1b : (stringRun { xb with current := xb.current + 1 }).current + 1 - 1 = (stringRun { xb with current := xb.current + 1 }).current := by omega
      have hlexf : substr (stringRun { xf with current := xf.current + 1 }).source ((stringRun { xf with current := xf.current + 1 }).start + 1) ((stringRun { xf with current := xf.current + 1 }).current + 1 - 1) =
          substr B (xb.start + 1) ((stringRun { xb with current := xb.current + 1 }).current) := by
        rw [hm1f, sf1, sf2, hs1]
        have hx : xf.start + 1 = A.length + 1 + (xb.start + 1) := by omega
        rw [hx]
        exact substr_shift A B (xb.start + 1) ((stringRun { xb with current := xb.current + 1 }).current)
      have hlexb : substr (stringRun { xb with current := xb.current + 1 }).source ((stringRun { xb with current := xb.current + 1 }).start + 1) ((stringRun { xb with current := xb.current + 1 }).current + 1 - 1) =
          substr B (xb.start + 1) ((stringRun { xb with current := xb.current + 1 }).current) := by
        rw [hm1b, sg1, sg2]
      rw [hlexf, hlexb]
      exact addToken_simSh (A := A) (B := B)
        { stringRun { xb with current := xb.current + 1 } with current := (stringRun { xb with current := xb.current + 1 }).current + 1 }
        { stringRun { xf with current := xf.current + 1 } with current := (stringRun { xf with current := xf.current + 1 }).current + 1 }
        (TokenType.STRING)
        (Literal.str (substr B (xb.start + 1) ((stringRun { xb with current := xb.current + 1 }).current)))
        k T0 E0
        (by show (stringRun { xb with current := xb.current + 1 }).source = B; exact sg1)
        (by show (stringRun { xf with current := xf.current + 1 }).source = A ++ '\n' :: B; exact sf1)
        (by show (stringRun { xf with current := xf.current + 1 }).current + 1 = A.length + 1 + ((stringRun { xb with current := xb.current + 1 }).current + 1); omega)
        (by show (stringRun { xf with current := xf.current + 1 }).start = A.length + 1 + (stringRun { xb with current := xb.current + 1 }).start; rw [sf2, sg2]; exact hst)
        (by show (stringRun { xf with current := xf.current + 1 }).line = (stringRun { xb with current := xb.current + 1 }).line + k; exact hs2)
        (by show (stringRun { xf with current := xf.current + 1 }).tokens = T0 ++ (stringRun { xb with current := xb.current + 1 }).tokens.map (shiftTok k); rw [sf3, sg3]; exact htk)
        (by show (stringRun { xf with current := xf.current + 1 }).errors = E0 ++ (stringRun { xb with current := xb.current + 1 }).errors.map (shiftErr k); rw [sf4, sg4]; exact her)
  have h19fn : ¬(charAt xf.source xf.current = '"') := by rw [hch]; exact h19
  rw [if_neg h19]
  rw [if_neg h19fn]
  by_cases h20 : isDigit (charAt xb.source xb.current) = true
  · have h20f : isDigit (charAt xf.source xf.current) = true := by rw [hch]; exact h20
    rw [if_pos h20]
    rw [if_pos h20f]
    have hd1 := digitsRun_simSh A B B.length { xb with current := xb.current + 1 } { xf with current := xf.current + 1 }
      (by omega) hb hf (by show xf.current + 1 = A.length + 1 + (xb.current + 1); omega)
    have hDBsrc : (digitsRun { xb with current := xb.current + 1 }).source = B := by
      have hh : (digitsRun { xb with current := xb.current + 1 }).source = ({ xb with current := xb.current + 1 } : ScanState).source := (digitsRun_fields _).1
      rw [hh]
      exact hb
    have hDFsrc : (digitsRun { xf with current := xf.current + 1 }).source = A ++ '\n' :: B := by
      have hh : (digitsRun { xf with current := xf.current + 1 }).source = ({ xf with current := xf.current + 1 } : ScanState).source := (digitsRun_fields _).1
      rw [hh]
      exact hf
    have hDBst : (digitsRun { xb with current := xb.current + 1 }).start = xb.start := (digitsRun_fields _).2.1
    have hDFst : (digitsRun { xf with current := xf.current + 1 }).start = xf.start := (digitsRun_fields _).2.1
    have hDBln : (digitsRun { xb with current := xb.current + 1 }).line = xb.line := (digitsRun_fields _).2.2.1
    have hDFln : (digitsRun { xf with current := xf.current + 1 }).line = xf.line := (digitsRun_fields _).2.2.1
    have hDBtk : (digitsRun { xb with current := xb.current + 1 }).tokens = xb.tokens := (digitsRun_fields _).2.2.2.1
    have hDFtk : (digitsRun { xf with current := xf.current + 1 }).tokens = xf.tokens := (digitsRun_fields _).2.2.2.1
    have hDBer : (digitsRun { xb with current := xb.current + 1 }).errors = xb.errors := (digitsRun_fields _).2.2.2.2
    have hDFer : (digitsRun { xf with current := xf.current + 1 }).errors = xf.errors := (digitsRun_fields _).2.2.2.2
    have hfr := fracCond_simSh (A := A) (B := B) (digitsRun { xb with current := xb.current + 1 }) (digitsRun { xf with current := xf.current + 1 }) hDBsrc hDFsrc hd1
    simp only [numberFn]
    rw [hfr]
    by_cases hdot : (peek (digitsRun { xb with current := xb.current + 1 }) == '.' && isDigit (peekNext (digitsRun { xb with current := xb.current + 1 }))) = true
    · rw [if_pos hdot]
      rw [if_pos hdot]
      have he1 := digitsRun_simSh A B B.length
        { digitsRun { xb with current := xb.current + 1 } with current := (digitsRun { xb with current := xb.current + 1 }).current + 1 }
        { digitsRun { xf with current := xf.current + 1 } with current := (digitsRun { xf with current := xf.current + 1 }).current + 1 }
        (by omega)
        (by show (digitsRun { xb with current := xb.current + 1 }).source = B; exact hDBsrc)
        (by show (digitsRun { xf with current := xf.current + 1 }).source = A ++ '\n' :: B; exact hDFsrc)
        (by show (digitsRun { xf with current := xf.current + 1 }).current + 1 = A.length + 1 + ((digitsRun { xb with current := xb.current + 1 }).current + 1); omega)
      have hEBsrc : (digitsRun { digitsRun { xb with current := xb.current + 1 } with current := (digitsRun { xb with current := xb.current + 1 }).current + 1 }).source = B := by
        have hh : (digitsRun { digitsRun { xb with current := xb.current + 1 } with current := (digitsRun { xb with current := xb.current + 1 }).current + 1 }).source = (digitsRun { xb with current := xb.current + 1 }).source := (digitsRun_fields _).1
        rw [hh]
        exact hDBsrc
      have hEFsrc : (digitsRun { digitsRun { xf with current := xf.current + 1 } with current := (digitsRun { xf with current := xf.current + 1 }).current + 1 }).source = A ++ '\n' :: B := by
        have hh : (digitsRun { digitsRun { xf with current := xf.current + 1 } with current := (digitsRun { xf with current := xf.current + 1 }).current + 1 }).source = (digitsRun { xf with current := xf.current + 1 }).source := (digitsRun_fields _).1
        rw [hh]
        exact hDFsrc
      have hEBst : (digitsRun { digitsRun { xb with current := xb.current + 1 } with current := (digitsRun { xb with current := xb.current + 1 }).current + 1 }).start = xb.start := by
        have hh : (digitsRun { digitsRun { xb with current := xb.current + 1 } with current := (digitsRun { xb with current := xb.current + 1 }).current + 1 }).start = (digitsRun { xb with current := xb.current + 1 }).start := (digitsRun_fields _).2.1
        rw [hh]
        exact hDBst
      have hEFst : (digitsRun { digitsRun { xf with current := xf.current + 1 } with current := (digitsRun { xf with current := xf.current + 1 }).current + 1 }).start = xf.start := by
        have hh : (digitsRun { digitsRun { xf with current := xf.current + 1 } with current := (digitsRun { xf with current := xf.current + 1 }).current + 1 }).start = (digitsRun { xf with current := xf.current + 1 }).start := (digitsRun_fields _).2.1
        rw [hh]
        exact hDFst
      have hEBln : (digitsRun { digitsRun { xb with current := xb.current + 1 } with current := (digitsRun { xb with current := xb.current + 1 }).current + 1 }).line = xb.line := by
        have hh : (digitsRun { digitsRun { xb with current := xb.current + 1 } with current := (digitsRun { xb with current := xb.current + 1 }).current + 1 }).line = (digitsRun { xb with current := xb.current + 1 }).line := (digitsRun_fields _).2.2.1
        rw [hh]
        exact hDBln
      have hEFln : (digitsRun { digitsRun { xf with current := xf.current + 1 } with current := (digitsRun { xf with current := xf.current + 1 }).current + 1 }).line = xf.line := by
        have hh : (digitsRun { digitsRun { xf with current := xf.current + 1 } with current := (digitsRun { xf with current := xf.current + 1 }).current + 1 }).line = (digitsRun { xf with current := xf.current + 1 }).line := (digitsRun_fields _).2.2.1
        rw [hh]
        exact hDFln
      have hEBtk : (digitsRun { digitsRun { xb with current := xb.current + 1 } with current := (digitsRun { xb with current := xb.current + 1 }).current + 1 }).tokens = xb.tokens := by
        have hh : (digitsRun { digitsRun { xb with current := xb.current + 1 } with current := (digitsRun { xb with current := xb.current + 1 }).current + 1 }).tokens = (digitsRun { xb with current := xb.current + 1 }).tokens := (digitsRun_fields _).2.2.2.1
        rw [hh]
        exact hDBtk
      have hEFtk : (digitsRun { digitsRun { xf with current := xf.current + 1 } with current := (digitsRun { xf with current := xf.current + 1 }).current + 1 }).tokens = xf.tokens := by
        have hh : (digitsRun { digitsRun { xf with current := xf.current + 1 } with current := (digitsRun { xf with current := xf.current + 1 }).current + 1 }).tokens = (digitsRun { xf with current := xf.current + 1 }).tokens := (digitsRun_fields _).2.2.2.1
        rw [hh]
        exact hDFtk
      have hEBer : (digitsRun { digitsRun { xb with current := xb.current + 1 } with current := (digitsRun { xb with current := xb.current + 1 }).current + 1 }).errors = xb.errors := by
        have hh : (digitsRun { digitsRun { xb with current := xb.current + 1 } with current := (digitsRun { xb with current := xb.current + 1 }).current + 1 }).errors = (digitsRun { xb with current := xb.current + 1 }).errors := (digitsRun_fields _).2.2.2.2
        rw [hh]
        exact hDBer
      have hEFer : (digitsRun { digitsRun { xf with current := xf.current + 1 } with current := (digitsRun { xf with current := xf.current + 1 }).current + 1 }).errors = xf.errors := by
        have hh : (digitsRun { digitsRun { xf with current := xf.current + 1 } with current := (digitsRun { xf with current := xf.current + 1 }).current + 1 }).errors = (digitsRun { xf with current := xf.current + 1 }).errors := (digitsRun_fields _).2.2.2.2
        rw [hh]
        exact hDFer
      have hlexb : substr (digitsRun { digitsRun { xb with current := xb.current + 1 } with current := (digitsRun { xb with current := xb.current + 1 }).current + 1 }).source (digitsRun { digitsRun { xb with current := xb.current + 1 } with current := (digitsRun { xb with current := xb.current + 1 }).current + 1 }).start (digitsRun { digitsRun { xb with current := xb.current + 1 } with current := (digitsRun { xb with current := xb.current + 1 }).current + 1 }).current =
          substr B xb.start (digitsRun { digitsRun { xb with current := xb.current + 1 } with current := (digitsRun { xb with current := xb.current + 1 }).current + 1 }).current := by
        rw [hEBsrc, hEBst]
      have hlexf : substr (digitsRun { digitsRun { xf with current := xf.current + 1 } with current := (digitsRun { xf with current := xf.current + 1 }).current + 1 }).source (digitsRun { digitsRun { xf with current := xf.current + 1 } with current := (digitsRun { xf with current := xf.current + 1 }).current + 1 }).start (digitsRun { digitsRun { xf with current := xf.current + 1 } with current := (digitsRun { xf with current := xf.current + 1 }).current + 1 }).current =
          substr B xb.start (digitsRun { digitsRun { xb with current := xb.current + 1 } with current := (digitsRun { xb with current := xb.current + 1 }).current + 1 }).current := by
        rw [hEFsrc, hEFst, he1, hst]
        exact substr_shift A B xb.start (digitsRun { digitsRun { xb with current := xb.current + 1 } with current := (digitsRun { xb with current := xb.current + 1 }).current + 1 }).current
      rw [hlexb, hlexf]
      exact addToken_simSh (A := A) (B := B)
        (digitsRun { digitsRun { xb with current := xb.current + 1 } with current := (digitsRun { xb with current := xb.current + 1 }).current + 1 })
        (digitsRun { digitsRun { xf with current := xf.current + 1 } with current := (digitsRun { xf with current := xf.current + 1 }).current + 1 })
        (TokenType.NUMBER)
        (Literal.num (parseDecimal (substr B xb.start (digitsRun { digitsRun { xb with current := xb.current + 1 } with current := (digitsRun { xb with current := xb.current + 1 }).current + 1 }).current)))
        k T0 E0
        (by show (digitsRun { digitsRun { xb with current := xb.current + 1 } with current := (digitsRun { xb with current := xb.current + 1 }).current + 1 }).source = B; exact hEBsrc)
        (by show (digitsRun { digitsRun { xf with current := xf.current + 1 } with current := (digitsRun { xf with current := xf.current + 1 }).current + 1 }).source = A ++ '\n' :: B; exact hEFsrc)
        (by show (digitsRun { digitsRun { xf with current := xf.current + 1 } with current := (digitsRun { xf with current := xf.current + 1 }).current + 1 }).current = A.length + 1 + (digitsRun { digitsRun { xb with current := xb.current + 1 } with current := (digitsRun { xb with current := xb.current + 1 }).current + 1 }).current; exact he1)
        (by show (digitsRun { digitsRun { xf with current := xf.current + 1 } with current := (digitsRun { xf with current := xf.current + 1 }).current + 1 }).start = A.length + 1 + (digitsRun { digitsRun { xb with current := xb.current + 1 } with current := (digitsRun { xb with current := xb.current + 1 }).current + 1 }).start; rw [hEFst, hEBst]; exact hst)
        (by show (digitsRun { digitsRun { xf with current := xf.current + 1 } with current := (digitsRun { xf with current := xf.current + 1 }).current + 1 }).line = (digitsRun { digitsRun { xb with current := xb.current + 1 } with current := (digitsRun { xb with current := xb.current + 1 }).current + 1 }).line + k; rw [hEFln, hEBln]; exact hl)
        (by show (digitsRun { digitsRun { xf with current := xf.current + 1 } with current := (digitsRun { xf with current := xf.current + 1 }).current + 1 }).tokens = T0 ++ (digitsRun { digitsRun { xb with current := xb.current + 1 } with current := (digitsRun { xb with current := xb.current + 1 }).current + 1 }).tokens.map (shiftTok k); rw [hEFtk, hEBtk]; exact htk)
        (by show (digitsRun { digitsRun { xf with current := xf.current + 1 } with current := (digitsRun { xf with current := xf.current + 1 }).current + 1 }).errors = E0 ++ (digitsRun { digitsRun { xb with current := xb.current + 1 } with current := (digitsRun { xb with current := xb.current + 1 }).current + 1 }).errors.map (shiftErr k); rw [hEFer, hEBer]; exact her)
    · rw [if_neg hdot]
      rw [if_neg hdot]
      have hlexb : substr (digitsRun { xb with current := xb.current + 1 }).source (digitsRun { xb with current := xb.current + 1 }).start (digitsRun { xb with current := xb.current + 1 }).current =
          substr B xb.start (digitsRun { xb with current := xb.current + 1 }).current := by
        rw [hDBsrc, hDBst]
      have hlexf : substr (digitsRun { xf with current := xf.current + 1 }).source (digitsRun { xf with current := xf.current + 1 }).start (digitsRun { xf with current := xf.current + 1 }).current =
          substr B xb.start (digitsRun { xb with current := xb.current + 1 }).current := by
        rw [hDFsrc, hDFst, hd1, hst]
        exact substr_shift A B xb.start (digitsRun { xb with current := xb.current + 1 }).current
      rw [hlexb, hlexf]
      exact addToken_simSh (A := A) (B := B)
        (digitsRun { xb with current := xb.current + 1 })
        (digitsRun { xf with current := xf.current + 1 })
        (TokenType.NUMBER)
        (Literal.num (parseDecimal (substr B xb.start (digitsRun { xb with current := xb.current + 1 }).current)))
        k T0 E0
        (by show (digitsRun { xb with current := xb.current + 1 }).source = B; exact hDBsrc)
        (by show (digitsRun { xf with current := xf.current + 1 }).source = A ++ '\n' :: B; exact hDFsrc)
        (by show (digitsRun { xf with current := xf.current + 1 }).current = A.length + 1 + (digitsRun { xb with current := xb.current + 1 }).current; exact hd1)
        (by show (digitsRun { xf with current := xf.current + 1 }).start = A.length + 1 + (digitsRun { xb with current := xb.current + 1 }).start; rw [hDFst, hDBst]; exact hst)
        (by show (digitsRun { xf with current := xf.current + 1 }).line = (digitsRun { xb with current := xb.current + 1 }).line + k; rw [hDFln, hDBln]; exact hl)
        (by show (digitsRun { xf with current := xf.current + 1 }).tokens = T0 ++ (digitsRun { xb with current := xb.current + 1 }).tokens.map (shiftTok k); rw [hDFtk, hDBtk]; exact htk)
        (by show (digitsRun { xf with current := xf.current + 1 }).errors = E0 ++ (digitsRun { xb with current := xb.current + 1 }).errors.map (shiftErr k); rw [hDFer, hDBer]; exact her)
  have h20fn : ¬(isDigit (charAt xf.source xf.current) = true) := by rw [hch]; exact h20
  rw [if_neg h20]
  rw [if_neg h20fn]
  by_cases h21 : isAlpha (charAt xb.source xb.current) = true
  · have h21f : isAlpha (charAt xf.source xf.current) = true := by rw [hch]; exact h21
    rw [if_pos h21]
    rw [if_pos h21f]
    have hi1 := identRun_simSh A B B.length { xb with current := xb.current + 1 } { xf with current := xf.current + 1 }
      (by omega) hb hf (by show xf.current + 1 = A.length + 1 + (xb.current + 1); omega)
    have hIBsrc : (identRun { xb with current := xb.current + 1 }).source = B := by
      have hh : (identRun { xb with current := xb.current + 1 }).source = ({ xb with current := xb.current + 1 } : ScanState).source := (identRun_fields _).1
      rw [hh]
      exact hb
    have hIFsrc : (identRun { xf with current := xf.current + 1 }).source = A ++ '\n' :: B := by
      have hh : (identRun { xf with current := xf.current + 1 }).source = ({ xf with current := xf.current + 1 } : ScanState).source := (identRun_fields _).1
      rw [hh]
      exact hf
    have hIBst : (identRun { xb with current := xb.current + 1 }).start = xb.start := (identRun_fields _).2.1
    have hIFst : (identRun { xf with current := xf.current + 1 }).start = xf.start := (identRun_fields _).2.1
    have hIBln : (identRun { xb with current := xb.current + 1 }).line = xb.line := (identRun_fields _).2.2.1
    have hIFln : (identRun { xf with current := xf.current + 1 }).line = xf.line := (identRun_fields _).2.2.1
    have hIBtk : (identRun { xb with current := xb.current + 1 }).tokens = xb.tokens := (identRun_fields _).2.2.2.1
    have hIFtk : (identRun { xf with current := xf.current + 1 }).tokens = xf.tokens := (identRun_fields _).2.2.2.1
    have hIBer : (identRun { xb with current := xb.current + 1 }).errors = xb.errors := (identRun_fields _).2.2.2.2
    have hIFer : (identRun { xf with current := xf.current + 1 }).errors = xf.errors := (identRun_fields _).2.2.2.2
    simp only [identifierFn]
    have hlexb : substr (identRun { xb with current := xb.current + 1 }).source (identRun { xb with current := xb.current + 1 }).start (identRun { xb with current := xb.current + 1 }).current =
        substr B xb.start (identRun { xb with current := xb.current + 1 }).current := by
      rw [hIBsrc, hIBst]
    have hlexf : substr (identRun { xf with current := xf.current + 1 }).source (identRun { xf with current := xf.current + 1 }).start (identRun { xf with current := xf.current + 1 }).current =
        substr B xb.start (identRun { xb with current := xb.current + 1 }).current := by
      rw [hIFsrc, hIFst, hi1, hst]
      exact substr_shift A B xb.start (identRun { xb with current := xb.current + 1 }).current
    rw [hlexb, hlexf]
    exact addToken_simSh (A := A) (B := B)
      (identRun { xb with current := xb.current + 1 })
      (identRun { xf with current := xf.current + 1 })
      ((keywords (substr B xb.start (identRun { xb with current := xb.current + 1 }).current)).getD TokenType.IDENTIFIER)
      (Literal.none)
      k T0 E0
      (by show (identRun { xb with current := xb.current + 1 }).source = B; exact hIBsrc)
      (by show (identRun { xf with current := xf.current + 1 }).source = A ++ '\n' :: B; exact hIFsrc)
      (by show (identRun { xf with current := xf.current + 1 }).current = A.length + 1 + (identRun { xb with current := xb.current + 1 }).current; exact hi1)
      (by show (identRun { xf with current := xf.current + 1 }).start = A.length + 1 + (identRun { xb with current := xb.current + 1 }).start; rw [hIFst, hIBst]; exact hst)
      (by show (identRun { xf with current := xf.current + 1 }).line = (identRun { xb with current := xb.current + 1 }).line + k; rw [hIFln, hIBln]; exact hl)
      (by show (identRun { xf with current := xf.current + 1 }).tokens = T0 ++ (identRun { xb with current := xb.current + 1 }).tokens.map (shiftTok k); rw [hIFtk, hIBtk]; exact htk)
      (by show (identRun { xf with current := xf.current + 1 }).errors = E0 ++ (identRun { xb with current := xb.current + 1 }).errors.map (shiftErr k); rw [hIFer, hIBer]; exact her)
  have h21fn : ¬(isAlpha (charAt xf.source xf.current) = true) := by rw [hch]; exact h21
  rw [if_neg h21]
  rw [if_neg h21fn]
  refine ⟨?_, ?_, ?_, ?_⟩
  · show xf.current + 1 = A.length + 1 + (xb.current + 1)
    omega
  · show xf.line = xb.line + k
    exact hl
  · show xf.tokens = T0 ++ xb.tokens.map (shiftTok k)
    exact htk
  · show xf.errors ++ [(xf.line, "Unexpected character.")] =
      E0 ++ ((xb.errors ++ [(xb.line, "Unexpected character.")]).map (shiftErr k))
    rw [her, hl, List.map_append]
    simp only [List.map_cons, List.map_nil, shiftErr, List.append_assoc]

/-- At full length the line counter equals the line count of the text. -/
theorem lineAt_full (src : List Char) : lineAt src src.length = lineCount src := by
  unfold lineAt lineCount
  rw [List.take_length]

/-- Phase-2 loop simulation: from the shifted correspondence the rest of the
scan of `A ++ '\n' :: B` mirrors a scan of `B` alone. -/
theorem scanLoop_simSh (n : Nat) : ∀ (A B : List Char) (k : Nat) (T0 : List Token)
    (E0 : List (Nat × String)) (xb xf : ScanState),
    B.length - xb.current ≤ n →
    xb.source = B → xf.source = A ++ '\n' :: B →
    xf.current = A.length + 1 + xb.current →
    xf.line = xb.line + k →
    xf.tokens = T0 ++ xb.tokens.map (shiftTok k) →
    xf.errors = E0 ++ xb.errors.map (shiftErr k) →
    (scanLoop xf).line = (scanLoop xb).line + k ∧
    (scanLoop xf).tokens = T0 ++ (scanLoop xb).tokens.map (shiftTok k) ∧
    (scanLoop xf).errors = E0 ++ (scanLoop xb).errors.map (shiftErr k) := by
  induction n with
  | zero =>
    intro A B k T0 E0 xb xf hn hb hf hc hl htk her
    have heb : isAtEnd xb = true := isAtEnd_true_iff.mpr (by rw [hb]; omega)
    have hef : isAtEnd xf = true := by rw [isAtEnd_shift hb hf hc]; exact heb
    rw [show scanLoop xb = xb from scanLoopF_atEnd _ xb heb]
    rw [show scanLoop xf = xf from scanLoopF_atEnd _ xf hef]
    exact ⟨hl, htk, her⟩
  | succ n ih =>
    intro A B k T0 E0 xb xf hn hb hf hc hl htk her
    by_cases heb : isAtEnd xb = true
    · have hef : isAtEnd xf = true := by rw [isAtEnd_shift hb hf hc]; exact heb
      rw [show scanLoop xb = xb from scanLoopF_atEnd _ xb heb]
      rw [show scanLoop xf = xf from scanLoopF_atEnd _ xf hef]
      exact ⟨hl, htk, her⟩
    · have heb' : isAtEnd xb = false := Bool.eq_false_iff.mpr heb
      have hef' : isAtEnd xf = false := by rw [isAtEnd_shift hb hf hc]; exact heb'
      have hltb : xb.current < B.length := by
        have hx := isAtEnd_false_iff.mp heb'
        rwa [hb] at hx
      have hEb : scanLoop xb = scanLoop (scanToken { xb with start := xb.current }) := by
        rw [scanLoop_eq xb, heb']
        simp only [Bool.not_false, if_pos]
      have hEf : scanLoop xf = scanLoop (scanToken { xf with start := xf.current }) := by
        rw [scanLoop_eq xf, hef']
        simp only [Bool.not_false, if_pos]
      obtain ⟨hs1, hs2, hs3, hs4⟩ := scanToken_simSh A B k T0 E0
        { xb with start := xb.current } { xf with start := xf.current }
        (by show xb.source = B; exact hb)
        (by show xf.source = A ++ '\n' :: B; exact hf)
        (by show xf.current = A.length + 1 + xb.current; exact hc)
        (by show xf.current = A.length + 1 + xb.current; exact hc)
        (by show xf.line = xb.line + k; exact hl)
        (by show xf.tokens = T0 ++ xb.tokens.map (shiftTok k); exact htk)
        (by show xf.errors = E0 ++ xb.errors.map (shiftErr k); exact her)
      have hcs : xb.current + 1 ≤ (scanToken { xb with start := xb.current }).current :=
        scanToken_current_succ_le { xb with start := xb.current }
      have hsrcb : (scanToken { xb with start := xb.current }).source = B := by
        rw [scanToken_source]
        exact hb
      obtain ⟨hq1, hq2, hq3⟩ := ih A B k T0 E0
        (scanToken { xb with start := xb.current })
        (scanToken { xf with start := xf.current })
        (by rw [hsrcb] at *; omega)
        hsrcb
        (by rw [scanToken_source]; exact hf)
        hs1 hs2 hs3 hs4
      exact ⟨by rw [hEf, hEb]; exact hq1, by rw [hEf, hEb]; exact hq2,
        by rw [hEf, hEb]; exact hq3⟩

/-- C4: scanning the concatenation of two inputs with a newline between them
produces the first input's tokens (without its EOF) followed by the second
input's tokens with line numbers offset by the first input's line count —
provided the scan of the first input reports no "Unterminated string."
diagnostic (otherwise the opening quote captures the separator and the
second input, and the token streams genuinely differ). -/
theorem scan_concat (A B : List Char)
    (h : ∀ e ∈ (scan A).errors, e.2 ≠ "Unterminated string.") :
    (scan (A ++ '\n' :: B)).tokens =
      (scan A).tokens.dropLast ++ (scan B).tokens.map (shiftTok (lineCount A)) := by
  have hnu : ∀ l, ¬((l, "Unterminated string.") ∈ (scanLoop ⟨A, 0, 0, 1, [], []⟩).errors) := by
    intro l hmem
    have hx : ((l, "Unterminated string.") : Nat × String) ∈ (scan A).errors := by
      rw [scan_errors_eq]
      exact hmem
    exact h _ hx rfl
  obtain ⟨xm, hq1, hq2, hq3, hq4, hq5, hq6⟩ := scanLoop_simA A.length A B
    ⟨A, 0, 0, 1, [], []⟩ ⟨A ++ '\n' :: B, 0, 0, 1, [], []⟩
    (by show A.length - 0 ≤ A.length; omega)
    rfl rfl rfl rfl rfl rfl
    (by show (0 : Nat) ≤ A.length; omega)
    (by show (1 : Nat) = lineAt A 0; rw [lineAt_zero])
    hnu
  have hxm_lt : xm.current < xm.source.length := by
    rw [hq3, hq2, length_cat]
    omega
  have hxm_end : isAtEnd xm = false := isAtEnd_false_iff.mpr hxm_lt
  have hEm : scanLoop xm = scanLoop (scanToken { xm with start := xm.current }) := by
    rw [scanLoop_eq xm, hxm_end]
    simp only [Bool.not_false, if_pos]
  have hch : charAt ({ xm with start := xm.current } : ScanState).source
      ({ xm with start := xm.current } : ScanState).current = '\n' := by
    show charAt xm.source xm.current = '\n'
    rw [hq2, hq3]
    exact charAt_boundary A B
  have hstep := scanToken_newline { xm with start := xm.current } hch
  rw [hstep] at hEm
  have hEm2 : scanLoop xm = scanLoop { xm with
      start := xm.current
      current := xm.current + 1
      line := xm.line + 1 } := by
    rw [hEm]
  have hLm : xm.line = lineCount A := by
    rw [hq4, (scanLoop_init_post A).2.2.1, lineAt_full]
  obtain ⟨hr1, hr2, hr3⟩ := scanLoop_simSh B.length A B (lineCount A)
    (scanLoop ⟨A, 0, 0, 1, [], []⟩).tokens (scanLoop ⟨A, 0, 0, 1, [], []⟩).errors
    ⟨B, 0, 0, 1, [], []⟩
    { xm with
      start := xm.current
      current := xm.current + 1
      line := xm.line + 1 }
    (by show B.length - 0 ≤ B.length; omega)
    rfl
    (by show xm.source = A ++ '\n' :: B; exact hq2)
    (by show xm.current + 1 = A.length + 1 + 0; omega)
    (by show xm.line + 1 = 1 + lineCount A; omega)
    (by
      show xm.tokens = (scanLoop ⟨A, 0, 0, 1, [], []⟩).tokens ++
        List.map (shiftTok (lineCount A)) []
      simp only [List.map_nil, List.append_nil]
      exact hq5)
    (by
      show xm.errors = (scanLoop ⟨A, 0, 0, 1, [], []⟩).errors ++
        List.map (shiftErr (lineCount A)) []
      simp only [List.map_nil, List.append_nil]
      exact hq6)
  have hLF : scanLoop ⟨A ++ '\n' :: B, 0, 0, 1, [], []⟩ = scanLoop { xm with
      start := xm.current
      current := xm.current + 1
      line := xm.line + 1 } := hq1.trans hEm2
  rw [scan_tokens_eq (A ++ '\n' :: B), scan_tokens_eq A, scan_tokens_eq B,
    hLF, hr2, hr1, List.dropLast_concat, List.map_append]
  simp only [List.map_cons, List.map_nil, shiftTok, List.append_assoc]

/-- The proviso in the concatenation property is necessary: a lone quote on
each side scans to an unterminated-string diagnostic separately, but their
newline-joined concatenation scans to one STRING token. -/
theorem scan_concat_cex :
    ¬((scan (['"'] ++ '\n' :: ['"'])).tokens =
      (scan ['"']).tokens.dropLast ++
        (scan ['"']).tokens.map (shiftTok (lineCount ['"']))) := by
  decide

theorem scan_concat_witness :
    (∀ e ∈ (scan ['a']).errors, e.2 ≠ "Unterminated string.") ∧
    (scan (['a'] ++ '\n' :: ['b'])).tokens =
      (scan ['a']).tokens.dropLast ++
        (scan ['b']).tokens.map (shiftTok (lineCount ['a'])) :=
  ⟨by decide, scan_concat ['a'] ['b'] (by decide)⟩
